import Mathlib

/-! Request-dispatch core of the `s` HTTP/WebSocket server.

A shallow embedding of `HttpServ.go` (log sanitisation, route resolution,
argument assembly, filters, authorization, panic recovery) together with the
properties established about it.
-/

namespace S

/-! ## Strings -/

/-- A Go `string`: an immutable sequence of bytes. `len` is `List.length`,
`v[i:j]` is `(v.take j).drop i`. -/
abbrev GoString := List UInt8

/-- The bytes of an ASCII literal. -/
def ascii (s : String) : GoString := s.toList.map (fun c => c.toNat.toUInt8)

/-- The byte `*`. -/
def star : UInt8 := 42

/-- Model of `strings.ToLower` on ASCII text: `A`..`Z` are moved to `a`..`z`, every other
byte is kept (Go additionally maps non-ASCII runes through `unicode.ToLower`). -/
def ToLower (s : GoString) : GoString :=
  s.map (fun b => if 65 ≤ b.toNat ∧ b.toNat ≤ 90 then (b.toNat + 32).toUInt8 else b)

/-- Model of `strings.Replace(s, string(old), "", n)` for a one-byte `old`: the first `n`
occurrences of the byte are removed. -/
def removeByte (old : UInt8) : Nat → GoString → GoString
  | _, [] => []
  | 0, s => s
  | n + 1, b :: s => if b = old then removeByte old n s else b :: removeByte old (n + 1) s

/-! ## Values seen through `reflect` -/

/-- The part of `reflect.Type` that the server inspects. `map elem` is the type
`map[string]elem`; `otherMap name elem` is any other map type with element type
`elem`, one whose key type is not `string` or a defined map type, and `name` is its
`Type.String()`. -/
inductive GoType where
  | basic (name : GoString)
  | struct (name : GoString)
  | map (elem : GoType)
  | slice (elem : GoType)
  | iface
  | ptr (elem : GoType)
  | otherMap (name : GoString) (elem : GoType)
deriving DecidableEq, Repr

/-- Model of `Type.String()`. -/
def GoType.String : GoType → GoString
  | .basic n => n
  | .struct n => n
  | .map e => ascii "map[string]" ++ e.String
  | .slice e => ascii "[]" ++ e.String
  | .iface => ascii "interface {}"
  | .ptr e => ascii "*" ++ e.String
  | .otherMap n _ => n

/-- A `reflect.Value`.
* `invalid` is the zero Value (`reflect.ValueOf(nil)`, the element of a nil pointer);
* `scalar` is a value of any kind other than struct, map, slice, interface and
  pointer, with its type name and its text;
* `iface dyn` is a Value of kind Interface (a field, element or map value whose
  static type is `interface{}`) holding `dyn`, `invalid` when it holds nil;
* `ptr elem target` is a pointer to `target`, nil when `target` is `invalid`;
* `map elem entries` is a map of type `map[string]elem` that is not nil,
  `nilMap elem` is the nil map of that type;
* `otherMap name elem` is a map without entries, nil or not, of the map type
  `otherMap name elem`. -/
inductive GoValue where
  | invalid
  | scalar (type : GoString) (text : GoString)
  | struct (type : GoString) (fields : List (GoString × GoValue))
  | map (elem : GoType) (entries : List (GoString × GoValue))
  | slice (elem : GoType) (items : List GoValue)
  | iface (dyn : GoValue)
  | ptr (elem : GoType) (target : GoValue)
  | nilMap (elem : GoType)
  | otherMap (name : GoString) (elem : GoType)

/-- Model of `Value.Type()`; `none` on the zero Value, where Go panics. -/
def GoValue.Type : GoValue → Option GoType
  | .invalid => none
  | .scalar t _ => some (.basic t)
  | .struct t _ => some (.struct t)
  | .map e _ => some (.map e)
  | .slice e _ => some (.slice e)
  | .iface _ => some .iface
  | .ptr e _ => some (.ptr e)
  | .nilMap e => some (.map e)
  | .otherMap n e => some (.otherMap n e)

/-- Model of `Value.IsValid()`. -/
def GoValue.IsValid : GoValue → Bool
  | .invalid => false
  | _ => true

/-- A Go `string` value. -/
def GoValue.ofString (s : GoString) : GoValue := .scalar (ascii "string") s

/-- A run-time panic raised inside `reflect`, with its message as payload. -/
def reflectPanic {α : Type} (msg : String) : Except GoValue α :=
  .error (.scalar (ascii "*reflect.ValueError") (ascii msg))

/-- A Go map with string keys, as the list of its entries (keys distinct). -/
abbrev GoMap := List (GoString × GoValue)

/-- Model of `m[k]`, `none` when the key is absent. -/
def GoMap.get (m : GoMap) (k : GoString) : Option GoValue :=
  match m with
  | [] => none
  | (k', v) :: rest => if k' = k then some v else GoMap.get rest k

/-- Model of `m[k] = v`. -/
def GoMap.set (m : GoMap) (k : GoString) (v : GoValue) : GoMap :=
  match m with
  | [] => [(k, v)]
  | (k', v') :: rest => if k' = k then (k, v) :: rest else (k', v') :: GoMap.set rest k v

/-- Model of `delete(m, k)`. -/
def GoMap.delete (m : GoMap) (k : GoString) : GoMap :=
  m.filter (fun e => e.1 ≠ k)

/-- Model of `Value.SetMapIndex(key, elem)` on a map with element type `elemType`: the zero
Value deletes the key, a value that is not assignable to the element type
panics, a value stored in an `interface{}` slot is held by that interface. -/
def SetMapIndex (elemType : GoType) (m : GoMap) (k : GoString) (elem : GoValue) :
    Except GoValue GoMap :=
  match elem with
  | .invalid => .ok (GoMap.delete m k)
  | x =>
    if elemType = .iface then .ok (GoMap.set m k (.iface x))
    else if x.Type = some elemType then .ok (GoMap.set m k x)
    else reflectPanic "reflect.Value.SetMapIndex: value is not assignable to the map element type"

/-- Model of `reflect.Append(s, x)` on a slice of type `Arr` (`[]interface{}`): the zero
Value cannot be stored (`Value.Set` panics on it). -/
def Append (s : List GoValue) (x : GoValue) : Except GoValue (List GoValue) :=
  match x with
  | .invalid => reflectPanic "reflect: call of reflect.Value.Set on zero Value"
  | x => .ok (s ++ [.iface x])

/-! ## Log sanitiser -/

/-- Model of `requireEncryptField` (HttpServ.go 477-479); `encryptLogFields` is the
configured set. -/
def requireEncryptField (encryptLogFields : GoString → Bool) (k : GoString) : Bool :=
  encryptLogFields (ToLower (removeByte 45 3 k))

/-- Model of `encryptField` (HttpServ.go 481-494); `uString` is `u.String`, the string
form of a value. -/
def encryptField (uString : GoValue → GoString) (value : GoValue) : GoString :=
  let v := uString value
  if v.length > 12 then
    v.take 3 ++ [star, star, star] ++ v.drop (v.length - 3)
  else if v.length > 8 then
    v.take 2 ++ [star, star, star] ++ v.drop (v.length - 2)
  else if v.length > 4 then
    v.take 1 ++ [star, star, star] ++ v.drop (v.length - 1)
  else if v.length > 1 then
    v.take 1 ++ [star]
  else
    [star, star]

/-- The value held by the `interface{}` that `Value.Interface()` returns. -/
def GoValue.Interface : GoValue → GoValue
  | .iface dyn => dyn
  | x => x

/-- A run-time error panic (nil dereference, index out of range). -/
def runtimePanic {α : Type} (msg : String) : Except GoValue α :=
  .error (.scalar (ascii "runtime.Error") (ascii msg))

/-- The test `allows != nil && (*allows)[strings.ToLower(k)] == false` negated:
the name passes the allow set. -/
def allowed (allows : Option (GoString → Bool)) (k : GoString) : Bool :=
  match allows with
  | none => true
  | some a => a (ToLower k)

/-- The text `fmt.Sprintf("%s (%d)", tStr, n)` as a string value. -/
def placeholder (tStr : GoString) (n : Nat) : GoValue :=
  .ofString (tStr ++ ascii " (" ++ ascii (toString n) ++ ascii ")")

mutual
/-- Model of `makeLogableData` (HttpServ.go 564-634). `.error` is a panic. The pointer
loop of lines 569-572 is the `ptr` case: a non-nil pointer continues with its
target, a nil pointer reaches the `switch` with the zero Value. A map without
keys, nil or not, yields the empty map that `reflect.MakeMap` makes of its
type. -/
def makeLogableData (uString : GoValue → GoString) (enc : GoString → Bool) (v : GoValue)
    (allows : Option (GoString → Bool)) (numArrays : Int) (level : Nat) :
    Except GoValue GoValue :=
  match v with
  | .invalid => reflectPanic "reflect: call of reflect.Value.Type on zero Value"
  | .ptr e .invalid =>
    match e with
    | .basic _ => .ok .invalid
    | .ptr _ => reflectPanic "reflect: call of reflect.Value.Elem on zero Value"
    | .struct _ => reflectPanic "reflect: call of reflect.Value.NumField on zero Value"
    | .map _ => reflectPanic "reflect: call of reflect.Value.MapKeys on zero Value"
    | .otherMap _ _ => reflectPanic "reflect: call of reflect.Value.MapKeys on zero Value"
    | .slice _ => reflectPanic "reflect: call of reflect.Value.Len on zero Value"
    | .iface => reflectPanic "reflect: call of reflect.Value.Interface on zero Value"
  | .ptr _ target => makeLogableData uString enc target allows numArrays level
  | .struct t fields =>
    match makeLogableFields uString enc (.struct t fields) fields allows numArrays level [] with
    | .error p => .error p
    | .ok v2 => .ok (.map .iface v2)
  | .map e entries =>
    match makeLogableEntries uString enc (.map e entries) e entries allows numArrays level [] with
    | .error p => .error p
    | .ok v2 => .ok (.map e v2)
  | .nilMap e => .ok (.map e [])
  | .otherMap n e => .ok (.otherMap n e)
  | .slice e items =>
    if numArrays = 0 then
      match e, items with
      | .iface, first :: _ =>
        match first.Interface.Type with
        | none => runtimePanic "invalid memory address or nil pointer dereference"
        | some t => .ok (placeholder t.String items.length)
      | _, _ => .ok (placeholder e.String items.length)
    else
      match makeLogableItems uString enc items 0 numArrays level [] with
      | .error p => .error p
      | .ok v2 => .ok (.slice .iface v2)
  | .iface .invalid => .ok .invalid
  | .iface (.iface d) => .ok (.iface d)
  | .iface dyn => makeLogableData uString enc dyn none numArrays level
  | .scalar t x => .ok (.scalar t x)
termination_by structural v

/-- The loop over the fields of the struct `whole` (lines 577-587); `v2` is the
map built so far. -/
def makeLogableFields (uString : GoValue → GoString) (enc : GoString → Bool) (whole : GoValue)
    (fields : List (GoString × GoValue)) (allows : Option (GoString → Bool)) (numArrays : Int)
    (level : Nat) (v2 : GoMap) : Except GoValue GoMap :=
  match fields with
  | [] => .ok v2
  | (k, f) :: rest =>
    if level = 1 ∧ allowed allows k = false then
      makeLogableFields uString enc whole rest allows numArrays level v2
    else if requireEncryptField enc k then
      match SetMapIndex .iface v2 k (.ofString (encryptField uString whole)) with
      | .error p => .error p
      | .ok v2' => makeLogableFields uString enc whole rest allows numArrays level v2'
    else
      match makeLogableData uString enc f none numArrays (level + 1) with
      | .error p => .error p
      | .ok x =>
        match SetMapIndex .iface v2 k x with
        | .error p => .error p
        | .ok v2' => makeLogableFields uString enc whole rest allows numArrays level v2'
termination_by structural fields

/-- The loop over the keys of the map `whole` with element type `e` (lines
591-601). -/
def makeLogableEntries (uString : GoValue → GoString) (enc : GoString → Bool) (whole : GoValue)
    (e : GoType) (entries : List (GoString × GoValue)) (allows : Option (GoString → Bool))
    (numArrays : Int) (level : Nat) (v2 : GoMap) : Except GoValue GoMap :=
  match entries with
  | [] => .ok v2
  | (k, x) :: rest =>
    if allowed allows k = false then
      makeLogableEntries uString enc whole e rest allows numArrays level v2
    else if requireEncryptField enc k then
      match SetMapIndex e v2 k (.ofString (encryptField uString whole)) with
      | .error p => .error p
      | .ok v2' => makeLogableEntries uString enc whole e rest allows numArrays level v2'
    else
      match makeLogableData uString enc x none numArrays (level + 1) with
      | .error p => .error p
      | .ok x' =>
        match SetMapIndex e v2 k x' with
        | .error p => .error p
        | .ok v2' => makeLogableEntries uString enc whole e rest allows numArrays level v2'
termination_by structural entries

/-- The loop over the elements from index `i` on (lines 614-619); `v2` is the
`Arr` built so far. -/
def makeLogableItems (uString : GoValue → GoString) (enc : GoString → Bool)
    (items : List GoValue) (i : Nat) (numArrays : Int) (level : Nat) (v2 : List GoValue) :
    Except GoValue (List GoValue) :=
  match items with
  | [] => .ok v2
  | x :: rest =>
    if (i : Int) ≥ numArrays then .ok v2
    else
      match makeLogableData uString enc x none numArrays (level + 1) with
      | .error p => .error p
      | .ok x' =>
        match Append v2 x' with
        | .error p => .error p
        | .ok v2' => makeLogableItems uString enc rest (i + 1) numArrays level v2'
termination_by structural items
end

/-- The string form used in the examples: a scalar is its text, anything else is
empty. -/
def textOf : GoValue → GoString
  | .scalar _ s => s
  | _ => []

/-! ## Requests, responses and the registries -/

/-- The shape of `http.Header` and `url.Values`: names with their values. -/
abbrev Values := List (GoString × List GoString)

/-- Model of `Header.Get(k)`: the first value under `k`, `""` when there is none. -/
def Values.Get (h : Values) (k : GoString) : GoString :=
  match h with
  | [] => []
  | (k', vv) :: rest => if k' = k then vv.headD [] else Values.Get rest k

/-- Model of `Header.Set(k, v)`. -/
def Values.Set (h : Values) (k : GoString) (v : GoString) : Values :=
  match h with
  | [] => [(k, [v])]
  | (k', vv) :: rest => if k' = k then (k, [v]) :: rest else (k', vv) :: Values.Set rest k v

/-- Model of `Header.Add(k, v)`. -/
def Values.Add (h : Values) (k : GoString) (v : GoString) : Values :=
  match h with
  | [] => [(k, [v])]
  | (k', vv) :: rest => if k' = k then (k, vv ++ [v]) :: rest else (k', vv) :: Values.Add rest k v

/-- Model of `Header.Del(k)`. -/
def Values.Del (h : Values) (k : GoString) : Values :=
  h.filter (fun kv => kv.1 ≠ k)

/-- Model of `strings.Join(vv, sep)`. -/
def Join (vv : List GoString) (sep : GoString) : GoString :=
  match vv with
  | [] => []
  | [v] => v
  | v :: rest => v ++ sep ++ Join rest sep

/-- The fields of `*http.Request` that the dispatcher reads. `Form` is the
outcome of `request.ParseForm()` (its error text, or `request.Form`), `Body` is
`nil` or the bytes `ioutil.ReadAll(request.Body)` yields. -/
structure Request where
  Method : GoString
  RequestURI : GoString
  URLPath : GoString
  Host : GoString
  RemoteAddr : GoString
  Proto : GoString
  TLS : Bool
  Header : Values
  Form : Except GoString Values
  Body : Option GoString

/-- The type `Response` (HttpServ.go 21-26); the three `writer` fields are the
state of the wrapped `http.ResponseWriter`: its header set, the statuses passed to
its `WriteHeader`, and the bytes passed to its `Write`; `writerIsFlusher` tells
whether it is an `http.Flusher` and `writerFlushes` counts the calls of its
`Flush`. -/
structure Response where
  writerHeader : Values
  writerCodes : List Int
  writerBody : GoString
  status : Int
  outLen : Int
  ProxyHeader : Option Values
  writerIsFlusher : Bool := true
  writerFlushes : Nat := 0

/-- Model of `Response.Header` (lines 28-33). -/
def Response.Header (response : Response) : Values :=
  match response.ProxyHeader with
  | some h => h
  | none => response.writerHeader

/-- Model of `Response.copyProxyHeader` (lines 67-76). -/
def Response.copyProxyHeader (response : Response) : Response :=
  match response.ProxyHeader with
  | none => response
  | some src =>
    { response with
      writerHeader :=
        src.foldl (fun dst kv => kv.2.foldl (fun d v => Values.Add d kv.1 v) dst)
          response.writerHeader
      ProxyHeader := none }

/-- Model of `Response.Write` (lines 34-40); the wrapped writer accepts every write. -/
def Response.Write (response : Response) (bytes : GoString) : Response :=
  let r := { response with outLen := response.outLen + bytes.length }
  let r := if r.ProxyHeader.isSome then r.copyProxyHeader else r
  { r with writerBody := r.writerBody ++ bytes }

/-- Model of `Response.WriteHeader` (lines 44-53). -/
def Response.WriteHeader (response : Response) (code : Int) : Response :=
  let r := { response with status := code }
  if r.ProxyHeader.isSome ∧ (code = 502 ∨ code = 503 ∨ code = 504) then r
  else
    let r := { r with writerCodes := r.writerCodes ++ [code] }
    if r.ProxyHeader.isSome then r.copyProxyHeader else r

/-- Model of `Response.Flush` (lines 54-58): the wrapped writer is flushed when it
is an `http.Flusher`; nothing else is touched. -/
def Response.Flush (response : Response) : Response :=
  if response.writerIsFlusher then { response with writerFlushes := response.writerFlushes + 1 }
  else response

/-- Model of `response.Header().Set(k, v)`: the header set returned by `Header` is
shared, so the write lands in the pending proxy headers when there are any. -/
def Response.SetHeader (response : Response) (k v : GoString) : Response :=
  match response.ProxyHeader with
  | some h => { response with ProxyHeader := some (Values.Set h k v) }
  | none => { response with writerHeader := Values.Set response.writerHeader k v }

/-- The fields of `Config` that the dispatcher reads. -/
structure ConfigType where
  NoLogGets : Bool
  LogInputArrayNum : Int
  LogOutputArrayNum : Int
  Compress : Bool
  CompressMinSize : Int
  CompressMaxSize : Int
  LogWebsocketAction : Bool := false
  AcceptXRealIpWithoutRequestId : Bool := false

/-- A registered HTTP route (`webServiceType`; its declaration is outside the two
source files, the fields are the ones `ServeHTTP` reads). `pathMatcher` is
`pathMatcher.FindAllStringSubmatch(·, 20)`; `funcValue` is the call of the
handler on the argument map: a panic payload or the value returned, `invalid`
for nil. -/
structure webServiceType where
  authLevel : Int
  priority : Int
  method : GoString
  pathMatcher : GoString → List (List GoString)
  pathArgs : List GoString
  funcValue : GoMap → Except GoValue GoValue

/-- A Go function seen through `reflect`: the types `funcType.In(i)` and
`funcType.Out(i)`, and what a call with well-typed arguments does: a panic
payload, or the values returned. -/
structure FuncValue where
  In : List GoType
  Out : List GoType
  call : List GoValue → Except GoValue (List GoValue)

/-- A registered WebSocket action (`websocketActionType`, WebSocket.go 46-58);
`func` stands for `funcType` and `funcValue`, `none` when the action registered is
nil. The defaults are the zero values of the Go struct. -/
structure websocketActionType where
  authLevel : Int
  priority : Int
  parmsNum : Nat := 0
  inType : Option GoType := none
  inIndex : Int := 0
  clientIndex : Int := 0
  bytesIndex : Int := 0
  sessionIndex : Int := 0
  loggerIndex : Int := 0
  func : Option FuncValue := none

/-- A registered WebSocket service (`websocketServiceType`, WebSocket.go 16-44).
`Upgrade` is `updater.Upgrade`: `none` on success, the error text otherwise.
`openFunc` stands for `openFuncType` and `openFuncValue`, `closeFunc` for
`closeFuncType` and `closeFuncValue`. `decoder` yields the action name, the
message data (`none` for a nil pointer) and the error text, if any. The defaults
are the zero values of the Go struct. -/
structure websocketServiceType where
  authLevel : Int
  priority : Int
  path : GoString
  pathMatcher : GoString → List (List GoString)
  pathArgs : List GoString
  Upgrade : Request → Option GoString
  openParmsNum : Nat := 0
  openInType : Option GoType := none
  openInIndex : Int := 0
  openRequestIndex : Int := 0
  openLoggerIndex : Int := 0
  openClientIndex : Int := 0
  openHeadersType : Option GoType := none
  openHeadersIndex : Int := 0
  openFunc : Option FuncValue := none
  sessionType : Option GoType := none
  closeParmsNum : Nat := 0
  closeClientIndex : Int := 0
  closeRequestIndex : Int := 0
  closeLoggerIndex : Int := 0
  closeSessionIndex : Int := 0
  closeFunc : Option FuncValue := none
  decoder : Option (GoValue → GoString × Option GoMap × Option GoString) := none
  encoder : Option (GoString → GoValue → GoValue) := none
  actions : GoString → Option websocketActionType := fun _ => none

/-- One record handed to `logger.Request` by `writeLog`. -/
structure LogEntry where
  logName : GoString
  clientIp : GoString
  proto : GoString
  authLevel : Int
  method : GoString
  requestPath : GoString
  headers : List (GoString × GoString)
  args : GoMap
  status : Int
  outHeaders : List (GoString × GoString)
  outLen : Int
  result : GoValue
  extraInfo : GoMap

/-- What a request makes the server do, in order. -/
inductive Event where
  | inFilter (i : Nat)
  | authChecker (authLevel : Int)
  | handler
  | upgrade
  | websocketSession
  | outFilter (i : Nat)
  | errorHandle
  | logError (msg : GoString)
  | log (entry : LogEntry)
  | openHandler (parms : List GoValue)
  | readMessage (msg : GoValue)
  | loggerError (msg : GoString) (message : GoString)
  | actionAuthChecker (authLevel : Int) (actionName : GoString)
  | actionHandler (actionName : GoString) (parms : List GoValue)
  | writeMessage (bytes : GoString)
  | closeHandler (parms : List GoValue)

/-- The mutable state of one `ServeHTTP` call: `myResponse`, `args`,
`logHeaders`, and the events so far. -/
structure St where
  response : Response
  args : GoMap
  logHeaders : List (GoString × GoString)
  trace : List Event

/-- Appends an event to the trace. -/
def St.emit (st : St) (e : Event) : St := { st with trace := st.trace ++ [e] }

/-- The result of a step that may panic: the payload when it did, and the
state it left. -/
abbrev Step := Option GoValue × St

/-- The process-wide registries, hooks and configuration, and the library
functions the dispatcher calls. The fields with a default belong to the WebSocket
engine: the action checker set by `SetActionAuthChecker`, the injection lookups
`GetInject` and `GetSessionInject`, `u.Convert` into a struct of a given type and
into a map (`none` when it leaves the map nil), `json.Marshal`, `u.FixUpperCase`, and `client.WriteMessage` (`none`
on success, the error text otherwise); the defaults are inert. -/
structure Env where
  Config : ConfigType
  uString : GoValue → GoString
  encryptLogFields : GoString → Bool
  noLogHeaders : GoString → Bool
  logOutputFields : GoString → Bool
  webServices : GoString → Option webServiceType
  websocketServices : GoString → Option websocketServiceType
  regexWebServices : List webServiceType
  regexWebsocketServices : List websocketServiceType
  inFilters : List (GoMap → Request → Except GoValue (GoMap × GoValue))
  outFilters : List (GoMap → Request → GoValue → Except GoValue (GoMap × GoValue × Bool))
  webAuthChecker : Option (Int → GoString → GoMap → Request → Except GoValue Bool)
  accessTokens : GoString → Option Int
  errorHandle : Option (GoValue → Request → Except GoValue GoValue)
  ResponseCodePanicError : Int
  QueryUnescape : GoString → Except GoString GoString
  urlParseRawQuery : GoString → Except GoString GoString
  ParseQuery : GoString → Except GoString Values
  jsonUnmarshal : GoString → Except GoString GoValue
  makeBytesResult : GoValue → Except GoValue GoString
  gzipBytes : GoString → GoString
  Atoi : GoString → Int
  websocketSession : websocketServiceType → Request → St → Step
  webSocketActionAuthChecker :
    Option (Int → GoString → GoString → Option GoMap → Request → GoValue → Except GoValue Bool) :=
    none
  GetInject : GoType → Option GoValue := fun _ => none
  GetSessionInject : Request → GoType → Option GoValue := fun _ _ => none
  Convert : GoValue → GoType → GoValue := fun _ t => .struct t.String []
  ConvertToMap : GoValue → Option GoMap := fun _ => some []
  jsonMarshal : GoValue → Except GoString GoString := fun _ => .ok []
  FixUpperCase : GoString → GoString := fun b => b
  WriteMessage : GoString → Option GoString := fun _ => none

/-! ## Access log -/

/-- Model of `strings.IndexByte(s, c)`, `none` for `-1`. -/
def IndexByte (s : GoString) (c : UInt8) : Option Nat :=
  match s with
  | [] => none
  | b :: rest => if b = c then some 0 else (IndexByte rest c).map (· + 1)

/-- Model of `strings.LastIndex(s, string(c))` for a one-byte needle, `none` for `-1`. -/
def LastIndexByte (s : GoString) (c : UInt8) : Option Nat :=
  match s with
  | [] => none
  | b :: rest =>
    match LastIndexByte rest c with
    | some i => some (i + 1)
    | none => if b = c then some 0 else none

/-- The header name `standard.DiscoverHeaderClientIp`. -/
def DiscoverHeaderClientIp : GoString := ascii "X-Real-IP"

/-- Model of `getRealIp` (HttpServ.go 636-638). All three arguments of `u.StringIf` are
evaluated before the call, so the slice of `RemoteAddr` is taken, and panics
when there is no `:`, whatever the header holds. -/
def getRealIp (request : Request) : Except GoValue GoString :=
  match IndexByte request.RemoteAddr 58 with
  | none => runtimePanic "slice bounds out of range [:-1]"
  | some i =>
    if Values.Get request.Header DiscoverHeaderClientIp ≠ [] then
      .ok (Values.Get request.Header DiscoverHeaderClientIp)
    else .ok (request.RemoteAddr.take i)

/-- The path part of the request target: `RequestURI` up to its last `?`
(lines 187-193 and 553-559). -/
def requestPathOf (request : Request) : GoString :=
  match LastIndexByte request.RequestURI 63 with
  | some pos => request.RequestURI.take pos
  | none => request.RequestURI

/-- Model of `reflect.ValueOf(&args)` for the argument map, a `*map[string]interface{}`. -/
def ValueOfArgs (args : GoMap) : GoValue :=
  .ptr (.map .iface) (.map .iface (args.map (fun kv => (kv.1, GoValue.iface kv.2))))

/-- The loop over the header snapshot in `writeLog` (lines 501-507). -/
def maskHeaders (env : Env) (headers : List (GoString × GoString)) :
    List (GoString × GoString) :=
  headers.map (fun kv =>
    if requireEncryptField env.encryptLogFields kv.1 then
      (kv.1, encryptField env.uString (.ofString kv.2))
    else kv)

/-- The loop over the response headers in `writeLog` (lines 509-526), carrying
`outLen` and `outHeaders`. -/
def logOutHeaders (env : Env) (hs : Values) (outLen : Int) (outHeaders : List (GoString × GoString)) :
    Except GoValue (Int × List (GoString × GoString)) :=
  match hs with
  | [] => .ok (outLen, outHeaders)
  | (k, v) :: rest =>
    match v with
    | [] =>
      if (outLen = 0 ∧ k = ascii "Content-Length") ∨ env.noLogHeaders (ToLower k) = false then
        runtimePanic "index out of range [0] with length 0"
      else logOutHeaders env rest outLen outHeaders
    | v0 :: _ =>
      let outLen1 := if outLen = 0 ∧ k = ascii "Content-Length" then env.Atoi v0 else outLen
      if env.noLogHeaders (ToLower k) then logOutHeaders env rest outLen1 outHeaders
      else
        let text := if v.length > 1 then Join v (ascii ", ") else v0
        let text1 :=
          if requireEncryptField env.encryptLogFields k then
            encryptField env.uString (.ofString text)
          else text
        logOutHeaders env rest outLen1 (outHeaders ++ [(k, text1)])

/-- Model of `writeLog` (HttpServ.go 496-562). The elapsed time and the identity fields
read from globals and request headers are left out of the record. A panic
leaves the header snapshot masked and emits no record. -/
def writeLog (env : Env) (logName : GoString) (result : GoValue) (outLen : Int)
    (request : Request) (st : St) (authLevel : Int) (extraInfo : GoMap) : Step :=
  if env.Config.NoLogGets ∧ request.Method = ascii "GET" then (none, st)
  else
    let st1 := { st with logHeaders := maskHeaders env st.logHeaders }
    match logOutHeaders env st1.response.Header outLen [] with
    | .error p => (some p, st1)
    | .ok (outLen1, outHeaders) =>
      match makeLogableData env.uString env.encryptLogFields (ValueOfArgs st1.args) none
          env.Config.LogInputArrayNum 1 with
      | .error p => (some p, st1)
      | .ok fixedArgs =>
        let args2 : GoMap :=
          match fixedArgs with
          | .map .iface v => v
          | _ => [(ascii "data", ValueOfArgs st1.args)]
        let logged : Except GoValue GoValue :=
          match result with
          | .invalid => .ok .invalid
          | r =>
            match makeLogableData env.uString env.encryptLogFields r (some env.logOutputFields)
                env.Config.LogOutputArrayNum 1 with
            | .error p => .error p
            | .ok .invalid => reflectPanic "reflect: call of reflect.Value.Interface on zero Value"
            | .ok r1 => .ok r1.Interface
        match logged with
        | .error p => (some p, st1)
        | .ok result1 =>
          match getRealIp request with
          | .error p => (some p, st1)
          | .ok ip =>
            if request.Proto.length < 5 then
              (some (.scalar (ascii "runtime.Error") (ascii "slice bounds out of range [5:]")), st1)
            else
              (none, { st1 with trace := st1.trace ++ [Event.log
                { logName := logName
                  clientIp := ip
                  proto := request.Proto.drop 5
                  authLevel := authLevel
                  method := request.Method
                  requestPath := requestPathOf request
                  headers := st1.logHeaders
                  args := args2
                  status := st1.response.status
                  outHeaders := outHeaders
                  outLen := outLen1 % 18446744073709551616
                  result := result1
                  extraInfo := GoMap.set extraInfo (ascii "type") (.ofString logName) }] })

/-! ## Identity headers (HttpServ.go 104-116) -/

/-- The header name `standard.DiscoverHeaderRequestId`. -/
def DiscoverHeaderRequestId : GoString := ascii "X-Request-ID"

/-- Lines 104-116 of `ServeHTTP`: a request without request id gets the id
`uniqueId` (what `u.UniqueId()` yields) and, unless
`Config.AcceptXRealIpWithoutRequestId` is set, loses its client-ip header; then the
client-ip header is set to `getRealIp(request)`. The request headers after these
lines, or the panic of `getRealIp`. -/
def normalizeIdentity (Config : ConfigType) (uniqueId : GoString) (request : Request) :
    Except GoValue Request :=
  let header1 : Values :=
    if Values.Get request.Header DiscoverHeaderRequestId = [] then
      let withId := Values.Set request.Header DiscoverHeaderRequestId uniqueId
      if Config.AcceptXRealIpWithoutRequestId = false then
        if Values.Get withId DiscoverHeaderClientIp ≠ [] then
          Values.Del withId DiscoverHeaderClientIp
        else withId
      else withId
    else request.Header
  match getRealIp { request with Header := header1 } with
  | .error p => .error p
  | .ok ip => .ok { request with Header := Values.Set header1 DiscoverHeaderClientIp ip }

/-! ## Route resolution (HttpServ.go 200-255) -/

/-- The loop over the groups of a match of an HTTP pattern route (lines
225-234): the group at index `i ≥ 1` is URL-unescaped, falling back to its raw
text, and stored under `pathArgs[i-1]`. `groups` are the groups from index 1 on. -/
def bindPathArgs (env : Env) (groups : List GoString) (pathArgs : List GoString) (args : GoMap) :
    Except GoValue GoMap :=
  match groups, pathArgs with
  | [], _ => .ok args
  | _ :: _, [] => runtimePanic "index out of range"
  | g :: gs, name :: names =>
    match env.QueryUnescape g with
    | .ok unescaped => bindPathArgs env gs names (GoMap.set args name (.ofString unescaped))
    | .error _ => bindPathArgs env gs names (GoMap.set args name (.ofString g))

/-- The same loop for a WebSocket pattern route (lines 248-251): the raw group
text is stored. -/
def bindRawPathArgs (groups : List GoString) (pathArgs : List GoString) (args : GoMap) :
    Except GoValue GoMap :=
  match groups, pathArgs with
  | [], _ => .ok args
  | _ :: _, [] => runtimePanic "index out of range"
  | g :: gs, name :: names => bindRawPathArgs gs names (GoMap.set args name (.ofString g))

/-- The loop of lines 217-237 over the pattern HTTP routes, given from the
latest registered to the earliest. The route is taken (`s = tmpS`) inside the
loop over the groups, so only when the match has at least one group. -/
def matchRegexWebServices (env : Env) (request : Request) (requestPath : GoString)
    (routes : List webServiceType) (args : GoMap) :
    Except GoValue (Option webServiceType × GoMap) :=
  match routes with
  | [] => .ok (none, args)
  | tmpS :: rest =>
    if tmpS.method ≠ [] ∧ tmpS.method ≠ request.Method then
      matchRegexWebServices env request requestPath rest args
    else
      match tmpS.pathMatcher requestPath with
      | [] => matchRegexWebServices env request requestPath rest args
      | foundArgs :: _ =>
        match bindPathArgs env foundArgs.tail tmpS.pathArgs args with
        | .error p => .error p
        | .ok args1 => .ok (if foundArgs.length > 1 then some tmpS else none, args1)

/-- The loop of lines 243-254 over the pattern WebSocket routes, latest first. -/
def matchRegexWebsocketServices (requestPath : GoString)
    (routes : List websocketServiceType) (args : GoMap) :
    Except GoValue (Option websocketServiceType × GoMap) :=
  match routes with
  | [] => .ok (none, args)
  | tmpS :: rest =>
    match tmpS.pathMatcher requestPath with
    | [] => matchRegexWebsocketServices requestPath rest args
    | foundArgs :: _ =>
      match bindRawPathArgs foundArgs.tail tmpS.pathArgs args with
      | .error p => .error p
      | .ok args1 => .ok (if foundArgs.length > 1 then some tmpS else none, args1)

/-- The values of `s`, `ws` and `args` at line 256. -/
structure Resolved where
  s : Option webServiceType
  ws : Option websocketServiceType
  args : GoMap

/-- Lines 200-255 of `ServeHTTP`: the exact tables, then the pattern HTTP routes,
then the pattern WebSocket routes. -/
def resolve (env : Env) (request : Request) : Except GoValue Resolved :=
  let requestPath := requestPathOf request
  let s0 : Option webServiceType :=
    match env.webServices (request.Method ++ requestPath) with
    | some s => some s
    | none => env.webServices requestPath
  let ws0 : Option websocketServiceType :=
    match s0 with
    | some _ => none
    | none => env.websocketServices requestPath
  let step1 : Except GoValue (Option webServiceType × GoMap) :=
    if s0.isNone ∧ ws0.isNone then
      matchRegexWebServices env request requestPath env.regexWebServices.reverse []
    else .ok (s0, [])
  match step1 with
  | .error p => .error p
  | .ok (s1, args1) =>
    if s1.isNone ∧ ws0.isNone then
      match matchRegexWebsocketServices requestPath env.regexWebsocketServices.reverse args1 with
      | .error p => .error p
      | .ok (ws1, args2) => .ok { s := s1, ws := ws1, args := args2 }
    else .ok { s := s1, ws := ws0, args := args1 }

/-! ## Argument assembly (HttpServ.go 265-336) -/

/-- Model of `strings.Contains(s, sub)`, that is `strings.Index(s, sub) != -1`. -/
def Contains (s sub : GoString) : Bool :=
  s.tails.any (fun t => sub.isPrefixOf t)

/-- The value stored for a parameter with values `v`: the list when there are
several, `v[0]` otherwise (lines 293-297 and 328-332). -/
def paramValue (v : List GoString) : Except GoValue GoValue :=
  match v with
  | [] => runtimePanic "index out of range [0] with length 0"
  | [x] => .ok (.ofString x)
  | _ => .ok (.slice (.basic (ascii "string")) (v.map GoValue.ofString))

/-- The loops of lines 292-298 and 327-333: every parameter is stored. -/
def mergeValues (vals : Values) (args : GoMap) : Except GoValue GoMap :=
  match vals with
  | [] => .ok args
  | (k, v) :: rest =>
    match paramValue v with
    | .error p => .error p
    | .ok x => mergeValues rest (GoMap.set args k x)

/-- The loop of lines 272-282 over the re-parsed raw query: a parameter without
a value is skipped. -/
def mergeRewriteValues (vals : Values) (args : GoMap) : GoMap :=
  match vals with
  | [] => args
  | (k, v) :: rest =>
    match paramValue v with
    | .error _ => mergeRewriteValues rest args
    | .ok x => mergeRewriteValues rest (GoMap.set args k x)

/-- The fields of a decoded JSON object stored into the argument map, as
`json.Unmarshal(bodyBytes, &args)` does. -/
def mergeFields (fields : List (GoString × GoValue)) (args : GoMap) : GoMap :=
  match fields with
  | [] => args
  | (k, x) :: rest => mergeFields rest (GoMap.set args k x.Interface)

/-- Lines 265-285: the query of the raw target when the target does not
contain the parsed path. -/
def mergeRewriteQuery (env : Env) (request : Request) (args : GoMap) : GoMap :=
  if Contains request.RequestURI request.URLPath = false ∧
      (LastIndexByte request.RequestURI 63).isSome then
    match env.urlParseRawQuery request.RequestURI with
    | .error _ => args
    | .ok rawQuery =>
      match env.ParseQuery rawQuery with
      | .error _ => args
      | .ok queryStringArr =>
        if queryStringArr.length > 0 then mergeRewriteValues queryStringArr args else args
  else args

/-- How the body stage ends: the argument map to go on with, the map at the
`400` exit of line 317, or a panic. -/
inductive BodyResult where
  | ok (args : GoMap)
  | badRequest (args : GoMap)
  | crash (p : GoValue)

/-- Lines 301-336: the body, merged into `args`. -/
def mergeBody (env : Env) (request : Request) (args : GoMap) : BodyResult :=
  match request.Body with
  | none => .ok args
  | some bodyBytes =>
    let contentType := Values.Get request.Header (ascii "Content-Type")
    if (ascii "application/json").isPrefixOf contentType then
      match bodyBytes with
      | [] => .ok args
      | b0 :: _ =>
        if b0 = 123 then
          match env.jsonUnmarshal bodyBytes with
          | .ok (.map _ fields) => .ok (mergeFields fields args)
          | _ => .badRequest args
        else
          match env.jsonUnmarshal bodyBytes with
          | .ok x => .ok (GoMap.set args (ascii "request") (.ptr .iface (.iface x)))
          | .error _ =>
            .badRequest (GoMap.set args (ascii "request") (.ptr .iface (.iface .invalid)))
    else if contentType = ascii "application/x-www-form-urlencoded" then
      match env.ParseQuery bodyBytes with
      | .error _ => .ok args
      | .ok argsBody =>
        if argsBody.length > 0 then
          match mergeValues argsBody args with
          | .error p => .crash p
          | .ok args1 => .ok args1
        else .ok args
    else .ok args

/-- How argument assembly ends: the state to go on with, the state at the `400`
exit of line 317, or a panic (these lines are outside the recovery scope). -/
inductive Assembled where
  | ok (st : St)
  | badRequest (st : St)
  | crash (p : GoValue) (st : St)

/-- The body stage on the state. -/
def mergeBodySt (env : Env) (request : Request) (st : St) : Assembled :=
  match mergeBody env request st.args with
  | .ok args1 => .ok { st with args := args1 }
  | .badRequest args1 => .badRequest { st with args := args1 }
  | .crash p => .crash p st

/-- Lines 265-336 of `ServeHTTP`. -/
def assembleArgs (env : Env) (request : Request) (st : St) : Assembled :=
  let st1 := { st with args := mergeRewriteQuery env request st.args }
  match request.Form with
  | .error msg => mergeBodySt env request (st1.emit (.logError msg))
  | .ok reqForm =>
    match mergeValues reqForm st1.args with
    | .error p => .crash p st1
    | .ok args1 => mergeBodySt env request { st1 with args := args1 }

/-! ## Filters, authorization and dispatch (HttpServ.go 338-475) -/

/-- The pre-filter loop (lines 368-374), from the filter with index `i` on: the
first non-nil result ends it. -/
def runInFilters (request : Request)
    (filters : List (GoMap → Request → Except GoValue (GoMap × GoValue))) (i : Nat) (st : St) :
    Except GoValue GoValue × St :=
  match filters with
  | [] => (.ok .invalid, st)
  | filter :: rest =>
    match filter st.args request with
    | .error p => (.error p, st.emit (.inFilter i))
    | .ok (args1, result) =>
      if result.IsValid then (.ok result, { st.emit (.inFilter i) with args := args1 })
      else runInFilters request rest (i + 1) { st.emit (.inFilter i) with args := args1 }

/-- The checker that lines 376-381 install when none is set: the level stored
for the `Access-Token` header must reach the required one. -/
def defaultAuthChecker (env : Env) (authLevel : Int) (request : Request) : Bool :=
  match env.accessTokens (Values.Get request.Header (ascii "Access-Token")) with
  | some settedAuthLevel => decide (settedAuthLevel ≥ authLevel)
  | none => false

/-- The call `webAuthChecker(authLevel, &request.RequestURI, &args, request)` of
line 382. -/
def callAuthChecker (env : Env) (authLevel : Int) (request : Request) (args : GoMap) :
    Except GoValue Bool :=
  match env.webAuthChecker with
  | some checker => checker authLevel request.RequestURI args request
  | none => .ok (defaultAuthChecker env authLevel request)

/-- Modelled from the spec: `doWebService`, which is declared outside the two
source files. A result already obtained from a pre-filter is the result; otherwise
the route's handler is invoked on the argument map and what it returns is the
result. -/
def doWebService (s : Option webServiceType) (result : GoValue) (st : St) :
    Except GoValue GoValue × St :=
  if result.IsValid then (.ok result, st)
  else
    match s with
    | none => (runtimePanic "invalid memory address or nil pointer dereference", st)
    | some service => (service.funcValue st.args, st.emit .handler)

/-- The head of `doWebsocketService` (WebSocket.go 229-240): the upgrade, the
`500` on failure, the WSOPEN record; after a successful upgrade the session
(open handler, message loop, close handler) is `env.websocketSession`. -/
def doWebsocketService (env : Env) (ws : websocketServiceType) (request : Request)
    (authLevel : Int) (st : St) : Step :=
  match ws.Upgrade request with
  | some message =>
    writeLog env (ascii "WSOPEN") .invalid 0 request
      { st.emit .upgrade with response := st.response.WriteHeader 500 } authLevel
      [(ascii "message", .ofString message)]
  | none =>
    match writeLog env (ascii "WSOPEN") .invalid 0 request (st.emit .upgrade) authLevel
        [(ascii "message", .ofString (ascii "OK"))] with
    | (some p, st1) => (some p, st1)
    | (none, st1) => env.websocketSession ws request (st1.emit .websocketSession)

/-- The post-filter loop (lines 418-426), from the filter with index `i` on. -/
def runOutFilters (request : Request)
    (filters : List (GoMap → Request → GoValue → Except GoValue (GoMap × GoValue × Bool)))
    (i : Nat) (result : GoValue) (st : St) : Except GoValue GoValue × St :=
  match filters with
  | [] => (.ok result, st)
  | filter :: rest =>
    match filter st.args request result with
    | .error p => (.error p, st.emit (.outFilter i))
    | .ok (args1, newResult, done) =>
      let result1 := if newResult.IsValid then newResult else result
      if done then (.ok result1, { st.emit (.outFilter i) with args := args1 })
      else runOutFilters request rest (i + 1) result1 { st.emit (.outFilter i) with args := args1 }

/-- The type reached by the loop `for outType.Kind() == reflect.Ptr` (lines
432-434). -/
def GoType.stripPtr : GoType → GoType
  | .ptr e => e.stripPtr
  | t => t

/-- The bytes of a `[]byte` value: the texts of its elements. -/
def bytesOf (items : List GoValue) : GoString :=
  items.flatMap textOf

/-- Lines 435-442: a `string` or `[]byte` result is its own body, what is
neither is encoded by `makeBytesResult`; a pointer to a string or to bytes fails
the type assertion. -/
def resultBytes (env : Env) (result : GoValue) : Except GoValue GoString :=
  match result with
  | .scalar t text => if t = ascii "string" then .ok text else env.makeBytesResult result
  | .slice e items =>
    if e = .basic (ascii "uint8") then .ok (bytesOf items) else env.makeBytesResult result
  | .ptr e _ =>
    if e.stripPtr = .basic (ascii "string") ∨ e.stripPtr = .slice (.basic (ascii "uint8")) then
      .error (.scalar (ascii "*runtime.TypeAssertionError") (ascii "interface conversion"))
    else env.makeBytesResult result
  | _ => env.makeBytesResult result

/-- Lines 427-473: the result is written, compressed when the configuration and
the request allow it, and the ACCESS record is logged. -/
def writeResult (env : Env) (request : Request) (authLevel : Int) (result : GoValue) (st : St) :
    Step :=
  if result.IsValid = false then (none, st)
  else
    match resultBytes env result with
    | .error p => (some p, st)
    | .ok outBytes =>
      let response1 :=
        if env.Config.Compress ∧ (outBytes.length : Int) ≥ env.Config.CompressMinSize ∧
            (outBytes.length : Int) ≤ env.Config.CompressMaxSize ∧
            Contains (Values.Get request.Header (ascii "Accept-Encoding")) (ascii "gzip") then
          (st.response.SetHeader (ascii "Content-Encoding") (ascii "gzip")).Write
            (env.gzipBytes outBytes)
        else st.response.Write outBytes
      if requestPathOf request ≠ ascii "/__CHECK__" then
        writeLog env (ascii "ACCESS") result outBytes.length request
          { st with response := response1 } authLevel []
      else (none, { st with response := response1 })

/-- Lines 393-474 of `ServeHTTP`: the WebSocket session or the handler, then,
for a plain HTTP route, the post-filters and the response. -/
def dispatch (env : Env) (request : Request) (s : Option webServiceType)
    (ws : Option websocketServiceType) (authLevel : Int) (result : GoValue) (st : St) : Step :=
  match ws with
  | some service =>
    if result.IsValid = false then doWebsocketService env service request authLevel st
    else
      match doWebService s result st with
      | (.error p, st1) => (some p, st1)
      | (.ok _, st1) => (none, st1)
  | none =>
    let called : Except GoValue GoValue × St :=
      if s.isSome ∨ result.IsValid then doWebService s result st else (.ok result, st)
    match called with
    | (.error p, st1) => (some p, st1)
    | (.ok result1, st1) =>
      match runOutFilters request env.outFilters 0 result1 st1 with
      | (.error p, st2) => (some p, st2)
      | (.ok result2, st2) => writeResult env request authLevel result2 st2

/-- Lines 367-474 of `ServeHTTP`, the part run under the deferred recovery: the
pre-filters, the authorization check, then `dispatch`. -/
def serveBody (env : Env) (request : Request) (s : Option webServiceType)
    (ws : Option websocketServiceType) (authLevel : Int) (st : St) : Step :=
  match runInFilters request env.inFilters 0 st with
  | (.error p, st1) => (some p, st1)
  | (.ok result, st1) =>
    if authLevel > 0 then
      match callAuthChecker env authLevel request st1.args with
      | .error p => (some p, st1.emit (.authChecker authLevel))
      | .ok false =>
        writeLog env (ascii "REJECT") result 0 request
          { st1.emit (.authChecker authLevel) with response := st1.response.WriteHeader 403 }
          authLevel []
      | .ok true => dispatch env request s ws authLevel result (st1.emit (.authChecker authLevel))
    else dispatch env request s ws authLevel result st1

/-- Lines 338-344: the authorization level of the selected service. -/
def authLevelOf (r : Resolved) : Int :=
  match r.ws, r.s with
  | some service, _ => service.authLevel
  | none, some service => service.authLevel
  | none, none => 0

/-- How `ServeHTTP` ends: the final state, and the payload of a panic that
escaped it, if any. -/
structure Outcome where
  st : St
  crashed : Option GoValue

/-- The deferred function of lines 346-365 applied to the way the body ended. -/
def recoverPanic (env : Env) (request : Request) (authLevel : Int) (body : Step) : Outcome :=
  match body with
  | (none, st) => { st := st, crashed := none }
  | (some err, st) =>
    let handled : Except GoValue GoValue × St :=
      match env.errorHandle with
      | some handle => (handle err request, st.emit .errorHandle)
      | none =>
        (.ok (.ofString []),
          { st with response := st.response.WriteHeader env.ResponseCodePanicError })
    match handled with
    | (.error p, st1) => { st := st1, crashed := some p }
    | (.ok out, st1) =>
      match writeLog env (ascii "PANIC") out st1.response.outLen request
          (st1.emit (.logError (env.uString err))) authLevel [(ascii "error", err)] with
      | (p, st2) => { st := st2, crashed := p }

/-- The method `routeHandler.ServeHTTP` from line 187 on, entered with the response and the
header snapshot as the rewrite, proxy and static collaborators left them. -/
def ServeHTTP (env : Env) (request : Request) (response : Response)
    (logHeaders : List (GoString × GoString)) : Outcome :=
  let st0 : St := { response := response, args := [], logHeaders := logHeaders, trace := [] }
  match resolve env request with
  | .error p => { st := st0, crashed := some p }
  | .ok r =>
    let st1 := { st0 with args := r.args }
    if r.s.isNone ∧ r.ws.isNone then
      if requestPathOf request ≠ ascii "/favicon.ico" then
        match writeLog env (ascii "FAIL") .invalid 0 request
            { st1 with response := st1.response.WriteHeader 404 } 0 [] with
        | (p, st2) => { st := st2, crashed := p }
      else { st := { st1 with response := st1.response.WriteHeader 404 }, crashed := none }
    else
      match assembleArgs env request st1 with
      | .crash p st2 => { st := st2, crashed := some p }
      | .badRequest st2 =>
        match writeLog env (ascii "FAIL") .invalid 0 request
            { st2 with response := st2.response.WriteHeader 400 } 0 [] with
        | (p, st3) => { st := st3, crashed := p }
      | .ok st2 =>
        recoverPanic env request (authLevelOf r)
          (serveBody env request r.s r.ws (authLevelOf r) st2)

/-! ## Registration of WebSocket handlers (WebSocket.go 79-219) -/

/-- The type with `String()` equal to `*http.Request`. -/
def requestType : GoType := .ptr (.struct (ascii "http.Request"))

/-- The type with `String()` equal to `*log.Logger`. -/
def loggerType : GoType := .ptr (.struct (ascii "log.Logger"))

/-- The type with `String()` equal to `*websocket.Conn`. -/
def connType : GoType := .ptr (.struct (ascii "websocket.Conn"))

/-- Model of `t.Kind() == reflect.Struct`. -/
def GoType.isStruct : GoType → Bool
  | .struct _ => true
  | _ => false

/-- The indices and types that the loop over the parameters of `onOpen` sets
(lines 107-126). -/
structure OpenRoles where
  inType : Option GoType
  inIndex : Int
  headersType : Option GoType
  headersIndex : Int
  requestIndex : Int
  loggerIndex : Int
  clientIndex : Int

/-- The loop of lines 107-126 from the parameter with index `i` on. -/
def classifyOpen (types : List GoType) (i : Nat) (acc : OpenRoles) : OpenRoles :=
  match types with
  | [] => acc
  | t :: rest =>
    if t.isStruct then
      if acc.inType.isNone then
        classifyOpen rest (i + 1) { acc with inIndex := i, inType := some t }
      else if acc.headersType.isNone then
        classifyOpen rest (i + 1) { acc with headersIndex := i, headersType := some t }
      else classifyOpen rest (i + 1) acc
    else if t.String = ascii "*http.Request" then
      classifyOpen rest (i + 1) { acc with requestIndex := i }
    else if t.String = ascii "*log.Logger" then
      classifyOpen rest (i + 1) { acc with loggerIndex := i }
    else if t.String = ascii "*websocket.Conn" then
      classifyOpen rest (i + 1) { acc with clientIndex := i }
    else classifyOpen rest (i + 1) acc

/-- The indices that the loop over the parameters of `onClose` sets (lines
141-153). -/
structure CloseRoles where
  clientIndex : Int
  requestIndex : Int
  loggerIndex : Int
  sessionIndex : Int

/-- The loop of lines 141-153 from the parameter with index `i` on. The branch
for `*log.Logger` assigns `closeRequestIndex`, as line 151 does. -/
def classifyClose (sessionType : Option GoType) (types : List GoType) (i : Nat)
    (acc : CloseRoles) : CloseRoles :=
  match types with
  | [] => acc
  | t :: rest =>
    if some t = sessionType then
      classifyClose sessionType rest (i + 1) { acc with sessionIndex := i }
    else if t.String = ascii "*websocket.Conn" then
      classifyClose sessionType rest (i + 1) { acc with clientIndex := i }
    else if t.String = ascii "*http.Request" then
      classifyClose sessionType rest (i + 1) { acc with requestIndex := i }
    else if t.String = ascii "*log.Logger" then
      classifyClose sessionType rest (i + 1) { acc with requestIndex := i }
    else classifyClose sessionType rest (i + 1) acc

/-- Model of `RegisterWebsocketWithPriority` (WebSocket.go 79-183), up to the
compilation of the path: the matcher and the capture names are given. The
service is returned; the tables are not touched. -/
def RegisterWebsocketWithPriority (authLevel priority : Int) (path : GoString)
    (pathMatcher : GoString → List (List GoString)) (pathArgs : List GoString)
    (Upgrade : Request → Option GoString) (onOpen onClose : Option FuncValue)
    (decoder : Option (GoValue → GoString × Option GoMap × Option GoString))
    (encoder : Option (GoString → GoValue → GoValue)) : websocketServiceType :=
  let s0 : websocketServiceType :=
    { authLevel := authLevel, priority := priority, path := path, pathMatcher := pathMatcher,
      pathArgs := pathArgs, Upgrade := Upgrade, decoder := decoder, encoder := encoder }
  let s1 : websocketServiceType :=
    match onOpen with
    | none => s0
    | some f =>
      let roles := classifyOpen f.In 0
        { inType := none, inIndex := -1, headersType := none, headersIndex := -1,
          requestIndex := -1, loggerIndex := -1, clientIndex := -1 }
      { s0 with
        openParmsNum := f.In.length
        openInType := roles.inType
        openInIndex := roles.inIndex
        openHeadersType := roles.headersType
        openHeadersIndex := roles.headersIndex
        openRequestIndex := roles.requestIndex
        openLoggerIndex := roles.loggerIndex
        openClientIndex := roles.clientIndex
        openFunc := some f
        sessionType := f.Out.head? }
  match onClose with
  | none => s1
  | some f =>
    let roles := classifyClose s1.sessionType f.In 0
      { clientIndex := -1, requestIndex := -1, loggerIndex := -1, sessionIndex := -1 }
    { s1 with
      closeParmsNum := f.In.length
      closeClientIndex := roles.clientIndex
      closeRequestIndex := roles.requestIndex
      closeLoggerIndex := roles.loggerIndex
      closeSessionIndex := roles.sessionIndex
      closeFunc := some f }

/-- The loop of lines 200-216 over the parameters of an action, from the
parameter with index `i` on. -/
def classifyAction (sessionType : Option GoType) (types : List GoType) (i : Nat)
    (acc : websocketActionType) : websocketActionType :=
  match types with
  | [] => acc
  | t :: rest =>
    if some t = sessionType then
      classifyAction sessionType rest (i + 1) { acc with sessionIndex := i }
    else if t.isStruct then
      if acc.inType.isNone then
        classifyAction sessionType rest (i + 1) { acc with inIndex := i, inType := some t }
      else classifyAction sessionType rest (i + 1) acc
    else if t = .slice (.basic (ascii "uint8")) then
      classifyAction sessionType rest (i + 1) { acc with bytesIndex := i }
    else if t.String = ascii "*websocket.Conn" then
      classifyAction sessionType rest (i + 1) { acc with clientIndex := i }
    else if t.String = ascii "*log.Logger" then
      classifyAction sessionType rest (i + 1) { acc with loggerIndex := i }
    else classifyAction sessionType rest (i + 1) acc

/-- Model of `RegisterActionWithPriority` (WebSocket.go 188-219): the action record
stored under the action name. -/
def RegisterActionWithPriority (sessionType : Option GoType) (authLevel priority : Int)
    (action : Option FuncValue) : websocketActionType :=
  match action with
  | none => { authLevel := authLevel, priority := priority }
  | some f =>
    classifyAction sessionType f.In 0
      { authLevel := authLevel, priority := priority, parmsNum := f.In.length,
        inIndex := -1, sessionIndex := -1, loggerIndex := -1, clientIndex := -1,
        func := some f }

/-! ## Binding of handler parameters (WebSocket.go 243-285, 386-420, 430-471) -/

/-- Model of `reflect.ValueOf(request)`: the live request handle. -/
def requestHandle : GoValue :=
  .ptr (.struct (ascii "http.Request")) (.struct (ascii "http.Request") [])

/-- Model of `reflect.ValueOf(requestLogger)`. -/
def loggerHandle : GoValue :=
  .ptr (.struct (ascii "log.Logger")) (.struct (ascii "log.Logger") [])

/-- Model of `reflect.ValueOf(client)`: the connection handle. -/
def connHandle : GoValue :=
  .ptr (.struct (ascii "websocket.Conn")) (.struct (ascii "websocket.Conn") [])

/-- A map of type `map[string]interface{}` as a value. -/
def ValueOfMap (m : GoMap) : GoValue :=
  .map .iface (m.map (fun kv => (kv.1, GoValue.iface kv.2)))

/-- The header snapshot, a `map[string]string`, as a value. -/
def ValueOfHeaders (headers : List (GoString × GoString)) : GoValue :=
  .map (.basic (ascii "string")) (headers.map (fun kv => (kv.1, GoValue.ofString kv.2)))

/-- Model of `reflect.New(t).Elem()`: the zero value of the type. -/
def zeroValue : GoType → GoValue
  | .basic n => .scalar n []
  | .struct n => .struct n []
  | .map e => .nilMap e
  | .slice e => .slice e []
  | .iface => .iface .invalid
  | .ptr e => .ptr e .invalid
  | .otherMap n e => .otherMap n e

/-- The assignment `parms[index] = v` on a slice of parameters. -/
def assignParm (parms : List GoValue) (index : Int) (v : GoValue) :
    Except GoValue (List GoValue) :=
  if 0 ≤ index ∧ index.toNat < parms.length then .ok (parms.set index.toNat v)
  else runtimePanic "index out of range"

/-- The guarded assignment `if index >= 0 { parms[index] = v }`. -/
def assignRole (parms : List GoValue) (index : Int) (v : GoValue) :
    Except GoValue (List GoValue) :=
  if index ≥ 0 then assignParm parms index v else .ok parms

/-- The test `st.Kind() == reflect.Struct || (st.Kind() == reflect.Ptr &&
st.Elem().Kind() == reflect.Struct)` of the fill loops. -/
def GoType.isInjectable : GoType → Bool
  | .struct _ => true
  | .ptr (.struct _) => true
  | _ => false

/-- One step of the loops that fill the parameters left invalid (lines 265-285,
400-420, 445-471), for the parameter with index `i`: the type is `funcType.In(i)`
of the function `types` stands for (`none` when that function is nil); a struct
or pointer to struct is looked up for injection, anything not injected is the zero
value of its type. The call of `SetLogger` on an injected object is not
modelled. -/
def fillParm (lookup : GoType → Option GoValue) (types : Option (List GoType)) (i : Nat)
    (parm : GoValue) : Except GoValue GoValue :=
  if parm.IsValid then .ok parm
  else
    match types with
    | none => runtimePanic "invalid memory address or nil pointer dereference"
    | some ts =>
      match ts.get? i with
      | none => reflectPanic "reflect: Func index out of bounds"
      | some t =>
        if t.isInjectable then
          match lookup t with
          | some obj => .ok obj
          | none => .ok (zeroValue t)
        else .ok (zeroValue t)

/-- The fill loop from index `i` on. -/
def fillParms (lookup : GoType → Option GoValue) (types : Option (List GoType)) (i : Nat)
    (parms : List GoValue) : Except GoValue (List GoValue) :=
  match parms with
  | [] => .ok []
  | parm :: rest =>
    match fillParm lookup types i parm with
    | .error p => .error p
    | .ok v =>
      match fillParms lookup types (i + 1) rest with
      | .error p => .error p
      | .ok filled => .ok (v :: filled)

/-- The value can be passed for a parameter of type `t`. -/
def assignableTo (v : GoValue) (t : GoType) : Bool :=
  match v.Type with
  | none => false
  | some vt => decide (vt = t) || decide (t = .iface)

/-- The arguments pass the checks of `reflect.Value.Call`: as many as the
function has parameters, none the zero Value, each assignable to its parameter. -/
def FuncValue.accepts (f : FuncValue) (parms : List GoValue) : Bool :=
  decide (parms.length = f.In.length) && (parms.zip f.In).all (fun pt => assignableTo pt.1 pt.2)

/-- Model of `funcValue.Call(parms)`: a panic of `reflect` when the arguments do not
fit, otherwise what the function does. `none` is the zero Value of a nil handler. -/
def Call (f : Option FuncValue) (parms : List GoValue) : Except GoValue (List GoValue) :=
  match f with
  | none => reflectPanic "reflect: call of reflect.Value.Call on zero Value"
  | some fv =>
    if fv.accepts parms then fv.call parms
    else reflectPanic "reflect: Call using a value that is not assignable to the parameter type"

/-! ## WebSocket actions (WebSocket.go 429-517) -/

/-- Model of `Value.String()`: the text of a string, `<T Value>` for any other
kind. -/
def GoValue.String (v : GoValue) : GoString :=
  match v with
  | .scalar t text => if t = ascii "string" then text else ascii "<" ++ t ++ ascii " Value>"
  | other =>
    match other.Type with
    | some t => ascii "<" ++ t.String ++ ascii " Value>"
    | none => ascii "<invalid Value>"

/-- The parameters of an action handler (lines 430-471): the input struct
converted from the message data, the session, the connection, the logger, then the
fill loop with `GetSessionInject` before `GetInject`. -/
def bindActionParms (env : Env) (action : websocketActionType) (request : Request)
    (data : Option GoMap) (sess : GoValue) : Except GoValue (List GoValue) :=
  let parms0 : List GoValue := List.replicate action.parmsNum .invalid
  let withInput : Except GoValue (List GoValue) :=
    match action.inType with
    | none => .ok parms0
    | some t =>
      match data with
      | none => runtimePanic "invalid memory address or nil pointer dereference"
      | some d => assignParm parms0 action.inIndex (env.Convert (ValueOfMap d) t)
  match withInput with
  | .error p => .error p
  | .ok parms1 =>
    match assignRole parms1 action.sessionIndex sess with
    | .error p => .error p
    | .ok parms2 =>
      match assignRole parms2 action.clientIndex connHandle with
      | .error p => .error p
      | .ok parms3 =>
        match assignRole parms3 action.loggerIndex loggerHandle with
        | .error p => .error p
        | .ok parms4 =>
          fillParms
            (fun t =>
              match env.GetSessionInject request t with
              | some obj => some obj
              | none => env.GetInject t)
            (action.func.map (fun f => f.In)) 0 parms4

/-- The values `outAction` and `outData` of lines 477-484 for a non-empty list
of returned values. -/
def actionOutput (actionName : GoString) (outs : List GoValue) : GoString × GoValue :=
  match outs with
  | [] => ([], .invalid)
  | [out] => (actionName, out.Interface)
  | first :: second :: _ => (first.String, second.Interface)

/-- The default envelope of lines 491-501: the output itself when it is a
`map[string]interface{}`, the struct converted to a map, anything else under
`data`; then `action` is set. A map with interface elements is asserted to be a
`map[string]interface{}` (line 494), which panics when it is of another map
type, and `action` is then written to it (line 501), which panics when it is
nil, as it does when `u.Convert` left the map of a struct nil; a nil output has no
type (line 493). -/
def actionEnvelope (env : Env) (outAction : GoString) (outData : GoValue) :
    Except GoValue GoMap :=
  match outData with
  | .invalid => runtimePanic "invalid memory address or nil pointer dereference"
  | .map e entries =>
    if e = .iface then
      .ok (GoMap.set (entries.map (fun kv => (kv.1, kv.2.Interface))) (ascii "action")
        (.ofString outAction))
    else .ok (GoMap.set [(ascii "data", outData)] (ascii "action") (.ofString outAction))
  | .nilMap e =>
    if e = .iface then runtimePanic "assignment to entry in nil map"
    else .ok (GoMap.set [(ascii "data", outData)] (ascii "action") (.ofString outAction))
  | .otherMap _ e =>
    if e = .iface then
      .error (.scalar (ascii "*runtime.TypeAssertionError") (ascii "interface conversion"))
    else .ok (GoMap.set [(ascii "data", outData)] (ascii "action") (.ofString outAction))
  | .struct t fields =>
    match env.ConvertToMap (.struct t fields) with
    | some outDataMap => .ok (GoMap.set outDataMap (ascii "action") (.ofString outAction))
    | none => runtimePanic "assignment to entry in nil map"
  | other => .ok (GoMap.set [(ascii "data", other)] (ascii "action") (.ofString outAction))

/-- The value handed to `json.Marshal` (lines 488-503): what the encoder hook
returns, or the default envelope. -/
def actionPayload (env : Env) (ws : websocketServiceType) (outAction : GoString)
    (outData : GoValue) : Except GoValue GoValue :=
  match ws.encoder with
  | some encoder => .ok (encoder outAction outData)
  | none =>
    match actionEnvelope env outAction outData with
    | .error p => .error p
    | .ok outDataMap => .ok (ValueOfMap outDataMap)

/-- The output as the caller sees it after the envelope was built: a
`map[string]interface{}` output is the very map that received `action`. -/
def outDataAfter (ws : websocketServiceType) (outAction : GoString) (outData : GoValue) :
    GoValue :=
  match ws.encoder, outData with
  | none, .map .iface entries =>
    ValueOfMap (GoMap.set (entries.map (fun kv => (kv.1, kv.2.Interface))) (ascii "action")
      (.ofString outAction))
  | _, other => other

/-- The four values `doWebsocketAction` returns. -/
structure ActionResult where
  outAction : GoString
  outData : GoValue
  outLen : Int
  err : Option GoString

/-- The state after `funcValue.Call(parms)`: the event is recorded when the
function is entered, that is when the checks of `Call` pass. -/
def afterCall (f : Option FuncValue) (parms : List GoValue) (e : Event) (st : St) : St :=
  match f with
  | none => st
  | some fv => if fv.accepts parms then st.emit e else st

/-- Model of `doWebsocketAction` (WebSocket.go 429-517). -/
def doWebsocketAction (env : Env) (ws : websocketServiceType) (actionName : GoString)
    (action : websocketActionType) (request : Request) (data : Option GoMap) (sess : GoValue)
    (st : St) : Except GoValue ActionResult × St :=
  match bindActionParms env action request data sess with
  | .error p => (.error p, st)
  | .ok messageParms =>
    let st1 := afterCall action.func messageParms (.actionHandler actionName messageParms) st
    match Call action.func messageParms with
    | .error p => (.error p, st1)
    | .ok [] => (.ok { outAction := [], outData := .invalid, outLen := 0, err := none }, st1)
    | .ok (out :: outs) =>
      let outAction := (actionOutput actionName (out :: outs)).1
      let outData := (actionOutput actionName (out :: outs)).2
      match actionPayload env ws outAction outData with
      | .error p => (.error p, st1)
      | .ok payload =>
        match env.jsonMarshal payload with
        | .error e =>
          (.ok { outAction := outAction, outData := outDataAfter ws outAction outData,
                 outLen := 0, err := some e }, st1)
        | .ok outBytes =>
          (.ok { outAction := outAction, outData := outDataAfter ws outAction outData,
                 outLen := outBytes.length, err := env.WriteMessage (env.FixUpperCase outBytes) },
            st1.emit (.writeMessage (env.FixUpperCase outBytes)))

/-! ## WebSocket sessions (WebSocket.go 240-426) -/

/-- The expression `makeLogableData(reflect.ValueOf(x), &logOutputFields,
Config.LogOutputArrayNum, 1).Interface()` of lines 346, 359-360 and 371-372. -/
def logableMessage (env : Env) (v : GoValue) : Except GoValue GoValue :=
  match makeLogableData env.uString env.encryptLogFields v (some env.logOutputFields)
      env.Config.LogOutputArrayNum 1 with
  | .error p => .error p
  | .ok .invalid => reflectPanic "reflect: call of reflect.Value.Interface on zero Value"
  | .ok r => .ok r.Interface

/-- Model of `reflect.ValueOf(messageData)` for the `*map[string]interface{}` of a
message, `none` being the nil pointer. -/
def ValueOfData (messageData : Option GoMap) : GoValue :=
  match messageData with
  | some d => ValueOfArgs d
  | none => .ptr (.map .iface) .invalid

/-- The parameters of the open handler `f` (lines 243-285). -/
def bindOpenParms (env : Env) (ws : websocketServiceType) (f : FuncValue) (st : St) :
    Except GoValue (List GoValue) :=
  let parms0 : List GoValue := List.replicate ws.openParmsNum .invalid
  let withInput : Except GoValue (List GoValue) :=
    if ws.openInIndex ≥ 0 then
      match ws.openInType with
      | none => reflectPanic "reflect: New(nil)"
      | some t => assignParm parms0 ws.openInIndex (env.Convert (ValueOfMap st.args) t)
    else .ok parms0
  match withInput with
  | .error p => .error p
  | .ok parms1 =>
    let withHeaders : Except GoValue (List GoValue) :=
      if ws.openHeadersIndex ≥ 0 then
        match ws.openHeadersType with
        | none => reflectPanic "reflect: New(nil)"
        | some t =>
          assignParm parms1 ws.openHeadersIndex (env.Convert (ValueOfHeaders st.logHeaders) t)
      else .ok parms1
    match withHeaders with
    | .error p => .error p
    | .ok parms2 =>
      match assignRole parms2 ws.openRequestIndex requestHandle with
      | .error p => .error p
      | .ok parms3 =>
        match assignRole parms3 ws.openLoggerIndex loggerHandle with
        | .error p => .error p
        | .ok parms4 =>
          match assignRole parms4 ws.openClientIndex connHandle with
          | .error p => .error p
          | .ok parms5 => fillParms env.GetInject (some f.In) 0 parms5

/-- The open handler (lines 241-299): the session value it yields, the zero Value
when there is no handler or it returns nothing. -/
def openWebsocket (env : Env) (ws : websocketServiceType) (st : St) :
    Except GoValue GoValue × St :=
  match ws.openFunc with
  | none => (.ok .invalid, st)
  | some f =>
    match bindOpenParms env ws f st with
    | .error p => (.error p, st)
    | .ok openParms =>
      match Call (some f) openParms with
      | .error p => (.error p, afterCall (some f) openParms (.openHandler openParms) st)
      | .ok outs =>
        (.ok (outs.headD .invalid), afterCall (some f) openParms (.openHandler openParms) st)

/-- The slice `u.String(*msg)[0:1024]` of line 314. -/
def first1024 (text : GoString) : Except GoValue GoString :=
  if 1024 ≤ text.length then .ok (text.take 1024)
  else runtimePanic "slice bounds out of range [:1024]"

/-- The message data and action name of a message when no decoder is configured
(lines 323-332); a nil `map[string]interface{}` passes the type assertion of
line 324 and has no `action`. -/
def defaultDecode (env : Env) (msg : GoValue) : GoString × Option GoMap :=
  match msg with
  | .map .iface entries =>
    let mapMsg : GoMap := entries.map (fun kv => (kv.1, kv.2.Interface))
    match mapMsg.get (ascii "action") with
    | some (.scalar t text) =>
      if t = ascii "string" ∧ text = [] then ([], some mapMsg)
      else (env.uString (.scalar t text), some mapMsg)
    | some v => (env.uString v, some mapMsg)
    | none => (env.uString .invalid, some mapMsg)
  | .nilMap .iface => (env.uString .invalid, some [])
  | other => ([], some [(ascii "data", other)])

/-- Lines 308-333: the action name and the message data of a message. With a
decoder, its error is handed to `requestLogger.Error` and the values it returned
are used. -/
def decodeMessage (env : Env) (ws : websocketServiceType) (request : Request) (msg : GoValue)
    (st : St) : Except GoValue (GoString × Option GoMap) × St :=
  match ws.decoder with
  | some decoder =>
    match (decoder msg).2.2 with
    | none => (.ok ((decoder msg).1, (decoder msg).2.1), st)
    | some err =>
      match first1024 (env.uString msg) with
      | .error p => (.error p, st)
      | .ok message =>
        match getRealIp request with
        | .error p => (.error p, st)
        | .ok _ => (.ok ((decoder msg).1, (decoder msg).2.1), st.emit (.loggerError err message))
  | none => (.ok (defaultDecode env msg), st)

/-- The action a name selects (lines 335-338): the action registered under the
name, else the one registered under the empty name. -/
def lookupAction (ws : websocketServiceType) (actionName : GoString) :
    Option websocketActionType :=
  match ws.actions actionName with
  | some action => some action
  | none => ws.actions []

/-- The four fields of the extra information of a WSACTION or WSACTIONERROR
record. -/
def actionInfo (actionName : GoString) (logInMsg : GoValue) (outAction : GoString)
    (logOutMsg : GoValue) : GoMap :=
  [(ascii "inAction", .ofString actionName), (ascii "inMessage", logInMsg),
   (ascii "outAction", .ofString outAction), (ascii "outMessage", logOutMsg)]

/-- Lines 356-381: the action is run and its outcome is logged. -/
def runAction (env : Env) (ws : websocketServiceType) (request : Request) (authLevel : Int)
    (sess : GoValue) (actionName : GoString) (action : websocketActionType)
    (messageData : Option GoMap) (st : St) : Step :=
  match doWebsocketAction env ws actionName action request messageData sess st with
  | (.error p, st1) => (some p, st1)
  | (.ok r, st1) =>
    match logableMessage env (ValueOfData messageData) with
    | .error p => (some p, st1)
    | .ok logInMsg =>
      match logableMessage env r.outData with
      | .error p => (some p, st1)
      | .ok logOutMsg =>
        match r.err with
        | none =>
          if env.Config.LogWebsocketAction then
            writeLog env (ascii "WSACTION") .invalid r.outLen request st1 authLevel
              (actionInfo actionName logInMsg r.outAction logOutMsg)
          else (none, st1)
        | some e =>
          writeLog env (ascii "WSACTIONERROR") .invalid r.outLen request st1 authLevel
            (actionInfo actionName logInMsg r.outAction logOutMsg ++
              [(ascii "error", .ofString e)])

/-- Lines 343-354: what is done when the action checker rejects a message. -/
def rejectAction (env : Env) (request : Request) (authLevel : Int) (actionName : GoString)
    (messageData : Option GoMap) (st : St) : Step :=
  match logableMessage env (ValueOfData messageData) with
  | .error p => (some p, st)
  | .ok logInMsg =>
    match writeLog env (ascii "WSREJECT") .invalid 0 request st authLevel
        [(ascii "inAction", .ofString actionName), (ascii "inMessage", logInMsg)] with
    | (some p, st1) => (some p, st1)
    | (none, st1) => (none, { st1 with response := st1.response.WriteHeader 403 })

/-- Lines 334-381: the body of the loop after the message was decoded. -/
def dispatchAction (env : Env) (ws : websocketServiceType) (request : Request)
    (authLevel : Int) (sess : GoValue) (actionName : GoString) (messageData : Option GoMap)
    (st : St) : Step :=
  match lookupAction ws actionName with
  | none => (none, st)
  | some action =>
    match env.webSocketActionAuthChecker with
    | none => runAction env ws request authLevel sess actionName action messageData st
    | some checker =>
      if action.authLevel > 0 then
        match checker action.authLevel request.RequestURI actionName messageData request sess with
        | .error p => (some p, st.emit (.actionAuthChecker action.authLevel actionName))
        | .ok false =>
          rejectAction env request authLevel actionName messageData
            (st.emit (.actionAuthChecker action.authLevel actionName))
        | .ok true =>
          runAction env ws request authLevel sess actionName action messageData
            (st.emit (.actionAuthChecker action.authLevel actionName))
      else runAction env ws request authLevel sess actionName action messageData st

/-- One turn of the loop of lines 301-382 for a message that was read. -/
def handleMessage (env : Env) (ws : websocketServiceType) (request : Request)
    (authLevel : Int) (sess : GoValue) (msg : GoValue) (st : St) : Step :=
  match decodeMessage env ws request msg st with
  | (.error p, st1) => (some p, st1)
  | (.ok decoded, st1) => dispatchAction env ws request authLevel sess decoded.1 decoded.2 st1

/-- The loop of lines 301-382 over the messages the client sends; `ReadJSON`
yields them in order and fails once they are exhausted, which is the only
`break`. -/
def messageLoop (env : Env) (ws : websocketServiceType) (request : Request) (authLevel : Int)
    (sess : GoValue) (messages : List GoValue) (st : St) : Step :=
  match messages with
  | [] => (none, st)
  | msg :: rest =>
    match handleMessage env ws request authLevel sess msg (st.emit (.readMessage msg)) with
    | (some p, st1) => (some p, st1)
    | (none, st1) => messageLoop env ws request authLevel sess rest st1

/-- The parameters of the close handler (lines 386-420); the fill loop reads the
parameter types of the open handler, as line 402 does. -/
def bindCloseParms (env : Env) (ws : websocketServiceType) (sess : GoValue) :
    Except GoValue (List GoValue) :=
  let parms0 : List GoValue := List.replicate ws.closeParmsNum .invalid
  match assignRole parms0 ws.closeSessionIndex sess with
  | .error p => .error p
  | .ok parms1 =>
    match assignRole parms1 ws.closeClientIndex connHandle with
    | .error p => .error p
    | .ok parms2 =>
      match assignRole parms2 ws.closeRequestIndex requestHandle with
      | .error p => .error p
      | .ok parms3 =>
        match assignRole parms3 ws.closeLoggerIndex loggerHandle with
        | .error p => .error p
        | .ok parms4 => fillParms env.GetInject (ws.openFunc.map (fun f => f.In)) 0 parms4

/-- The close handler (lines 384-423). -/
def closeWebsocket (env : Env) (ws : websocketServiceType) (sess : GoValue) (st : St) : Step :=
  match ws.closeFunc with
  | none => (none, st)
  | some f =>
    match bindCloseParms env ws sess with
    | .error p => (some p, st)
    | .ok closeParms =>
      match Call (some f) closeParms with
      | .error p => (some p, afterCall (some f) closeParms (.closeHandler closeParms) st)
      | .ok _ => (none, afterCall (some f) closeParms (.closeHandler closeParms) st)

/-- Lines 384-425: what follows the loop. -/
def closeSession (env : Env) (ws : websocketServiceType) (request : Request) (authLevel : Int)
    (sess : GoValue) (st : St) : Step :=
  match closeWebsocket env ws sess st with
  | (some p, st1) => (some p, st1)
  | (none, st1) => writeLog env (ascii "WSCLOSE") .invalid 0 request st1 authLevel []

/-- Lines 240-426 of `doWebsocketService`, what follows a successful upgrade, for
a client that sends `messages`: the open handler, the message loop, the close
handler and the WSCLOSE record. -/
def websocketSession (env : Env) (messages : List GoValue) (authLevel : Int)
    (ws : websocketServiceType) (request : Request) (st : St) : Step :=
  match openWebsocket env ws st with
  | (.error p, st1) => (some p, st1)
  | (.ok sess, st1) =>
    match messageLoop env ws request authLevel sess messages st1 with
    | (some p, st2) => (some p, st2)
    | (none, st2) => closeSession env ws request authLevel sess st2

/-! ## A concrete configuration

The registries are empty and the library functions are the simplest ones; the
examples below override the fields they need. -/

/-- The text after the first `?` of a target. -/
def rawQueryOf (target : GoString) : GoString :=
  match IndexByte target 63 with
  | some i => target.drop (i + 1)
  | none => []

/-- The base configuration of the examples. -/
def env0 : Env where
  Config :=
    { NoLogGets := false, LogInputArrayNum := 10, LogOutputArrayNum := 10,
      Compress := false, CompressMinSize := 0, CompressMaxSize := 0 }
  uString := textOf
  encryptLogFields := fun _ => false
  noLogHeaders := fun _ => false
  logOutputFields := fun _ => true
  webServices := fun _ => none
  websocketServices := fun _ => none
  regexWebServices := []
  regexWebsocketServices := []
  inFilters := []
  outFilters := []
  webAuthChecker := none
  accessTokens := fun _ => none
  errorHandle := none
  ResponseCodePanicError := 500
  QueryUnescape := fun g => .ok g
  urlParseRawQuery := fun target => .ok (rawQueryOf target)
  ParseQuery := fun _ => .ok []
  jsonUnmarshal := fun _ => .error (ascii "unexpected end of JSON input")
  makeBytesResult := fun v => .ok (textOf v)
  gzipBytes := fun b => b
  Atoi := fun _ => 0
  websocketSession := fun _ _ st => (none, st)

/-- A `GET` request for `target` without body, query or headers. -/
def getRequest (target : GoString) : Request where
  Method := ascii "GET"
  RequestURI := target
  URLPath := target
  Host := ascii "localhost"
  RemoteAddr := ascii "127.0.0.1:50000"
  Proto := ascii "HTTP/1.1"
  TLS := false
  Header := []
  Form := .ok []
  Body := none

/-- A fresh `Response` around a writer nothing was written to. -/
def response0 : Response where
  writerHeader := []
  writerCodes := []
  writerBody := []
  status := 200
  outLen := 0
  ProxyHeader := none

/-- An HTTP route for `method` whose handler returns the string `out`. -/
def routeReturning (method : GoString) (authLevel : Int) (out : GoString) : webServiceType where
  authLevel := authLevel
  priority := 0
  method := method
  pathMatcher := fun _ => []
  pathArgs := []
  funcValue := fun _ => .ok (.ofString out)

/-- The matcher compiled from `^<lead>(.*?)$`: the whole path and the text after
`lead`. -/
def matchAfter (lead : GoString) (path : GoString) : List (List GoString) :=
  if lead.isPrefixOf path then [[path, path.drop lead.length]] else []

/-- A pattern route `<lead>{name}` for any method, with a declared priority. -/
def patternRoute (lead name : GoString) (priority : Int) (out : GoString) : webServiceType where
  authLevel := 0
  priority := priority
  method := []
  pathMatcher := matchAfter lead
  pathArgs := [name]
  funcValue := fun _ => .ok (.ofString out)

/-- An interface element holding the `int` with decimal text `n`. -/
def intElem (n : Nat) : GoValue := .iface (.scalar (ascii "int") (ascii (toString n)))

/-! ## Vocabulary of the properties and example registries -/

/-- The route can serve the request: its method is empty or the request's, and
its pattern matches the request path. -/
def servesRequest (request : Request) (r : webServiceType) : Prop :=
  (r.method = [] ∨ r.method = request.Method) ∧ r.pathMatcher (requestPathOf request) ≠ []

/-- What registration guarantees of a pattern route: it has at least one
capture name, and every match has the whole match and one group per name. -/
def PatternRoute (r : webServiceType) : Prop :=
  r.pathArgs ≠ [] ∧ ∀ path m, m ∈ r.pathMatcher path → m.length = r.pathArgs.length + 1

/-- The route with its declared priority replaced. -/
def withPriority (priority : webServiceType → Int) (r : webServiceType) : webServiceType :=
  { r with priority := priority r }

/-- A registry with exact and pattern routes: `GET /users/me` is registered under
`method+path`, `/users/all` under the path alone, and the pattern
`/users/{id}` matches both paths. -/
def exactEnv : Env :=
  { env0 with
    webServices := fun key =>
      if key = ascii "GET/users/me" then some (routeReturning (ascii "GET") 0 (ascii "me"))
      else if key = ascii "/users/all" then some (routeReturning [] 0 (ascii "all"))
      else none
    regexWebServices := [patternRoute (ascii "/users/") (ascii "id") 9 (ascii "byId")] }

/-- A registry with two overlapping pattern routes: `/users/{id}`, registered
first with priority 9, and `/users/{name}`, registered last with priority 1. -/
def overlapEnv : Env :=
  { env0 with
    regexWebServices :=
      [patternRoute (ascii "/users/") (ascii "id") 9 (ascii "first"),
       patternRoute (ascii "/users/") (ascii "name") 1 (ascii "second")] }

/-- The entries stored into a map one after the other. -/
def setAll (args : GoMap) (es : List (GoString × GoValue)) : GoMap :=
  es.foldl (fun m e => GoMap.set m e.1 e.2) args

/-- What the re-parsed raw query contributes: the map its loop builds from the
empty map. -/
def rewriteSource (env : Env) (request : Request) : GoMap :=
  mergeRewriteQuery env request []

/-- What the query string and form contribute. -/
def formSource (request : Request) : GoMap :=
  match request.Form with
  | .error _ => []
  | .ok reqForm =>
    match mergeValues reqForm [] with
    | .ok m => m
    | .error _ => []

/-- What the body (JSON or URL-encoded) contributes. -/
def bodySource (env : Env) (request : Request) : GoMap :=
  match mergeBody env request [] with
  | .ok m => m
  | _ => []

/-- The registry of the end-to-end example: `GET /users/{id}`. -/
def usersEnv : Env :=
  { env0 with
    regexWebServices :=
      [{ patternRoute (ascii "/users/") (ascii "id") 0 (ascii "user") with method := ascii "GET" }] }

/-- The request `GET /users/42?x=1` without body; `Form` is what `ParseForm`
makes of the query. -/
def usersRequest : Request :=
  { getRequest (ascii "/users/42?x=1") with
    URLPath := ascii "/users/42"
    Form := .ok [(ascii "x", [ascii "1"])] }

/-- A state around a fresh response, with the given argument map. -/
def stateWith (args : GoMap) : St :=
  { response := response0, args := args, logHeaders := [], trace := [] }

/-- The JSON object `{"a":1}` as `json.Unmarshal` decodes it into an
`interface{}`. -/
def objectA : GoValue :=
  .map .iface [(ascii "a", .iface (.scalar (ascii "float64") (ascii "1")))]

/-- A configuration whose JSON decoder knows three bodies: the object
`{"a":1}`, the same object after a blank, and the array `[1]`; `encoding/json`
accepts white space before a value. -/
def jsonEnv : Env :=
  { env0 with
    jsonUnmarshal := fun body =>
      if body = ascii "\x7b\"a\":1\x7d" then .ok objectA
      else if body = ascii " \x7b\"a\":1\x7d" then .ok objectA
      else if body = ascii "[1]" then
        .ok (.slice .iface [.iface (.scalar (ascii "float64") (ascii "1"))])
      else .error (ascii "invalid character") }

/-- A `POST` of the JSON body `body`. -/
def jsonRequest (body : GoString) : Request :=
  { getRequest (ascii "/save") with
    Method := ascii "POST"
    Header := [(ascii "Content-Type", [ascii "application/json"])]
    Body := some body }

/-- A WebSocket service registered at the exact path `path` whose upgrade
succeeds. -/
def socketAt (path : GoString) (authLevel : Int) : websocketServiceType where
  authLevel := authLevel
  priority := 0
  path := path
  pathMatcher := fun _ => []
  pathArgs := []
  Upgrade := fun _ => none

/-- A pre-filter that answers every request with the string `out`. -/
def answerWith (out : GoString) : GoMap → Request → Except GoValue (GoMap × GoValue) :=
  fun args _ => .ok (args, .ofString out)

/-- A registry with the WebSocket service `/ws` and the HTTP route `/api`, both
public, behind one pre-filter that answers `denied`. -/
def filteredEnv : Env :=
  { env0 with
    webServices := fun key =>
      if key = ascii "/api" then some (routeReturning [] 0 (ascii "handled")) else none
    websocketServices := fun key =>
      if key = ascii "/ws" then some (socketAt (ascii "/ws") 0) else none
    inFilters := [answerWith (ascii "denied")] }

/-- The records logged along a trace, in order. -/
def logEntries (trace : List Event) : List LogEntry :=
  trace.filterMap (fun e => match e with
    | .log entry => some entry
    | _ => none)

/-- The trace of `st1` is the trace of `st` followed by events that satisfy `P`. -/
def Extends (P : Event → Prop) (st st1 : St) : Prop :=
  ∃ added, st1.trace = st.trace ++ added ∧ ∀ e ∈ added, P e

/-- Logging of the request is switched off: `Config.NoLogGets` is set and the
method is `GET` (lines 497-499). -/
def logSuppressed (env : Env) (request : Request) : Prop :=
  env.Config.NoLogGets = true ∧ request.Method = ascii "GET"

/-- The events the body of a plain HTTP request can add to the trace when the
required level is `authLevel`. -/
def bodyEvent (authLevel : Int) (e : Event) : Prop :=
  (∃ i, e = .inFilter i) ∨ (e = .authChecker authLevel ∧ 0 < authLevel) ∨ e = .handler ∨
    (∃ i, e = .outFilter i) ∨ (∃ entry, e = .log entry)

/-- A registry with the protected route `/admin` (level 1) and a checker that
denies every request. -/
def deniedEnv : Env :=
  { env0 with
    webServices := fun key =>
      if key = ascii "/admin" then some (routeReturning [] 1 (ascii "secret")) else none
    webAuthChecker := some (fun _ _ _ _ => .ok false) }

/-- The registry `deniedEnv` with `Config.NoLogGets` set. -/
def quietDeniedEnv : Env :=
  { deniedEnv with Config := { deniedEnv.Config with NoLogGets := true } }

/-- The registry `deniedEnv` behind a pre-filter that answers `cached`. -/
def filteredDeniedEnv : Env :=
  { deniedEnv with inFilters := [answerWith (ascii "cached")] }

/-- The authorization check of lines 375-391 lets the request through, leaving
`st2`: no level is required, or the checker was consulted and returned true. -/
def Authorized (env : Env) (request : Request) (authLevel : Int) (st1 st2 : St) : Prop :=
  (authLevel ≤ 0 ∧ st2 = st1) ∨
  (0 < authLevel ∧ callAuthChecker env authLevel request st1.args = .ok true ∧
    st2 = st1.emit (.authChecker authLevel))

/-- A pre-filter, the checker, the handler, a post-filter or the encoding of the
result panics with payload `p` while the body of `ServeHTTP` runs from `st` for
the resolved services `s` and `ws`; the last index is the state at the panic. The
handler, the post-filters and the encoding belong to a plain HTTP route. -/
inductive PanicsIn (env : Env) (request : Request) (s : Option webServiceType)
    (ws : Option websocketServiceType) (authLevel : Int) (st : St) : GoValue → St → Prop where
  | inFilter (p : GoValue) (st1 : St)
      (hfil : runInFilters request env.inFilters 0 st = (.error p, st1)) :
      PanicsIn env request s ws authLevel st p st1
  | authChecker (p result : GoValue) (st1 : St)
      (hfil : runInFilters request env.inFilters 0 st = (.ok result, st1))
      (hpos : 0 < authLevel)
      (hcheck : callAuthChecker env authLevel request st1.args = .error p) :
      PanicsIn env request s ws authLevel st p (st1.emit (.authChecker authLevel))
  | handler (p result : GoValue) (st1 st2 st3 : St) (hws : ws = none) (hs : s.isSome = true)
      (hfil : runInFilters request env.inFilters 0 st = (.ok result, st1))
      (hauth : Authorized env request authLevel st1 st2)
      (hcall : doWebService s result st2 = (.error p, st3)) :
      PanicsIn env request s ws authLevel st p st3
  | outFilter (p result result1 : GoValue) (st1 st2 st3 st4 : St) (hws : ws = none)
      (hs : s.isSome = true)
      (hfil : runInFilters request env.inFilters 0 st = (.ok result, st1))
      (hauth : Authorized env request authLevel st1 st2)
      (hcall : doWebService s result st2 = (.ok result1, st3))
      (hout : runOutFilters request env.outFilters 0 result1 st3 = (.error p, st4)) :
      PanicsIn env request s ws authLevel st p st4
  | encode (p result result1 result2 : GoValue) (st1 st2 st3 st4 : St) (hws : ws = none)
      (hs : s.isSome = true)
      (hfil : runInFilters request env.inFilters 0 st = (.ok result, st1))
      (hauth : Authorized env request authLevel st1 st2)
      (hcall : doWebService s result st2 = (.ok result1, st3))
      (hout : runOutFilters request env.outFilters 0 result1 st3 = (.ok result2, st4))
      (hvalid : result2.IsValid = true)
      (hbytes : resultBytes env result2 = .error p) :
      PanicsIn env request s ws authLevel st p st4

/-- A route whose handler panics with the string `payload`. -/
def routePanicking (payload : GoString) : webServiceType where
  authLevel := 0
  priority := 0
  method := []
  pathMatcher := fun _ => []
  pathArgs := []
  funcValue := fun _ => .error (.ofString payload)

/-- A registry with the route `/boom`, whose handler panics with `boom`. -/
def panicEnv : Env :=
  { env0 with
    webServices := fun key =>
      if key = ascii "/boom" then some (routePanicking (ascii "boom")) else none }

/-- The registry `panicEnv` with `Config.NoLogGets` set. -/
def quietPanicEnv : Env :=
  { panicEnv with Config := { panicEnv.Config with NoLogGets := true } }

/-- The state in which the default recovery (no `errorHandle`) logs the PANIC
record: the panic status is set and the payload's text has gone to `logError`. -/
def panicLogState (env : Env) (st : St) (p : GoValue) : St :=
  { st with response := st.response.WriteHeader env.ResponseCodePanicError }.emit
    (.logError (env.uString p))

/-- The events a request can add when a pre-filter answered it on a WebSocket
path: no upgrade, and no record but REJECT and PANIC ones. -/
def answeredEvent (e : Event) : Prop :=
  e ≠ .upgrade ∧ e ≠ .websocketSession ∧
    ∀ entry, e = .log entry → entry.logName = ascii "REJECT" ∨ entry.logName = ascii "PANIC"

/-- The test the log format describes: the name with all of its hyphens removed,
in lower case, is in the configured set. -/
def specRequireEncryptField (encryptLogFields : GoString → Bool) (k : GoString) : Bool :=
  encryptLogFields (ToLower (k.filter (fun b => b ≠ 45)))

/-- The loop of `copyProxyHeader`: every value of `src` is added to `dst`. -/
def addAll (src dst : Values) : Values :=
  src.foldl (fun d kv => kv.2.foldl (fun d1 v => Values.Add d1 kv.1 v) d) dst

/-- A configuration whose `url.QueryUnescape` decodes `%20`-escaped `a%20b`. -/
def unescapeEnv : Env :=
  { env0 with
    QueryUnescape := fun g => if g = ascii "a%20b" then .ok (ascii "a b") else .ok g }

/-- The pattern WebSocket service `/chat/{room}`. -/
def chatSocket : websocketServiceType where
  authLevel := 0
  priority := 0
  path := ascii "/chat/\x7broom\x7d"
  pathMatcher := matchAfter (ascii "/chat/")
  pathArgs := [ascii "room"]
  Upgrade := fun _ => none

/-- A registry with the pattern WebSocket service `/chat/{room}` only. -/
def chatSocketEnv : Env := { unescapeEnv with regexWebsocketServices := [chatSocket] }

/-- A registry with the pattern HTTP route `/chat/{room}` only. -/
def chatRouteEnv : Env :=
  { unescapeEnv with regexWebServices := [patternRoute (ascii "/chat/") (ascii "room") 0 (ascii "chat")] }

/-- A configuration that masks the name `password`. -/
def maskEnv : Env := { env0 with encryptLogFields := fun k => decide (k = ascii "password") }

/-- The configuration `env0` with `Config.NoLogGets` set. -/
def quietEnv : Env := { env0 with Config := { env0.Config with NoLogGets := true } }

/-- A short name of an event; a log record is named by its tag, an action
handler by its action. -/
def Event.label : Event → GoString
  | .inFilter _ => ascii "inFilter"
  | .authChecker _ => ascii "authChecker"
  | .handler => ascii "handler"
  | .upgrade => ascii "upgrade"
  | .websocketSession => ascii "websocketSession"
  | .outFilter _ => ascii "outFilter"
  | .errorHandle => ascii "errorHandle"
  | .logError _ => ascii "logError"
  | .log entry => ascii "log:" ++ entry.logName
  | .openHandler _ => ascii "openHandler"
  | .readMessage _ => ascii "readMessage"
  | .loggerError _ _ => ascii "loggerError"
  | .actionAuthChecker _ _ => ascii "actionAuthChecker"
  | .actionHandler actionName _ => ascii "actionHandler:" ++ actionName
  | .writeMessage _ => ascii "writeMessage"
  | .closeHandler _ => ascii "closeHandler"

/-- A close handler `func(conn *websocket.Conn, logger *log.Logger)`. -/
def closeWithLogger : FuncValue where
  In := [connType, loggerType]
  Out := []
  call := fun _ => .ok []

/-- A close handler `func(conn *websocket.Conn, request *http.Request)`. -/
def closeWithRequest : FuncValue where
  In := [connType, requestType]
  Out := []
  call := fun _ => .ok []

/-- The service registered at `/ws` with no open handler, the close handler
`onClose` and no hooks. -/
def socketClosing (onClose : FuncValue) : websocketServiceType :=
  RegisterWebsocketWithPriority 0 0 (ascii "/ws") (fun _ => []) [] (fun _ => none) none
    (some onClose) none none

/-- The registry `env` with the WebSocket service `ws` at its exact path, for a
client that sends `messages` once the connection is open. -/
def sessionEnv (env : Env) (messages : List GoValue) (ws : websocketServiceType) : Env :=
  { env with
    websocketServices := fun key => if key = ws.path then some ws else none
    websocketSession := fun service request st =>
      websocketSession env messages service.authLevel service request st }

mutual
/-- A JSON text of a value, for the examples: the entries of an object in the
order of the list, strings in quotes without escaping. -/
def jsonOf (v : GoValue) : GoString :=
  match v with
  | .invalid => ascii "null"
  | .scalar t text => if t = ascii "string" then [34] ++ text ++ [34] else text
  | .struct _ fields => [123] ++ jsonMembers fields ++ [125]
  | .map _ entries => [123] ++ jsonMembers entries ++ [125]
  | .slice _ items => [91] ++ jsonElements items ++ [93]
  | .iface dyn => jsonOf dyn
  | .ptr _ target => jsonOf target
  | .nilMap _ => ascii "null"
  | .otherMap _ _ => [123, 125]
termination_by structural v

/-- The members of an object, separated by commas. -/
def jsonMembers (entries : List (GoString × GoValue)) : GoString :=
  match entries with
  | [] => []
  | (k, x) :: rest =>
    [34] ++ k ++ [34, 58] ++ jsonOf x ++ (if rest.isEmpty then [] else [44]) ++ jsonMembers rest
termination_by structural entries

/-- The elements of an array, separated by commas. -/
def jsonElements (items : List GoValue) : GoString :=
  match items with
  | [] => []
  | x :: rest => jsonOf x ++ (if rest.isEmpty then [] else [44]) ++ jsonElements rest
termination_by structural items
end

/-- A configuration whose `json.Marshal` is `jsonOf` and which logs the actions
of a WebSocket connection. -/
def socketEnv : Env :=
  { env0 with
    Config := { env0.Config with LogWebsocketAction := true }
    jsonMarshal := fun v => .ok (jsonOf v) }

/-- The action handler `func() (string, map[string]interface{})` that returns
`("pong", {"ok": true})`. -/
def pongHandler : FuncValue where
  In := []
  Out := [.basic (ascii "string"), .map .iface]
  call := fun _ =>
    .ok [.ofString (ascii "pong"),
         .map .iface [(ascii "ok", .iface (.scalar (ascii "bool") (ascii "true")))]]

/-- The action handler `func() map[string]interface{}` that returns the nil
map. -/
def nilMapHandler : FuncValue where
  In := []
  Out := [.map .iface]
  call := fun _ => .ok [.nilMap .iface]

/-- The action handler `func() map[string]string` that returns `{"ok": "yes"}`. -/
def textMapHandler : FuncValue where
  In := []
  Out := [.map (.basic (ascii "string"))]
  call := fun _ =>
    .ok [.map (.basic (ascii "string")) [(ascii "ok", .ofString (ascii "yes"))]]

/-- The service `/ws` without handlers or hooks, with the action `handler`
registered under `name` at level `authLevel`. -/
def socketWith (name : GoString) (authLevel : Int) (handler : FuncValue) : websocketServiceType :=
  { RegisterWebsocketWithPriority 0 0 (ascii "/ws") (fun _ => []) [] (fun _ => none) none none
      none none with
    actions := fun key =>
      if key = name then some (RegisterActionWithPriority none authLevel 0 (some handler))
      else none }

/-- The message `{"action": name}` as `ReadJSON` decodes it. -/
def actionMessage (name : GoString) : GoValue :=
  .map .iface [(ascii "action", .iface (.ofString name))]

/-- The guard of lines 344-354 lets a message through, leaving `st1`: no action
checker is installed, or the action requires no level, or the checker was
consulted and returned true. -/
def ActionAdmitted (env : Env) (request : Request) (sess : GoValue) (actionName : GoString)
    (action : websocketActionType) (messageData : Option GoMap) (st st1 : St) : Prop :=
  (env.webSocketActionAuthChecker = none ∧ st1 = st) ∨
  (action.authLevel ≤ 0 ∧ st1 = st) ∨
  (∃ checker, env.webSocketActionAuthChecker = some checker ∧ 0 < action.authLevel ∧
    checker action.authLevel request.RequestURI actionName messageData request sess = .ok true ∧
    st1 = st.emit (.actionAuthChecker action.authLevel actionName))

/-- The configuration `socketEnv` with an action checker that rejects every
message. -/
def guardedEnv : Env :=
  { socketEnv with webSocketActionAuthChecker := some (fun _ _ _ _ _ _ => .ok false) }

/-- The configuration `socketEnv` with a `json.Marshal` that fails. -/
def brokenJsonEnv : Env :=
  { socketEnv with jsonMarshal := fun _ => .error (ascii "json: unsupported type") }

/-- A message whose string form has 1024 bytes. -/
def longMessage : GoValue := .ofString (List.replicate 1024 120)

/-- The service `/ws` with the action `handler` registered under the empty name
and a decoder that fails on every message, returning the empty action name, the
data `data` and the error `bad message`. -/
def failingDecoderSocket (handler : FuncValue) (data : Option GoMap) : websocketServiceType :=
  { socketWith [] 0 handler with
    decoder := some (fun _ => ([], data, some (ascii "bad message"))) }

/-- The mask of a string: `encryptField` on a string value, whose string form is
the string itself. -/
def mask (v : GoString) : GoString := encryptField textOf (.ofString v)

/-- The length brackets of the masking rule, numbered from the shortest:
`L ≤ 1`, `1 < L ≤ 4`, `4 < L ≤ 8`, `8 < L ≤ 12`, `L > 12`. -/
def lengthBracket (n : Nat) : Nat :=
  if n ≤ 1 then 0 else if n ≤ 4 then 1 else if n ≤ 8 then 2 else if n ≤ 12 then 3 else 4

/-- A request from a peer whose address has no port (`RemoteAddr` is `@`, as
for a Unix socket), carrying the client-ip header `10.0.0.7`. -/
def socketPeerRequest : Request :=
  { getRequest (ascii "/") with
    RemoteAddr := ascii "@"
    Header := [(DiscoverHeaderClientIp, [ascii "10.0.0.7"])] }

/-- The request `GET /` from `127.0.0.1:50000` that carries no request id and the
client-ip header `ip`. -/
def forwardedRequest (ip : GoString) : Request :=
  { getRequest (ascii "/") with Header := [(DiscoverHeaderClientIp, [ip])] }

/-- The configuration of `env0` with `AcceptXRealIpWithoutRequestId` set. -/
def acceptingConfig : ConfigType :=
  { env0.Config with AcceptXRealIpWithoutRequestId := true }

/-- The mask applied `n` times to a header value. -/
def maskedTimes (env : Env) (n : Nat) (v : GoString) : GoString :=
  (fun x => encryptField env.uString (.ofString x))^[n] v

/-- The state after the log calls `calls` (name, result, length, extra
information), issued one after the other with the same header snapshot, whether
or not one of them panics. -/
def logCalls (env : Env) (request : Request) (authLevel : Int)
    (calls : List (GoString × GoValue × Int × GoMap)) (st : St) : St :=
  calls.foldl (fun s c => (writeLog env c.1 c.2.1 c.2.2.1 request s authLevel c.2.2.2).2) st

/-- The parameter lists the open handler was called with, along a trace. -/
def openCalls (trace : List Event) : List (List GoValue) :=
  trace.filterMap (fun e => match e with
    | .openHandler parms => some parms
    | _ => none)

/-- A configuration that masks the header `Authorization` and whose `u.Convert`
turns a map into the struct with the entries of the map as fields. -/
def headerEnv : Env :=
  { env0 with
    encryptLogFields := fun k => decide (k = ascii "authorization")
    Convert := fun v t =>
      match v with
      | .map _ entries => .struct t.String entries
      | _ => .struct t.String [] }

/-- An open handler `func(in Args, headers Headers) Session`. -/
def openWithHeaders : FuncValue where
  In := [.struct (ascii "Args"), .struct (ascii "Headers")]
  Out := [.struct (ascii "Session")]
  call := fun _ => .ok [.struct (ascii "Session") []]

/-- The service `/ws` registered with the open handler `openWithHeaders`. -/
def headerSocket : websocketServiceType :=
  RegisterWebsocketWithPriority 0 0 (ascii "/ws") (fun _ => []) [] (fun _ => none)
    (some openWithHeaders) none none none

/-- A post-filter: the argument map, the request and the current result give a
panic, or the argument map it leaves, its `newResult` and its `done`. -/
abbrev OutFilter := GoMap → Request → GoValue → Except GoValue (GoMap × GoValue × Bool)

/-- The state of the fold the post-filter contract describes: the current
result, the argument map, whether a filter asked to stop, how many filters were
invoked, and the panic of a filter, if any. -/
structure FilterFold where
  result : GoValue
  args : GoMap
  stopped : Bool
  invoked : Nat
  panicked : Option GoValue

/-- One step of the fold: once a filter asked to stop (or panicked) no filter
is invoked; otherwise the filter is invoked, a non-nil `newResult` replaces the
current result and a nil one leaves it. -/
def foldStep (request : Request) (acc : FilterFold) (filter : OutFilter) : FilterFold :=
  if acc.stopped = true ∨ acc.panicked.isSome = true then acc
  else
    match filter acc.args request acc.result with
    | .error p => { acc with invoked := acc.invoked + 1, panicked := some p }
    | .ok (args1, newResult, done) =>
      { result := if newResult.IsValid then newResult else acc.result
        args := args1
        stopped := done
        invoked := acc.invoked + 1
        panicked := none }

/-- The fold of the filters, in order, over a result. -/
def foldOutFilters (request : Request) (filters : List OutFilter) (result : GoValue)
    (args : GoMap) : FilterFold :=
  filters.foldl (foldStep request)
    { result := result, args := args, stopped := false, invoked := 0, panicked := none }

/-- The events of the filters with index `i`, ..., `i + n - 1`. -/
def outFilterEvents (i n : Nat) : List Event :=
  (List.range n).map (fun j => Event.outFilter (i + j))

/-- A registry with the route `/api`, whose handler returns `handled`, and three
post-filters: the first returns nil, the second replaces the result by `second`
and stops, the third would replace it by `third`. -/
def outFilterEnv : Env :=
  { env0 with
    webServices := fun key =>
      if key = ascii "/api" then some (routeReturning [] 0 (ascii "handled")) else none
    outFilters :=
      [fun args _ _ => .ok (args, .invalid, false),
       fun args _ _ => .ok (args, .ofString (ascii "second"), true),
       fun args _ _ => .ok (args, .ofString (ascii "third"), false)] }

/-- A route whose handler returns nothing. -/
def routeReturningNothing : webServiceType where
  authLevel := 0
  priority := 0
  method := []
  pathMatcher := fun _ => []
  pathArgs := []
  funcValue := fun _ => .ok .invalid

/-- A registry with the route `/silent`, whose handler returns nothing, and the
route `/__CHECK__`, whose handler returns `ok`. -/
def silentEnv : Env :=
  { env0 with
    webServices := fun key =>
      if key = ascii "/silent" then some routeReturningNothing
      else if key = ascii "/__CHECK__" then some (routeReturning [] 0 (ascii "ok"))
      else none }

/-- The value as `SetMapIndex` stores it in a map with element type `e`: held
by an interface when `e` is `interface{}`. -/
def storeAs (e : GoType) (x : GoValue) : GoValue :=
  if e = .iface then .iface x else x

/-- What is logged for one field or key of the container `whole` at depth 1
under the allow set `allow`, in a map with element type `e`: nothing when the
lowercased name is not in `allow`; the mask of the string form of `whole` when the
name is in the encrypt set; otherwise the value sanitized at depth 2 without
allow set, and nothing when that is nil. -/
def loggedField (uString : GoValue → GoString) (enc : GoString → Bool) (whole : GoValue)
    (e : GoType) (allow : GoString → Bool) (numArrays : Int) (kf : GoString × GoValue) :
    Option (GoString × GoValue) :=
  if allow (ToLower kf.1) = false then none
  else if requireEncryptField enc kf.1 then
    some (kf.1, storeAs e (.ofString (encryptField uString whole)))
  else
    match makeLogableData uString enc kf.2 none numArrays 2 with
    | .ok x => if x.IsValid then some (kf.1, storeAs e x) else none
    | .error _ => none

/-- The allow set `name`, `password`, `note`, `profile`. -/
def allowSome : GoString → Bool :=
  fun k => decide (k = ascii "name") || decide (k = ascii "password") ||
    decide (k = ascii "note") || decide (k = ascii "profile")

/-- The fields `Name: bob`, `Password: secret123456`, `Age: 42` and
`Profile: {age: 42}`, of which `Age` is not in `allowSome`. -/
def userFields : List (GoString × GoValue) :=
  [(ascii "Name", .iface (.ofString (ascii "bob"))),
   (ascii "Password", .iface (.ofString (ascii "secret123456"))),
   (ascii "Age", .iface (.scalar (ascii "int") (ascii "42"))),
   (ascii "Profile", .iface (.map .iface [(ascii "age", .iface (.scalar (ascii "int") (ascii "42")))]))]

/-! ## Masking -/

/-- C1: for a value whose string form `v` has byte length `L`, `encryptField`
returns `v[0:3]+"***"+v[L-3:]` when `L>12`, `v[0:2]+"***"+v[L-2:]` when
`8<L<=12`, `v[0:1]+"***"+v[L-1:]` when `4<L<=8`, `v[0:1]+"*"` when `1<L<=4` and
`"**"` when `L<=1`. -/
theorem encryptField_brackets (uString : GoValue → GoString) (value : GoValue) :
    (12 < (uString value).length →
      encryptField uString value
        = (uString value).take 3 ++ ascii "***" ++ (uString value).drop ((uString value).length - 3)) ∧
    (8 < (uString value).length ∧ (uString value).length ≤ 12 →
      encryptField uString value
        = (uString value).take 2 ++ ascii "***" ++ (uString value).drop ((uString value).length - 2)) ∧
    (4 < (uString value).length ∧ (uString value).length ≤ 8 →
      encryptField uString value
        = (uString value).take 1 ++ ascii "***" ++ (uString value).drop ((uString value).length - 1)) ∧
    (1 < (uString value).length ∧ (uString value).length ≤ 4 →
      encryptField uString value = (uString value).take 1 ++ ascii "*") ∧
    ((uString value).length ≤ 1 → encryptField uString value = ascii "**") := by
  have h3 : ascii "***" = [star, star, star] := by decide
  have h1 : ascii "*" = [star] := by decide
  have h2 : ascii "**" = [star, star] := by decide
  rw [h3, h1, h2]
  refine ⟨?_, ?_, ?_, ?_, ?_⟩
  · intro h
    simp only [encryptField, gt_iff_lt, h, if_true]
  · rintro ⟨h, h'⟩
    have : ¬ 12 < (uString value).length := by omega
    simp only [encryptField, gt_iff_lt, this, h, if_true, if_false]
  · rintro ⟨h, h'⟩
    have a : ¬ 12 < (uString value).length := by omega
    have b : ¬ 8 < (uString value).length := by omega
    simp only [encryptField, gt_iff_lt, a, b, h, if_true, if_false]
  · rintro ⟨h, h'⟩
    have a : ¬ 12 < (uString value).length := by omega
    have b : ¬ 8 < (uString value).length := by omega
    have c : ¬ 4 < (uString value).length := by omega
    simp only [encryptField, gt_iff_lt, a, b, c, h, if_true, if_false]
  · intro h
    have a : ¬ 12 < (uString value).length := by omega
    have b : ¬ 8 < (uString value).length := by omega
    have c : ¬ 4 < (uString value).length := by omega
    have d : ¬ 1 < (uString value).length := by omega
    simp only [encryptField, gt_iff_lt, a, b, c, d, if_false]

/-- The documented outputs of C1: `mask("abcdefghijklmno") = "abc***mno"`,
`mask("ab") = "a*"` and `mask("a") = "**"`, each obtained from the bracket rule. -/
theorem encryptField_brackets_witness :
    encryptField textOf (.ofString (ascii "abcdefghijklmno")) = ascii "abc***mno" ∧
    encryptField textOf (.ofString (ascii "ab")) = ascii "a*" ∧
    encryptField textOf (.ofString (ascii "a")) = ascii "**" :=
  ⟨((encryptField_brackets textOf (.ofString (ascii "abcdefghijklmno"))).1 (by decide)).trans
      (by decide),
   ((encryptField_brackets textOf (.ofString (ascii "ab"))).2.2.2.1 (by decide)).trans (by decide),
   (encryptField_brackets textOf (.ofString (ascii "a"))).2.2.2.2 (by decide)⟩

/-! ## Sequence truncation -/

theorem Append_valid (v2 : List GoValue) (y : GoValue) (h : y.IsValid = true) :
    Append v2 y = .ok (v2 ++ [.iface y]) := by
  cases y <;> first | rfl | simp [GoValue.IsValid] at h

/-- The element loop on elements that sanitize to non-nil values: from index
`i` on, the sanitized forms of the elements below the limit are appended in
order. -/
theorem makeLogableItems_valid (uString : GoValue → GoString) (enc : GoString → Bool)
    (numArrays : Int) (level : Nat) (items : List GoValue) (i : Nat) (v2 ys : List GoValue)
    (h : List.Forall₂
      (fun x y => makeLogableData uString enc x none numArrays (level + 1) = .ok y ∧
        y.IsValid = true)
      (items.take (numArrays.toNat - i)) ys) :
    makeLogableItems uString enc items i numArrays level v2
      = .ok (v2 ++ ys.map GoValue.iface) := by
  induction items generalizing i v2 ys with
  | nil =>
    simp only [List.take_nil, List.forall₂_nil_left_iff] at h
    subst h
    simp [makeLogableItems]
  | cons x rest ih =>
    by_cases hge : (i : Int) ≥ numArrays
    · have hz : numArrays.toNat - i = 0 := by omega
      rw [hz] at h
      simp only [List.take_zero, List.forall₂_nil_left_iff] at h
      subst h
      simp [makeLogableItems, hge]
    · obtain ⟨k, hk⟩ : ∃ k, numArrays.toNat - i = k + 1 := ⟨numArrays.toNat - i - 1, by omega⟩
      rw [hk, List.take_succ_cons] at h
      cases h with
      | cons hxy hrest =>
        rename_i y ys1
        have hk1 : numArrays.toNat - (i + 1) = k := by omega
        have hrec := ih (i + 1) (v2 ++ [.iface y]) ys1 (by rw [hk1]; exact hrest)
        rw [makeLogableItems]
        simp only [hge, if_false, hxy.1, Append_valid v2 y hxy.2, hrec]
        simp

/-- The sequence case on sequences whose elements sanitize to non-nil values:
with `arrayLimit = 0` the placeholder text of the element type and the length (the
type of the first element when the elements are interfaces), otherwise exactly the
sanitized forms of the first `min(arrayLimit, m)` elements, in order. -/
theorem makeLogableData_slice_valid (uString : GoValue → GoString) (enc : GoString → Bool)
    (e : GoType) (items : List GoValue) (allows : Option (GoString → Bool)) (numArrays : Int)
    (level : Nat) :
    (numArrays = 0 → (e ≠ .iface ∨ items = []) →
      makeLogableData uString enc (.slice e items) allows numArrays level
        = .ok (placeholder e.String items.length)) ∧
    (numArrays = 0 → e = .iface → ∀ first rest t, items = first :: rest →
      first.Interface.Type = some t →
      makeLogableData uString enc (.slice e items) allows numArrays level
        = .ok (placeholder t.String items.length)) ∧
    (0 < numArrays → ∀ ys,
      List.Forall₂
        (fun x y => makeLogableData uString enc x none numArrays (level + 1) = .ok y ∧
          y.IsValid = true)
        (items.take numArrays.toNat) ys →
      makeLogableData uString enc (.slice e items) allows numArrays level
          = .ok (.slice .iface (ys.map GoValue.iface)) ∧
        ys.length = min numArrays.toNat items.length) := by
  refine ⟨?_, ?_, ?_⟩
  · intro h0 hcase
    subst h0
    rcases hcase with h | h
    · cases e <;> first | exact absurd rfl h | simp [makeLogableData]
    · subst h
      cases e <;> simp [makeLogableData]
  · intro h0 he first rest t hitems ht
    subst h0 he hitems
    simp [makeLogableData, ht]
  · intro hpos ys h
    have hne : numArrays ≠ 0 := by omega
    have hrun := makeLogableItems_valid uString enc numArrays level items 0 [] ys (by simpa using h)
    refine ⟨?_, ?_⟩
    · simp [makeLogableData, hne, hrun]
    · have := h.length_eq
      simp only [List.length_take] at this
      omega

/-- C2 at its documented inputs and at a sequence holding nil: five items
with `arrayLimit=2` give the first two, with `arrayLimit=0` the text
`"int (5)"`; `[]interface{}{nil}` makes `makeLogableData` panic for either limit
instead of yielding a one-element sequence or `"<type> (1)"`. -/
theorem makeLogableData_slice_nil_element :
    makeLogableData textOf (fun _ => false)
        (.slice .iface [intElem 1, intElem 2, intElem 3, intElem 4, intElem 5]) none 2 1
      = .ok (.slice .iface [intElem 1, intElem 2]) ∧
    makeLogableData textOf (fun _ => false)
        (.slice .iface [intElem 1, intElem 2, intElem 3, intElem 4, intElem 5]) none 0 1
      = .ok (.ofString (ascii "int (5)")) ∧
    makeLogableData textOf (fun _ => false) (.slice .iface [.iface .invalid]) none 1 1
      = reflectPanic "reflect: call of reflect.Value.Set on zero Value" ∧
    makeLogableData textOf (fun _ => false) (.slice .iface [.iface .invalid]) none 0 1
      = runtimePanic "invalid memory address or nil pointer dereference" :=
  ⟨rfl, rfl, rfl, rfl⟩

/-! ## Exact routes before pattern routes -/

/-- C3: a route registered under the key `method+path` is the one resolution
selects; failing that, a route registered under `path` alone is. In both cases
no WebSocket service is selected, the pattern routes are not tried and the
argument map holds no capture. -/
theorem resolve_exact_route (env : Env) (request : Request) (r : webServiceType) :
    (env.webServices (request.Method ++ requestPathOf request) = some r →
      resolve env request = .ok { s := some r, ws := none, args := [] }) ∧
    (env.webServices (request.Method ++ requestPathOf request) = none →
      env.webServices (requestPathOf request) = some r →
      resolve env request = .ok { s := some r, ws := none, args := [] }) := by
  constructor
  · intro h
    simp [resolve, h]
  · intro h h'
    simp [resolve, h, h']

/-- C3 on `exactEnv`: both exact routes win over the pattern `/users/{id}`,
whose expression matches the two paths, and no capture is bound. -/
theorem resolve_exact_route_witness :
    (patternRoute (ascii "/users/") (ascii "id") 9 (ascii "byId")).pathMatcher (ascii "/users/me")
      = [[ascii "/users/me", ascii "me"]] ∧
    resolve exactEnv (getRequest (ascii "/users/me"))
      = .ok { s := some (routeReturning (ascii "GET") 0 (ascii "me")), ws := none, args := [] } ∧
    resolve exactEnv (getRequest (ascii "/users/all"))
      = .ok { s := some (routeReturning [] 0 (ascii "all")), ws := none, args := [] } :=
  ⟨by decide,
   (resolve_exact_route exactEnv (getRequest (ascii "/users/me")) _).1 rfl,
   (resolve_exact_route exactEnv (getRequest (ascii "/users/all")) _).2 rfl rfl⟩

/-! ## Latest registered pattern route -/

theorem bindPathArgs_ok (env : Env) (groups pathArgs : List GoString) (args : GoMap)
    (h : groups.length ≤ pathArgs.length) :
    ∃ out, bindPathArgs env groups pathArgs args = .ok out := by
  induction groups generalizing pathArgs args with
  | nil => exact ⟨args, by simp [bindPathArgs]⟩
  | cons g gs ih =>
    cases pathArgs with
    | nil => simp at h
    | cons name names =>
      have hlen : gs.length ≤ names.length := by simpa using h
      cases hq : env.QueryUnescape g with
      | ok unescaped =>
        obtain ⟨out, hout⟩ := ih names (GoMap.set args name (.ofString unescaped)) hlen
        exact ⟨out, by simp [bindPathArgs, hq, hout]⟩
      | error e =>
        obtain ⟨out, hout⟩ := ih names (GoMap.set args name (.ofString g)) hlen
        exact ⟨out, by simp [bindPathArgs, hq, hout]⟩

theorem bindPathArgs_congr (env env1 : Env) (h : env1.QueryUnescape = env.QueryUnescape)
    (groups pathArgs : List GoString) (args : GoMap) :
    bindPathArgs env1 groups pathArgs args = bindPathArgs env groups pathArgs args := by
  induction groups generalizing pathArgs args with
  | nil => simp [bindPathArgs]
  | cons g gs ih =>
    cases pathArgs with
    | nil => simp [bindPathArgs]
    | cons name names =>
      simp only [bindPathArgs, h]
      cases env.QueryUnescape g <;> simp [ih]

theorem matchRegexWebServices_skip (env : Env) (request : Request) (later rest : List webServiceType)
    (args : GoMap) (h : ∀ r ∈ later, ¬ servesRequest request r) :
    matchRegexWebServices env request (requestPathOf request) (later ++ rest) args
      = matchRegexWebServices env request (requestPathOf request) rest args := by
  induction later with
  | nil => rfl
  | cons r later ih =>
    have hr : ¬ servesRequest request r := h r (by simp)
    have ih1 := ih (fun r1 h1 => h r1 (by simp [h1]))
    simp only [List.cons_append]
    rw [matchRegexWebServices]
    by_cases hm : r.method ≠ [] ∧ r.method ≠ request.Method
    · rw [if_pos hm]
      exact ih1
    · have hmeth : r.method = [] ∨ r.method = request.Method := by
        by_contra hc
        push_neg at hc
        exact hm hc
      have hnil : r.pathMatcher (requestPathOf request) = [] := by
        by_contra hc
        exact hr ⟨hmeth, hc⟩
      rw [if_neg hm, hnil]
      exact ih1

theorem matchRegexWebServices_hit (env : Env) (request : Request) (r : webServiceType)
    (rest : List webServiceType) (args : GoMap) (hr : servesRequest request r)
    (hwf : PatternRoute r) :
    ∃ m ms out, r.pathMatcher (requestPathOf request) = m :: ms ∧
      bindPathArgs env m.tail r.pathArgs args = .ok out ∧
      matchRegexWebServices env request (requestPathOf request) (r :: rest) args
        = .ok (some r, out) := by
  obtain ⟨hmeth, hne⟩ := hr
  obtain ⟨m, ms, hm⟩ := List.exists_cons_of_ne_nil hne
  have hlen : m.length = r.pathArgs.length + 1 := hwf.2 (requestPathOf request) m (by rw [hm]; simp)
  have hpos : 0 < r.pathArgs.length := List.length_pos.mpr hwf.1
  obtain ⟨out, hout⟩ := bindPathArgs_ok env m.tail r.pathArgs args (by simp [hlen])
  refine ⟨m, ms, out, hm, hout, ?_⟩
  have hcond : ¬ (r.method ≠ [] ∧ r.method ≠ request.Method) := by
    rintro ⟨h1, h2⟩
    rcases hmeth with h | h
    · exact h1 h
    · exact h2 h
  have hgt : m.length > 1 := by omega
  simp [matchRegexWebServices, hcond, hm, hout, hgt]

/-- C4: when no exact route and no exact WebSocket service is registered for
the request, and `r` is the latest registered pattern route that serves it (none of
the routes registered after `r` does), resolution selects `r` and binds its
captures; the same route is selected, with the same captures, whatever priorities
the pattern routes declare. -/
theorem resolve_latest_pattern (env : Env) (request : Request)
    (earlier later : List webServiceType) (r : webServiceType)
    (hroutes : env.regexWebServices = earlier ++ r :: later)
    (hexact : env.webServices (request.Method ++ requestPathOf request) = none)
    (hpath : env.webServices (requestPathOf request) = none)
    (hws : env.websocketServices (requestPathOf request) = none)
    (hwf : PatternRoute r)
    (hserves : servesRequest request r)
    (hlater : ∀ r1 ∈ later, ¬ servesRequest request r1)
    (priority : webServiceType → Int) :
    ∃ args,
      resolve env request = .ok { s := some r, ws := none, args := args } ∧
      resolve { env with regexWebServices := env.regexWebServices.map (withPriority priority) }
          request
        = .ok { s := some (withPriority priority r), ws := none, args := args } := by
  obtain ⟨m, ms, out, hm, hout, hhit⟩ :=
    matchRegexWebServices_hit env request r earlier.reverse [] hserves hwf
  refine ⟨out, ?_, ?_⟩
  · have hskip := matchRegexWebServices_skip env request later.reverse (r :: earlier.reverse) []
      (fun r1 h1 => hlater r1 (by simpa using h1))
    have hrev : env.regexWebServices.reverse = later.reverse ++ r :: earlier.reverse := by
      simp [hroutes]
    simp [resolve, hexact, hpath, hws, hrev, hskip, hhit]
  · set env1 : Env :=
      { env with regexWebServices := env.regexWebServices.map (withPriority priority) } with henv1
    have hserves1 : servesRequest request (withPriority priority r) := hserves
    have hwf1 : PatternRoute (withPriority priority r) := hwf
    obtain ⟨m1, ms1, out1, hm1, hout1, hhit1⟩ :=
      matchRegexWebServices_hit env1 request (withPriority priority r)
        (earlier.map (withPriority priority)).reverse [] hserves1 hwf1
    have hmm : m1 = m := by
      have : (m1 :: ms1) = (m :: ms) := by rw [← hm1, ← hm]; rfl
      exact (List.cons.inj this).1
    have hout2 : out1 = out := by
      have h1 : bindPathArgs env1 m1.tail r.pathArgs [] = .ok out1 := hout1
      rw [bindPathArgs_congr env env1 rfl, hmm, hout] at h1
      exact (Except.ok.inj h1).symm
    have hskip := matchRegexWebServices_skip env1 request
      (later.map (withPriority priority)).reverse
      (withPriority priority r :: (earlier.map (withPriority priority)).reverse) []
      (fun r1 h1 => by
        simp only [List.mem_reverse, List.mem_map] at h1
        obtain ⟨r2, h2, rfl⟩ := h1
        exact hlater r2 h2)
    have hrev : env1.regexWebServices.reverse
        = (later.map (withPriority priority)).reverse
          ++ withPriority priority r :: (earlier.map (withPriority priority)).reverse := by
      simp [henv1, hroutes]
    have he1 : env1.webServices = env.webServices := rfl
    have he2 : env1.websocketServices = env.websocketServices := rfl
    have he3 : env1.regexWebsocketServices = env.regexWebsocketServices := rfl
    simp [resolve, he1, he2, hexact, hpath, hws, hrev, hskip, hhit1, hout2]

/-- C4 on `overlapEnv`: `/users/42` is served by the route registered last
although the earlier one declares the higher priority and matches too. -/
theorem resolve_latest_pattern_witness :
    (∃ args,
      resolve overlapEnv (getRequest (ascii "/users/42"))
        = .ok { s := some (patternRoute (ascii "/users/") (ascii "name") 1 (ascii "second")),
                ws := none, args := args } ∧
      resolve { overlapEnv with
                regexWebServices :=
                  overlapEnv.regexWebServices.map (withPriority (fun r => 10 - r.priority)) }
          (getRequest (ascii "/users/42"))
        = .ok { s := some (withPriority (fun r => 10 - r.priority)
                  (patternRoute (ascii "/users/") (ascii "name") 1 (ascii "second"))),
                ws := none, args := args }) ∧
    resolve overlapEnv (getRequest (ascii "/users/42"))
      = .ok { s := some (patternRoute (ascii "/users/") (ascii "name") 1 (ascii "second")),
              ws := none, args := [(ascii "name", .ofString (ascii "42"))] } :=
  ⟨resolve_latest_pattern overlapEnv (getRequest (ascii "/users/42"))
      [patternRoute (ascii "/users/") (ascii "id") 9 (ascii "first")] []
      (patternRoute (ascii "/users/") (ascii "name") 1 (ascii "second"))
      rfl rfl rfl rfl
      ⟨by decide, by
        intro path m hm
        simp only [patternRoute, matchAfter] at hm
        split at hm
        · simp only [List.mem_singleton] at hm
          subst hm
          rfl
        · simp at hm⟩
      ⟨Or.inl rfl, by decide⟩
      (by simp)
      (fun r => 10 - r.priority),
   rfl⟩

/-! ## Argument sources -/

theorem GoMap.get_set (m : GoMap) (k : GoString) (v : GoValue) (k1 : GoString) :
    GoMap.get (GoMap.set m k v) k1 = if k = k1 then some v else GoMap.get m k1 := by
  induction m with
  | nil =>
    by_cases h : k = k1 <;> simp [GoMap.set, GoMap.get, h]
  | cons e m ih =>
    obtain ⟨k0, v0⟩ := e
    by_cases h0 : k0 = k
    · subst h0
      by_cases h : k0 = k1 <;> simp [GoMap.set, GoMap.get, h]
    · by_cases h : k = k1
      · subst h
        simp [GoMap.set, GoMap.get, h0, ih]
      · by_cases h1 : k0 = k1
        · subst h1
          simp [GoMap.set, GoMap.get, h0, h]
        · simp [GoMap.set, GoMap.get, h0, h, h1, ih]

theorem GoMap.get_setAll (args : GoMap) (es : List (GoString × GoValue)) (k : GoString) :
    GoMap.get (setAll args es) k = (GoMap.get (setAll [] es) k).or (GoMap.get args k) := by
  induction es generalizing args with
  | nil => simp [setAll, GoMap.get]
  | cons e es ih =>
    have h1 := ih (GoMap.set args e.1 e.2)
    have h2 := ih (GoMap.set [] e.1 e.2)
    simp only [setAll, List.foldl_cons] at h1 h2 ⊢
    rw [h1, h2, GoMap.get_set, GoMap.get_set]
    generalize GoMap.get (List.foldl (fun m e => GoMap.set m e.1 e.2) [] es) k = found
    by_cases h : e.1 = k
    · cases found <;> simp [h]
    · cases found <;> simp [h, GoMap.get]

theorem mergeValues_setAll (vals : Values) (args out : GoMap)
    (h : mergeValues vals args = .ok out) :
    ∃ es, ∀ args1, mergeValues vals args1 = .ok (setAll args1 es) := by
  induction vals generalizing args out with
  | nil => exact ⟨[], fun args1 => by simp [mergeValues, setAll]⟩
  | cons e vals ih =>
    obtain ⟨k, v⟩ := e
    cases hv : paramValue v with
    | error p => simp [mergeValues, hv] at h
    | ok x =>
      simp only [mergeValues, hv] at h
      obtain ⟨es, hes⟩ := ih _ _ h
      exact ⟨(k, x) :: es, fun args1 => by simp [mergeValues, hv, hes, setAll]⟩

theorem mergeRewriteValues_setAll (vals : Values) :
    ∃ es, ∀ args, mergeRewriteValues vals args = setAll args es := by
  induction vals with
  | nil => exact ⟨[], fun args => by simp [mergeRewriteValues, setAll]⟩
  | cons e vals ih =>
    obtain ⟨k, v⟩ := e
    obtain ⟨es, hes⟩ := ih
    cases hv : paramValue v with
    | error p => exact ⟨es, fun args => by simp [mergeRewriteValues, hv, hes]⟩
    | ok x => exact ⟨(k, x) :: es, fun args => by simp [mergeRewriteValues, hv, hes, setAll]⟩

theorem mergeFields_setAll (fields : List (GoString × GoValue)) :
    ∃ es, ∀ args, mergeFields fields args = setAll args es := by
  induction fields with
  | nil => exact ⟨[], fun args => by simp [mergeFields, setAll]⟩
  | cons e fields ih =>
    obtain ⟨k, x⟩ := e
    obtain ⟨es, hes⟩ := ih
    exact ⟨(k, x.Interface) :: es, fun args => by simp [mergeFields, hes, setAll]⟩

theorem mergeRewriteQuery_setAll (env : Env) (request : Request) :
    ∃ es, ∀ args, mergeRewriteQuery env request args = setAll args es := by
  unfold mergeRewriteQuery
  split
  · cases hu : env.urlParseRawQuery request.RequestURI with
    | error e => exact ⟨[], fun args => by simp [setAll]⟩
    | ok rawQuery =>
      cases hq : env.ParseQuery rawQuery with
      | error e => exact ⟨[], fun args => by simp [hq, setAll]⟩
      | ok queryStringArr =>
        by_cases hlen : queryStringArr.length > 0
        · obtain ⟨es, hes⟩ := mergeRewriteValues_setAll queryStringArr
          exact ⟨es, fun args => by simp [hq, hlen, hes]⟩
        · exact ⟨[], fun args => by simp [hq, hlen, setAll]⟩
  · exact ⟨[], fun args => by simp [setAll]⟩

theorem mergeBody_setAll (env : Env) (request : Request) (args out : GoMap)
    (h : mergeBody env request args = .ok out) :
    ∃ es, ∀ args1, mergeBody env request args1 = .ok (setAll args1 es) := by
  unfold mergeBody at h ⊢
  cases hb : request.Body with
  | none => exact ⟨[], fun args1 => by simp [setAll]⟩
  | some bodyBytes =>
    simp only [hb] at h ⊢
    by_cases hct : (ascii "application/json").isPrefixOf
        (Values.Get request.Header (ascii "Content-Type")) = true
    · simp only [hct, if_true] at h ⊢
      cases bodyBytes with
      | nil => exact ⟨[], fun args1 => by simp [setAll]⟩
      | cons b0 bs =>
        simp only at h ⊢
        by_cases h123 : b0 = 123
        · simp only [h123, if_true] at h ⊢
          cases hj : env.jsonUnmarshal (123 :: bs) with
          | error e => simp [hj] at h
          | ok x =>
            cases x with
            | map e fields =>
              obtain ⟨es, hes⟩ := mergeFields_setAll fields
              exact ⟨es, fun args1 => by simp [hes]⟩
            | _ => simp [hj] at h
        · simp only [h123, if_false] at h ⊢
          cases hj : env.jsonUnmarshal (b0 :: bs) with
          | error e => simp [hj] at h
          | ok x =>
            exact ⟨[(ascii "request", .ptr .iface (.iface x))], fun args1 => by simp [setAll]⟩
    · simp only [hct] at h ⊢
      by_cases hform : Values.Get request.Header (ascii "Content-Type")
          = ascii "application/x-www-form-urlencoded"
      · simp only [hform, if_true] at h ⊢
        cases hq : env.ParseQuery bodyBytes with
        | error e => exact ⟨[], fun args1 => by simp [setAll]⟩
        | ok argsBody =>
          simp only [hq] at h
          by_cases hlen : argsBody.length > 0
          · simp only [hlen, if_true] at h
            cases hm : mergeValues argsBody args with
            | error p => simp [hm] at h
            | ok args2 =>
              obtain ⟨es, hes⟩ := mergeValues_setAll argsBody args args2 hm
              exact ⟨es, fun args1 => by simp [hlen, hes]⟩
          · exact ⟨[], fun args1 => by simp [hlen, setAll]⟩
      · exact ⟨[], fun args1 => by simp [hform, setAll]⟩

/-- C5: the argument map is built from the path captures (the map at entry),
then the re-parsed raw query, then the query string and form, then the JSON or
URL-encoded body; under every key the final map holds the value of the latest
source that has the key, so a body key overwrites the same-named query or form
key. -/
theorem assembleArgs_later_source_wins (env : Env) (request : Request) (st st1 : St)
    (h : assembleArgs env request st = .ok st1) (k : GoString) :
    GoMap.get st1.args k =
      (GoMap.get (bodySource env request) k).or
        ((GoMap.get (formSource request) k).or
          ((GoMap.get (rewriteSource env request) k).or (GoMap.get st.args k))) := by
  obtain ⟨esR, hR⟩ := mergeRewriteQuery_setAll env request
  have hbody : ∀ (st2 : St), mergeBodySt env request st2 = .ok st1 →
      GoMap.get st1.args k
        = (GoMap.get (bodySource env request) k).or (GoMap.get st2.args k) := by
    intro st2 h2
    unfold mergeBodySt at h2
    cases hb : mergeBody env request st2.args with
    | ok args1 =>
      obtain ⟨esB, hB⟩ := mergeBody_setAll env request _ _ hb
      have h3 : st1.args = setAll st2.args esB := by
        rw [hb] at h2
        rw [hB] at hb
        injection h2 with h2
        injection hb with hb
        rw [← h2, hb]
      rw [h3, GoMap.get_setAll, bodySource, hB]
    | badRequest args1 => simp [hb] at h2
    | crash p => simp [hb] at h2
  unfold assembleArgs at h
  cases hf : request.Form with
  | error msg =>
    simp only [hf] at h
    rw [hbody _ h]
    simp only [St.emit, hR, formSource, hf, rewriteSource]
    rw [GoMap.get_setAll]
    simp [GoMap.get]
  | ok reqForm =>
    simp only [hf] at h
    cases hm : mergeValues reqForm (mergeRewriteQuery env request st.args) with
    | error p => simp [hm] at h
    | ok args1 =>
      simp only [hm] at h
      obtain ⟨esF, hF⟩ := mergeValues_setAll _ _ _ hm
      rw [hbody _ h]
      have h4 : args1 = setAll (setAll st.args esR) esF := by
        rw [hF, hR] at hm
        exact (Except.ok.inj hm).symm
      simp only [formSource, hf, hF, rewriteSource, hR, h4]
      rw [GoMap.get_setAll (setAll st.args esR) esF, GoMap.get_setAll st.args esR]

/-- C5 end to end: `GET /users/{id}` requested as `/users/42?x=1` without body
resolves with the capture `id = "42"` and the assembled map is exactly
`{"id":"42","x":"1"}`; the value under `x` is the one of the query source. -/
theorem assembleArgs_later_source_wins_witness :
    (∃ r, resolve usersEnv usersRequest
      = .ok { s := some r, ws := none, args := [(ascii "id", .ofString (ascii "42"))] }) ∧
    assembleArgs usersEnv usersRequest (stateWith [(ascii "id", .ofString (ascii "42"))])
      = .ok (stateWith [(ascii "id", .ofString (ascii "42")), (ascii "x", .ofString (ascii "1"))]) ∧
    GoMap.get [(ascii "id", GoValue.ofString (ascii "42")), (ascii "x", .ofString (ascii "1"))]
        (ascii "x")
      = (GoMap.get (bodySource usersEnv usersRequest) (ascii "x")).or
          ((GoMap.get (formSource usersRequest) (ascii "x")).or
            ((GoMap.get (rewriteSource usersEnv usersRequest) (ascii "x")).or
              (GoMap.get [(ascii "id", GoValue.ofString (ascii "42"))] (ascii "x")))) :=
  ⟨⟨_, rfl⟩, rfl,
   assembleArgs_later_source_wins usersEnv usersRequest
     (stateWith [(ascii "id", .ofString (ascii "42"))])
     (stateWith [(ascii "id", .ofString (ascii "42")), (ascii "x", .ofString (ascii "1"))])
     rfl (ascii "x")⟩

/-! ## JSON bodies -/

/-- The JSON branch of the body stage on a non-empty body that decodes: a body
whose first byte is `{` has its fields merged; any other body, whatever it decodes
to, is stored under `request` alone, behind a pointer. -/
theorem mergeBody_json (env : Env) (request : Request) (args : GoMap) (b0 : UInt8)
    (rest : GoString) (x : GoValue) (hbody : request.Body = some (b0 :: rest))
    (hct : (ascii "application/json").isPrefixOf
      (Values.Get request.Header (ascii "Content-Type")) = true)
    (hdec : env.jsonUnmarshal (b0 :: rest) = .ok x) :
    (b0 = 123 → ∀ e fields, x = .map e fields →
      mergeBody env request args = .ok (mergeFields fields args)) ∧
    (b0 ≠ 123 →
      mergeBody env request args
        = .ok (GoMap.set args (ascii "request") (.ptr .iface (.iface x)))) := by
  constructor
  · intro h123 e fields hx
    subst hx h123
    unfold mergeBody
    simp only [hbody, hct, if_true, hdec]
  · intro h123
    unfold mergeBody
    simp only [hbody, hct, if_true, h123, if_false, hdec]

/-- C6 evaluated: the object body `{"a":1}` is merged field by field and the
array body `[1]` is stored under `request` alone, as claimed; the object body that
starts with a blank decodes to the same object but is stored under `request` and
its field `a` is not in the argument map. -/
theorem mergeBody_object_after_blank :
    mergeBody jsonEnv (jsonRequest (ascii "\x7b\"a\":1\x7d")) []
      = .ok [(ascii "a", .scalar (ascii "float64") (ascii "1"))] ∧
    mergeBody jsonEnv (jsonRequest (ascii "[1]")) []
      = .ok [(ascii "request",
          .ptr .iface (.iface (.slice .iface [.iface (.scalar (ascii "float64") (ascii "1"))])))] ∧
    jsonEnv.jsonUnmarshal (ascii " \x7b\"a\":1\x7d") = .ok objectA ∧
    mergeBody jsonEnv (jsonRequest (ascii " \x7b\"a\":1\x7d")) []
      = .ok [(ascii "request", .ptr .iface (.iface objectA))] ∧
    GoMap.get [(ascii "request", GoValue.ptr .iface (.iface objectA))] (ascii "a") = none :=
  ⟨rfl, rfl, rfl, rfl, rfl⟩

/-! ## Pre-filter results on WebSocket paths -/

/-- C7 evaluated: behind a pre-filter that answers `denied`, a request for the
WebSocket path `/ws` is not upgraded and logs no WSOPEN record, but nothing is
written either: the response keeps status 200 and an empty body and no record is
logged. The same filter on the HTTP path `/api` has its answer written as the
body. -/
theorem ServeHTTP_filter_result_on_websocket_path :
    ServeHTTP filteredEnv (getRequest (ascii "/ws")) response0 []
      = { st := { response := response0, args := [], logHeaders := [],
                  trace := [.inFilter 0] },
          crashed := none } ∧
    (ServeHTTP filteredEnv (getRequest (ascii "/ws")) response0 []).st.response.writerBody = [] ∧
    (ServeHTTP filteredEnv (getRequest (ascii "/api")) response0 []).st.response.writerBody
      = ascii "denied" ∧
    (ServeHTTP { filteredEnv with inFilters := [] } (getRequest (ascii "/ws")) response0 []).st.trace
      = [.upgrade,
         .log { logName := ascii "WSOPEN", clientIp := ascii "127.0.0.1", proto := ascii "1.1",
                authLevel := 0, method := ascii "GET", requestPath := ascii "/ws", headers := [],
                args := [], status := 200, outHeaders := [], outLen := 0, result := .invalid,
                extraInfo := [(ascii "message", .ofString (ascii "OK")),
                              (ascii "type", .ofString (ascii "WSOPEN"))] },
         .websocketSession] :=
  ⟨rfl, rfl, rfl, rfl⟩

/-! ## Traces of the stages -/

theorem Extends.refl (P : Event → Prop) (st : St) : Extends P st st :=
  ⟨[], by simp, by simp⟩

theorem Extends.trans {P : Event → Prop} {st st1 st2 : St} (h1 : Extends P st st1)
    (h2 : Extends P st1 st2) : Extends P st st2 := by
  obtain ⟨a1, e1, p1⟩ := h1
  obtain ⟨a2, e2, p2⟩ := h2
  refine ⟨a1 ++ a2, by rw [e2, e1, List.append_assoc], ?_⟩
  intro e he
  rcases List.mem_append.mp he with h | h
  · exact p1 e h
  · exact p2 e h

theorem Extends.mono {P Q : Event → Prop} {st st1 : St} (h : Extends P st st1)
    (hPQ : ∀ e, P e → Q e) : Extends Q st st1 := by
  obtain ⟨a, e1, p1⟩ := h
  exact ⟨a, e1, fun e he => hPQ e (p1 e he)⟩

theorem Extends.emit (P : Event → Prop) (st : St) (e : Event) (h : P e) :
    Extends P st (st.emit e) :=
  ⟨[e], rfl, by simpa using h⟩

theorem Extends.of_trace_eq {P : Event → Prop} {st st1 st2 : St} (h : Extends P st st1)
    (h2 : st2.trace = st1.trace) : Extends P st st2 := by
  obtain ⟨a, e1, p1⟩ := h
  exact ⟨a, by rw [h2, e1], p1⟩

theorem Extends.mem {P : Event → Prop} {st st1 : St} (h : Extends P st st1) (e : Event)
    (he : e ∈ st.trace) : e ∈ st1.trace := by
  obtain ⟨a, e1, _⟩ := h
  rw [e1]
  exact List.mem_append_left _ he

theorem Extends.all {P : Event → Prop} {st st1 : St} (h : Extends P st st1)
    (h0 : ∀ e ∈ st.trace, P e) : ∀ e ∈ st1.trace, P e := by
  obtain ⟨a, e1, p1⟩ := h
  intro e he
  rw [e1] at he
  rcases List.mem_append.mp he with h | h
  · exact h0 e h
  · exact p1 e h

/-- What one call of `writeLog` does to the state: response and arguments are
kept; either no record is emitted, or the call returns normally after emitting
exactly one record with the given name, the current status and the given extra
information. Without suppression a call that returns normally has emitted it. -/
theorem writeLog_spec (env : Env) (logName : GoString) (result : GoValue) (outLen : Int)
    (request : Request) (st : St) (authLevel : Int) (extraInfo : GoMap) :
    (writeLog env logName result outLen request st authLevel extraInfo).2.response = st.response ∧
    (writeLog env logName result outLen request st authLevel extraInfo).2.args = st.args ∧
    (logSuppressed env request →
      writeLog env logName result outLen request st authLevel extraInfo = (none, st)) ∧
    ((writeLog env logName result outLen request st authLevel extraInfo).1 ≠ none →
      (writeLog env logName result outLen request st authLevel extraInfo).2.trace = st.trace) ∧
    (¬ logSuppressed env request →
      (writeLog env logName result outLen request st authLevel extraInfo).1 = none →
      ∃ entry,
        (writeLog env logName result outLen request st authLevel extraInfo).2.trace
          = st.trace ++ [.log entry] ∧
        entry.logName = logName ∧ entry.status = st.response.status ∧
        entry.authLevel = authLevel ∧
        entry.extraInfo = GoMap.set extraInfo (ascii "type") (.ofString logName)) := by
  unfold writeLog logSuppressed
  by_cases hs : env.Config.NoLogGets = true ∧ request.Method = ascii "GET"
  · simp [hs]
  · simp only [hs, if_false]
    split
    · simp
    · split
      · simp
      · split
        · simp
        · split
          · simp
          · split
            · simp
            · simp

theorem runInFilters_spec (request : Request)
    (filters : List (GoMap → Request → Except GoValue (GoMap × GoValue))) (i : Nat) (st : St) :
    (runInFilters request filters i st).2.response = st.response ∧
    (runInFilters request filters i st).2.logHeaders = st.logHeaders ∧
    Extends (fun e => ∃ j, e = .inFilter j) st (runInFilters request filters i st).2 := by
  induction filters generalizing i st with
  | nil => exact ⟨rfl, rfl, Extends.refl _ _⟩
  | cons filter rest ih =>
    have hemit : Extends (fun e => ∃ j, e = .inFilter j) st (st.emit (.inFilter i)) :=
      Extends.emit _ _ _ ⟨i, rfl⟩
    unfold runInFilters
    cases hf : filter st.args request with
    | error p => exact ⟨rfl, rfl, hemit⟩
    | ok out =>
      obtain ⟨args1, result⟩ := out
      by_cases hv : result.IsValid = true
      · simp only [hv, if_true]
        exact ⟨rfl, rfl, hemit.of_trace_eq rfl⟩
      · simp only [hv]
        obtain ⟨h1, h2, h3⟩ := ih (i + 1) { st.emit (.inFilter i) with args := args1 }
        exact ⟨h1, h2, (hemit.of_trace_eq rfl).trans h3⟩

theorem mergeBodySt_ok_spec (env : Env) (request : Request) (st st1 : St)
    (h : mergeBodySt env request st = .ok st1) :
    st1.response = st.response ∧ st1.logHeaders = st.logHeaders ∧ st1.trace = st.trace := by
  unfold mergeBodySt at h
  cases hb : mergeBody env request st.args with
  | ok args1 =>
    rw [hb] at h
    injection h with h
    subst h
    exact ⟨rfl, rfl, rfl⟩
  | badRequest args1 => simp [hb] at h
  | crash p => simp [hb] at h

theorem assembleArgs_ok_spec (env : Env) (request : Request) (st st1 : St)
    (h : assembleArgs env request st = .ok st1) :
    st1.response = st.response ∧ st1.logHeaders = st.logHeaders ∧
    Extends (fun e => ∃ msg, e = .logError msg) st st1 := by
  unfold assembleArgs at h
  cases hf : request.Form with
  | error msg =>
    simp only [hf] at h
    obtain ⟨h1, h2, h3⟩ := mergeBodySt_ok_spec env request _ _ h
    exact ⟨h1, h2, ⟨[.logError msg], by rw [h3]; rfl, by simp⟩⟩
  | ok reqForm =>
    simp only [hf] at h
    cases hm : mergeValues reqForm (mergeRewriteQuery env request st.args) with
    | error p => simp [hm] at h
    | ok args1 =>
      simp only [hm] at h
      obtain ⟨h1, h2, h3⟩ := mergeBodySt_ok_spec env request _ _ h
      exact ⟨h1, h2, ⟨[], by simp [h3], by simp⟩⟩

theorem doWebService_spec (s : Option webServiceType) (result : GoValue) (st : St) :
    (doWebService s result st).2.response = st.response ∧
    Extends (fun e => e = .handler) st (doWebService s result st).2 := by
  unfold doWebService
  by_cases hv : result.IsValid = true
  · rw [if_pos hv]
    exact ⟨rfl, Extends.refl _ _⟩
  · rw [if_neg hv]
    cases s with
    | none => exact ⟨rfl, Extends.refl _ _⟩
    | some service => exact ⟨rfl, Extends.emit _ _ _ rfl⟩

theorem runOutFilters_spec (request : Request)
    (filters : List (GoMap → Request → GoValue → Except GoValue (GoMap × GoValue × Bool)))
    (i : Nat) (result : GoValue) (st : St) :
    (runOutFilters request filters i result st).2.response = st.response ∧
    Extends (fun e => ∃ j, e = .outFilter j) st (runOutFilters request filters i result st).2 := by
  induction filters generalizing i result st with
  | nil => exact ⟨rfl, Extends.refl _ _⟩
  | cons filter rest ih =>
    have hemit : Extends (fun e => ∃ j, e = .outFilter j) st (st.emit (.outFilter i)) :=
      Extends.emit _ _ _ ⟨i, rfl⟩
    unfold runOutFilters
    cases hf : filter st.args request result with
    | error p => exact ⟨rfl, hemit⟩
    | ok out =>
      obtain ⟨args1, newResult, done⟩ := out
      cases done with
      | true => exact ⟨rfl, hemit.of_trace_eq rfl⟩
      | false =>
        simp only [Bool.false_eq_true, if_false]
        obtain ⟨h1, h3⟩ := ih (i + 1) (if newResult.IsValid then newResult else result)
          { st.emit (.outFilter i) with args := args1 }
        exact ⟨h1, (hemit.of_trace_eq rfl).trans h3⟩

theorem writeLog_extends (env : Env) (logName : GoString) (result : GoValue) (outLen : Int)
    (request : Request) (st : St) (authLevel : Int) (extraInfo : GoMap) :
    Extends (fun e => ∃ entry, e = .log entry) st
      (writeLog env logName result outLen request st authLevel extraInfo).2 := by
  obtain ⟨_, _, hsup, hpanic, hlog⟩ :=
    writeLog_spec env logName result outLen request st authLevel extraInfo
  by_cases hs : logSuppressed env request
  · rw [hsup hs]
    exact Extends.refl _ _
  · by_cases hp : (writeLog env logName result outLen request st authLevel extraInfo).1 = none
    · obtain ⟨entry, he, _⟩ := hlog hs hp
      exact ⟨[.log entry], he, by simp⟩
    · exact ⟨[], by simp [hpanic hp], by simp⟩

theorem writeResult_extends (env : Env) (request : Request) (authLevel : Int) (result : GoValue)
    (st : St) :
    Extends (fun e => ∃ entry, e = .log entry) st
      (writeResult env request authLevel result st).2 := by
  unfold writeResult
  by_cases hv : result.IsValid = false
  · rw [if_pos hv]
    exact Extends.refl _ _
  · rw [if_neg hv]
    cases hb : resultBytes env result with
    | error p => exact Extends.refl _ _
    | ok outBytes =>
      by_cases hc : requestPathOf request ≠ ascii "/__CHECK__"
      · simp only [hc, ne_eq, not_false_eq_true, if_true]
        exact Extends.trans ⟨[], by simp, by simp⟩ (writeLog_extends _ _ _ _ _ _ _ _)
      · simp only [hc, if_false]
        exact ⟨[], by simp, by simp⟩

theorem dispatch_extends (env : Env) (request : Request) (s : Option webServiceType)
    (authLevel : Int) (result : GoValue) (st : St) :
    Extends (bodyEvent authLevel) st (dispatch env request s none authLevel result st).2 := by
  have hweb : ∀ st0, Extends (bodyEvent authLevel) st0 (doWebService s result st0).2 :=
    fun st0 => (doWebService_spec s result st0).2.mono (fun e he => Or.inr (Or.inr (Or.inl he)))
  have hout : ∀ r st0, Extends (bodyEvent authLevel) st0
      (runOutFilters request env.outFilters 0 r st0).2 :=
    fun r st0 => (runOutFilters_spec request env.outFilters 0 r st0).2.mono
      (fun e he => Or.inr (Or.inr (Or.inr (Or.inl he))))
  have hwrite : ∀ r st0, Extends (bodyEvent authLevel) st0
      (writeResult env request authLevel r st0).2 :=
    fun r st0 => (writeResult_extends env request authLevel r st0).mono
      (fun e he => Or.inr (Or.inr (Or.inr (Or.inr he))))
  have htail : ∀ (called : Except GoValue GoValue × St),
      Extends (bodyEvent authLevel) st called.2 →
      Extends (bodyEvent authLevel) st
        (match called with
          | (.error p, st1) => (some p, st1)
          | (.ok result1, st1) =>
            match runOutFilters request env.outFilters 0 result1 st1 with
            | (.error p, st2) => (some p, st2)
            | (.ok result2, st2) => writeResult env request authLevel result2 st2).2 := by
    rintro ⟨r, st1⟩ h1
    cases r with
    | error p => exact h1
    | ok result1 =>
      simp only
      have h2 := hout result1 st1
      rcases hro : runOutFilters request env.outFilters 0 result1 st1 with ⟨r2, st2⟩
      rw [hro] at h2
      cases r2 with
      | error p => exact h1.trans h2
      | ok result2 => exact (h1.trans h2).trans (hwrite result2 st2)
  unfold dispatch
  by_cases hc : s.isSome = true ∨ result.IsValid = true
  · simp only [if_pos hc]
    exact htail _ (hweb st)
  · simp only [if_neg hc]
    exact htail (.ok result, st) (Extends.refl _ _)

theorem serveBody_extends (env : Env) (request : Request) (s : Option webServiceType)
    (authLevel : Int) (st : St) :
    Extends (bodyEvent authLevel) st (serveBody env request s none authLevel st).2 := by
  have hfil : Extends (bodyEvent authLevel) st (runInFilters request env.inFilters 0 st).2 :=
    (runInFilters_spec request env.inFilters 0 st).2.2.mono (fun e he => Or.inl he)
  unfold serveBody
  rcases hr : runInFilters request env.inFilters 0 st with ⟨r, st1⟩
  rw [hr] at hfil
  cases r with
  | error p => exact hfil
  | ok result =>
    simp only
    by_cases hl : authLevel > 0
    · rw [if_pos hl]
      have hauth : Extends (bodyEvent authLevel) st (st1.emit (.authChecker authLevel)) :=
        hfil.trans (Extends.emit _ _ _ (Or.inr (Or.inl ⟨rfl, hl⟩)))
      cases hc : callAuthChecker env authLevel request st1.args with
      | error p => exact hauth
      | ok b =>
        cases b with
        | false =>
          exact (hauth.of_trace_eq rfl).trans
            ((writeLog_extends _ _ _ _ _ _ _ _).mono
              (fun e he => Or.inr (Or.inr (Or.inr (Or.inr he)))))
        | true => exact hauth.trans (dispatch_extends _ _ _ _ _ _)
    · rw [if_neg hl]
      exact hfil.trans (dispatch_extends _ _ _ _ _ _)

theorem recoverPanic_extends (env : Env) (request : Request) (authLevel : Int) (body : Step) :
    Extends (fun e => e = .errorHandle ∨ (∃ msg, e = .logError msg) ∨ ∃ entry, e = .log entry)
      body.2 (recoverPanic env request authLevel body).st := by
  obtain ⟨p, st⟩ := body
  unfold recoverPanic
  cases p with
  | none => exact Extends.refl _ _
  | some err =>
    simp only
    cases hh : env.errorHandle with
    | none =>
      simp only
      have h1 : Extends (fun e => e = .errorHandle ∨ (∃ msg, e = .logError msg) ∨
          ∃ entry, e = .log entry) st
          ({ st with response := st.response.WriteHeader env.ResponseCodePanicError }.emit
            (.logError (env.uString err))) :=
        ⟨[.logError (env.uString err)], rfl, by simp⟩
      exact h1.trans ((writeLog_extends _ _ _ _ _ _ _ _).mono (fun e he => Or.inr (Or.inr he)))
    | some handle =>
      simp only
      cases hcall : handle err request with
      | error p => exact ⟨[.errorHandle], rfl, by simp⟩
      | ok out =>
        have h1 : Extends (fun e => e = .errorHandle ∨ (∃ msg, e = .logError msg) ∨
            ∃ entry, e = .log entry) st
            ((st.emit .errorHandle).emit (.logError (env.uString err))) :=
          ⟨[.errorHandle, .logError (env.uString err)], by simp [St.emit], by simp⟩
        exact h1.trans ((writeLog_extends _ _ _ _ _ _ _ _).mono (fun e he => Or.inr (Or.inr he)))

/-- The call of `ServeHTTP` on a request that resolves to a service and whose arguments
assemble: the body under the deferred recovery. -/
theorem ServeHTTP_routed (env : Env) (request : Request) (response : Response)
    (logHeaders : List (GoString × GoString)) (r : Resolved) (st2 : St)
    (hres : resolve env request = .ok r) (hsome : r.s.isSome ∨ r.ws.isSome)
    (hasm : assembleArgs env request
      { response := response, args := r.args, logHeaders := logHeaders, trace := [] }
        = .ok st2) :
    ServeHTTP env request response logHeaders
      = recoverPanic env request (authLevelOf r)
          (serveBody env request r.s r.ws (authLevelOf r) st2) := by
  have hnot : ¬ (r.s.isNone = true ∧ r.ws.isNone = true) := by
    rintro ⟨h1, h2⟩
    rcases hsome with h | h
    · simp [Option.isNone_iff_eq_none.mp h1] at h
    · simp [Option.isNone_iff_eq_none.mp h2] at h
  unfold ServeHTTP
  simp only [hres, hnot, if_false, hasm]

theorem Response.copyProxyHeader_status (r : Response) :
    r.copyProxyHeader.status = r.status ∧ r.copyProxyHeader.writerBody = r.writerBody := by
  unfold Response.copyProxyHeader
  cases r.ProxyHeader <;> exact ⟨rfl, rfl⟩

theorem Response.WriteHeader_status (r : Response) (code : Int) :
    (r.WriteHeader code).status = code ∧ (r.WriteHeader code).writerBody = r.writerBody := by
  unfold Response.WriteHeader
  simp only
  split
  · exact ⟨rfl, rfl⟩
  · split
    · exact ⟨(Response.copyProxyHeader_status _).1, (Response.copyProxyHeader_status _).2⟩
    · exact ⟨rfl, rfl⟩

theorem logEntries_append (a b : List Event) :
    logEntries (a ++ b) = logEntries a ++ logEntries b := by
  simp [logEntries, List.filterMap_append]

theorem logEntries_eq_nil (t : List Event) (h : ∀ e ∈ t, ∀ entry, e ≠ .log entry) :
    logEntries t = [] := by
  induction t with
  | nil => rfl
  | cons e t ih =>
    have ht := ih (fun e1 h1 => h e1 (List.mem_cons_of_mem _ h1))
    cases e with
    | log entry => exact absurd rfl (h _ (List.mem_cons_self _ _) entry)
    | _ => simpa [logEntries] using ht

/-! ## Pre-filter results on WebSocket paths, in general -/

theorem writeLog_extends_named (env : Env) (logName : GoString) (result : GoValue) (outLen : Int)
    (request : Request) (st : St) (authLevel : Int) (extraInfo : GoMap) :
    Extends (fun e => ∃ entry, e = .log entry ∧ entry.logName = logName) st
      (writeLog env logName result outLen request st authLevel extraInfo).2 := by
  obtain ⟨_, _, hsup, hpanic, hlog⟩ :=
    writeLog_spec env logName result outLen request st authLevel extraInfo
  by_cases hs : logSuppressed env request
  · rw [hsup hs]
    exact Extends.refl _ _
  · by_cases hp : (writeLog env logName result outLen request st authLevel extraInfo).1 = none
    · obtain ⟨entry, he, hname, _⟩ := hlog hs hp
      exact ⟨[.log entry], he, by simpa using hname⟩
    · exact ⟨[], by simp [hpanic hp], by simp⟩

theorem recoverPanic_keeps_body (env : Env) (request : Request) (authLevel : Int) (body : Step) :
    (recoverPanic env request authLevel body).st.response.writerBody
      = body.2.response.writerBody ∧
    Extends (fun e => e = .errorHandle ∨ (∃ msg, e = .logError msg) ∨
        ∃ entry, e = .log entry ∧ entry.logName = ascii "PANIC")
      body.2 (recoverPanic env request authLevel body).st := by
  obtain ⟨p, st⟩ := body
  unfold recoverPanic
  cases p with
  | none => exact ⟨rfl, Extends.refl _ _⟩
  | some err =>
    simp only
    cases hh : env.errorHandle with
    | none =>
      simp only
      refine ⟨?_, ?_⟩
      · rw [(writeLog_spec _ _ _ _ _ _ _ _).1]
        exact (Response.WriteHeader_status _ _).2
      · have h1 : Extends (fun e => e = .errorHandle ∨ (∃ msg, e = .logError msg) ∨
            ∃ entry, e = .log entry ∧ entry.logName = ascii "PANIC") st
            ({ st with response := st.response.WriteHeader env.ResponseCodePanicError }.emit
              (.logError (env.uString err))) :=
          ⟨[.logError (env.uString err)], rfl, by simp⟩
        exact h1.trans ((writeLog_extends_named _ _ _ _ _ _ _ _).mono
          (fun e he => Or.inr (Or.inr he)))
    | some handle =>
      simp only
      cases hcall : handle err request with
      | error p => exact ⟨rfl, ⟨[.errorHandle], rfl, by simp⟩⟩
      | ok out =>
        refine ⟨?_, ?_⟩
        · simp only
          rw [(writeLog_spec _ _ _ _ _ _ _ _).1]
          rfl
        · have h1 : Extends (fun e => e = .errorHandle ∨ (∃ msg, e = .logError msg) ∨
              ∃ entry, e = .log entry ∧ entry.logName = ascii "PANIC") st
              ((st.emit .errorHandle).emit (.logError (env.uString err))) :=
            ⟨[.errorHandle, .logError (env.uString err)], by simp [St.emit], by simp⟩
          exact h1.trans ((writeLog_extends_named _ _ _ _ _ _ _ _).mono
            (fun e he => Or.inr (Or.inr he)))

/-- A request that resolves to a WebSocket service and that a pre-filter answers
with a non-nil result: the connection is not upgraded, no WSOPEN and no ACCESS
record is logged, and `ServeHTTP` writes no body, the filter's result included. -/
theorem ServeHTTP_websocket_answered (env : Env) (request : Request) (response : Response)
    (logHeaders : List (GoString × GoString)) (r : Resolved) (ws : websocketServiceType)
    (st2 : St) (hres : resolve env request = .ok r) (hws : r.ws = some ws)
    (hasm : assembleArgs env request
      { response := response, args := r.args, logHeaders := logHeaders, trace := [] } = .ok st2)
    (result : GoValue) (st3 : St)
    (hfil : runInFilters request env.inFilters 0 st2 = (.ok result, st3))
    (hvalid : result.IsValid = true) :
    Event.upgrade ∉ (ServeHTTP env request response logHeaders).st.trace ∧
    (∀ entry ∈ logEntries (ServeHTTP env request response logHeaders).st.trace,
      entry.logName ≠ ascii "WSOPEN" ∧ entry.logName ≠ ascii "ACCESS") ∧
    (ServeHTTP env request response logHeaders).st.response.writerBody
      = response.writerBody := by
  have hrouted := ServeHTTP_routed env request response logHeaders r st2 hres
    (Or.inr (by rw [hws]; rfl)) hasm
  have hasm2 := assembleArgs_ok_spec env request _ _ hasm
  obtain ⟨hresp3, _, hext3⟩ := runInFilters_spec request env.inFilters 0 st2
  rw [hfil] at hresp3 hext3
  simp only at hresp3 hext3
  have hr3 : st3.response = response := by rw [hresp3, hasm2.1]
  have hstart : ∀ e ∈ st3.trace, answeredEvent e := by
    refine (hext3.mono (Q := answeredEvent) ?_).all ?_
    · rintro e ⟨j, rfl⟩
      exact ⟨by simp, by simp, by simp⟩
    · intro e he
      obtain ⟨msg, rfl⟩ := hasm2.2.2.all (by simp) e he
      exact ⟨by simp, by simp, by simp⟩
  have hcalled : ∀ st0, (doWebService r.s result st0).2 = st0 := by
    intro st0
    unfold doWebService
    rw [if_pos hvalid]
  have hdispatch : ∀ st0,
      (dispatch env request r.s r.ws (authLevelOf r) result st0).2 = st0 := by
    intro st0
    unfold dispatch
    simp only [hws, hvalid, Bool.true_eq_false, if_false]
    have := hcalled st0
    rcases hc : doWebService r.s result st0 with ⟨r1, st1⟩
    rw [hc] at this
    cases r1 <;> exact this
  have hbody : (serveBody env request r.s r.ws (authLevelOf r) st2).2.response.writerBody
        = response.writerBody ∧
      ∀ e ∈ (serveBody env request r.s r.ws (authLevelOf r) st2).2.trace, answeredEvent e := by
    have hauthEvent : ∀ e ∈ (st3.emit (.authChecker (authLevelOf r))).trace, answeredEvent e := by
      intro e he
      simp only [St.emit, List.mem_append, List.mem_singleton] at he
      rcases he with h | rfl
      · exact hstart e h
      · exact ⟨by simp, by simp, by simp⟩
    unfold serveBody
    simp only [hfil]
    by_cases hpos : authLevelOf r > 0
    · rw [if_pos hpos]
      cases hc : callAuthChecker env (authLevelOf r) request st3.args with
      | error p => exact ⟨congrArg Response.writerBody hr3, hauthEvent⟩
      | ok b =>
        cases b with
        | false =>
          refine ⟨?_, ?_⟩
          · simp only
            rw [(writeLog_spec _ _ _ _ _ _ _ _).1]
            show (st3.response.WriteHeader 403).writerBody = _
            rw [(Response.WriteHeader_status _ _).2, hr3]
          · refine ((writeLog_extends_named env (ascii "REJECT") result 0 request _ _ _).mono
              (Q := answeredEvent) ?_).all hauthEvent
            rintro e ⟨entry, rfl, hname⟩
            exact ⟨by simp, by simp, fun entry1 h1 => by
              cases h1
              exact Or.inl hname⟩
        | true =>
          simp only
          rw [hdispatch]
          exact ⟨congrArg Response.writerBody hr3, hauthEvent⟩
    · rw [if_neg hpos, hdispatch]
      exact ⟨congrArg Response.writerBody hr3, hstart⟩
  obtain ⟨hrb, hre⟩ := recoverPanic_keeps_body env request (authLevelOf r)
    (serveBody env request r.s r.ws (authLevelOf r) st2)
  have hall : ∀ e ∈ (ServeHTTP env request response logHeaders).st.trace, answeredEvent e := by
    rw [hrouted]
    refine (hre.mono (Q := answeredEvent) ?_).all hbody.2
    rintro e (rfl | ⟨msg, rfl⟩ | ⟨entry, rfl, hname⟩)
    · exact ⟨by simp, by simp, by simp⟩
    · exact ⟨by simp, by simp, by simp⟩
    · exact ⟨by simp, by simp, fun entry1 h1 => by
        cases h1
        exact Or.inr hname⟩
  refine ⟨fun hmem => (hall _ hmem).1 rfl, ?_, ?_⟩
  · intro entry hentry
    have hmem : Event.log entry ∈ (ServeHTTP env request response logHeaders).st.trace := by
      simp only [logEntries, List.mem_filterMap] at hentry
      obtain ⟨e, he, hx⟩ := hentry
      cases e <;> simp at hx
      subst hx
      exact he
    have hname := (hall _ hmem).2.2 entry rfl
    have h1 : ascii "REJECT" ≠ ascii "WSOPEN" := by decide
    have h2 : ascii "PANIC" ≠ ascii "WSOPEN" := by decide
    have h3 : ascii "REJECT" ≠ ascii "ACCESS" := by decide
    have h4 : ascii "PANIC" ≠ ascii "ACCESS" := by decide
    rcases hname with h | h <;> rw [h] <;> constructor <;> assumption
  · rw [hrouted, hrb]
    exact hbody.1

/-! ## Authorization -/

/-- The state in which the body of `ServeHTTP` starts has no event but
`logError`, and still holds the response it was entered with. -/
theorem assembled_state (env : Env) (request : Request) (response : Response)
    (logHeaders : List (GoString × GoString)) (args0 : GoMap) (st2 : St)
    (hasm : assembleArgs env request
      { response := response, args := args0, logHeaders := logHeaders, trace := [] } = .ok st2) :
    st2.response = response ∧ ∀ e ∈ st2.trace, ∃ msg, e = .logError msg := by
  obtain ⟨h1, _, h3⟩ := assembleArgs_ok_spec env request _ _ hasm
  exact ⟨h1, h3.all (by simp)⟩

/-- A denied request: the pre-filters completed, the checker returned false and
the REJECT record was emitted without panic. -/
theorem ServeHTTP_rejected (env : Env) (request : Request) (response : Response)
    (logHeaders : List (GoString × GoString)) (r : Resolved) (st2 : St)
    (hres : resolve env request = .ok r) (hsome : r.s.isSome ∨ r.ws.isSome)
    (hasm : assembleArgs env request
      { response := response, args := r.args, logHeaders := logHeaders, trace := [] } = .ok st2)
    (result : GoValue) (st3 : St) (hpos : 0 < authLevelOf r)
    (hfil : runInFilters request env.inFilters 0 st2 = (.ok result, st3))
    (hdeny : callAuthChecker env (authLevelOf r) request st3.args = .ok false)
    (hlog : (writeLog env (ascii "REJECT") result 0 request
        { st3.emit (.authChecker (authLevelOf r)) with response := st3.response.WriteHeader 403 }
        (authLevelOf r) []).1 = none) :
    (ServeHTTP env request response logHeaders).crashed = none ∧
    (ServeHTTP env request response logHeaders).st.response.status = 403 ∧
    (ServeHTTP env request response logHeaders).st.response.writerBody = response.writerBody ∧
    Event.handler ∉ (ServeHTTP env request response logHeaders).st.trace ∧
    (∀ i, Event.outFilter i ∉ (ServeHTTP env request response logHeaders).st.trace) ∧
    (logSuppressed env request →
      logEntries (ServeHTTP env request response logHeaders).st.trace = []) ∧
    (¬ logSuppressed env request →
      ∃ entry, logEntries (ServeHTTP env request response logHeaders).st.trace = [entry] ∧
        entry.logName = ascii "REJECT" ∧ entry.status = 403) := by
  have hrouted := ServeHTTP_routed env request response logHeaders r st2 hres hsome hasm
  obtain ⟨hresp2, htrace2⟩ := assembled_state env request response logHeaders r.args st2 hasm
  obtain ⟨hresp3, _, hext3⟩ := runInFilters_spec request env.inFilters 0 st2
  rw [hfil] at hresp3 hext3
  simp only at hresp3 hext3
  have hbody : serveBody env request r.s r.ws (authLevelOf r) st2
      = writeLog env (ascii "REJECT") result 0 request
          { st3.emit (.authChecker (authLevelOf r)) with
            response := st3.response.WriteHeader 403 }
          (authLevelOf r) [] := by
    unfold serveBody
    simp only [hfil, gt_iff_lt, hpos, if_true, hdeny]
  obtain ⟨wresp, _, wsup, _, wlog⟩ := writeLog_spec env (ascii "REJECT") result 0 request
    { st3.emit (.authChecker (authLevelOf r)) with response := st3.response.WriteHeader 403 }
    (authLevelOf r) []
  rw [← hbody] at wresp wsup wlog hlog
  have hout : ServeHTTP env request response logHeaders
      = { st := (serveBody env request r.s r.ws (authLevelOf r) st2).2, crashed := none } := by
    rw [hrouted]
    rcases hb : serveBody env request r.s r.ws (authLevelOf r) st2 with ⟨p, st4⟩
    rw [hb] at hlog
    simp only at hlog
    subst hlog
    rfl
  have hold : ∀ e ∈ st3.trace, (∃ msg, e = .logError msg) ∨ ∃ j, e = .inFilter j :=
    (hext3.mono (Q := fun e => (∃ msg, e = .logError msg) ∨ ∃ j, e = .inFilter j)
      (fun e he => Or.inr he)).all (fun e he => Or.inl (htrace2 e he))
  have hbase : ∀ e ∈ (st3.emit (.authChecker (authLevelOf r))).trace,
      (∃ msg, e = .logError msg) ∨ (∃ j, e = .inFilter j) ∨
        e = .authChecker (authLevelOf r) := by
    intro e he
    simp only [St.emit, List.mem_append, List.mem_singleton] at he
    rcases he with h | h
    · rcases hold e h with h1 | h1
      · exact Or.inl h1
      · exact Or.inr (Or.inl h1)
    · exact Or.inr (Or.inr h)
  have hnolog : logEntries (st3.emit (.authChecker (authLevelOf r))).trace = [] :=
    logEntries_eq_nil _ (fun e he entry hx => by
      subst hx
      rcases hbase _ he with ⟨m, h⟩ | ⟨j, h⟩ | h <;> cases h)
  have hfinal : ∀ e ∈ (serveBody env request r.s r.ws (authLevelOf r) st2).2.trace,
      (∃ msg, e = .logError msg) ∨ (∃ j, e = .inFilter j) ∨
        e = .authChecker (authLevelOf r) ∨ ∃ entry, e = .log entry := by
    have hw := writeLog_extends env (ascii "REJECT") result 0 request
      { st3.emit (.authChecker (authLevelOf r)) with response := st3.response.WriteHeader 403 }
      (authLevelOf r) []
    rw [← hbody] at hw
    exact (hw.mono (Q := fun e => (∃ msg, e = .logError msg) ∨ (∃ j, e = .inFilter j) ∨
        e = .authChecker (authLevelOf r) ∨ ∃ entry, e = .log entry)
      (fun e he => Or.inr (Or.inr (Or.inr he)))).all (fun e he => by
        rcases hbase e he with h | h | h
        · exact Or.inl h
        · exact Or.inr (Or.inl h)
        · exact Or.inr (Or.inr (Or.inl h)))
  rw [hout]
  refine ⟨rfl, ?_, ?_, ?_, ?_, ?_, ?_⟩
  · show (serveBody env request r.s r.ws (authLevelOf r) st2).2.response.status = 403
    rw [wresp]
    exact (Response.WriteHeader_status _ _).1
  · show (serveBody env request r.s r.ws (authLevelOf r) st2).2.response.writerBody
      = response.writerBody
    rw [wresp]
    show (st3.response.WriteHeader 403).writerBody = response.writerBody
    rw [(Response.WriteHeader_status _ _).2, hresp3, hresp2]
  · intro hmem
    rcases hfinal _ hmem with ⟨m, h⟩ | ⟨j, h⟩ | h | ⟨x, h⟩ <;> cases h
  · intro i hmem
    rcases hfinal _ hmem with ⟨m, h⟩ | ⟨j, h⟩ | h | ⟨x, h⟩ <;> cases h
  · intro hs
    show logEntries (serveBody env request r.s r.ws (authLevelOf r) st2).2.trace = []
    rw [wsup hs]
    exact hnolog
  · intro hs
    obtain ⟨entry, he, hname, hstatus, _⟩ := wlog hs hlog
    refine ⟨entry, ?_, hname, ?_⟩
    · show logEntries (serveBody env request r.s r.ws (authLevelOf r) st2).2.trace = [entry]
      rw [he, logEntries_append, hnolog]
      rfl
    · rw [hstatus]
      exact (Response.WriteHeader_status _ _).1

/-- C8, amended: on a matched HTTP route with `authLevel` 0 the checker is never
consulted; with `authLevel > 0`, when the pre-filters complete and the checker
returns false (and emitting the record does not panic), the status is 403, neither
the handler nor a post-filter runs, no body is written, and exactly one record,
tagged REJECT, is logged, unless logging is suppressed (`Config.NoLogGets` with
method `GET`), in which case no record is logged. -/
theorem ServeHTTP_auth_gate (env : Env) (request : Request) (response : Response)
    (logHeaders : List (GoString × GoString)) (s : webServiceType) (args0 : GoMap) (st2 : St)
    (hres : resolve env request = .ok { s := some s, ws := none, args := args0 })
    (hasm : assembleArgs env request
      { response := response, args := args0, logHeaders := logHeaders, trace := [] } = .ok st2) :
    (s.authLevel ≤ 0 →
      ∀ level, Event.authChecker level ∉ (ServeHTTP env request response logHeaders).st.trace) ∧
    (∀ result st3, 0 < s.authLevel →
      runInFilters request env.inFilters 0 st2 = (.ok result, st3) →
      callAuthChecker env s.authLevel request st3.args = .ok false →
      (writeLog env (ascii "REJECT") result 0 request
        { st3.emit (.authChecker s.authLevel) with response := st3.response.WriteHeader 403 }
        s.authLevel []).1 = none →
      (ServeHTTP env request response logHeaders).crashed = none ∧
      (ServeHTTP env request response logHeaders).st.response.status = 403 ∧
      (ServeHTTP env request response logHeaders).st.response.writerBody = response.writerBody ∧
      Event.handler ∉ (ServeHTTP env request response logHeaders).st.trace ∧
      (∀ i, Event.outFilter i ∉ (ServeHTTP env request response logHeaders).st.trace) ∧
      (logSuppressed env request →
        logEntries (ServeHTTP env request response logHeaders).st.trace = []) ∧
      (¬ logSuppressed env request →
        ∃ entry, logEntries (ServeHTTP env request response logHeaders).st.trace = [entry] ∧
          entry.logName = ascii "REJECT" ∧ entry.status = 403)) := by
  have hrouted := ServeHTTP_routed env request response logHeaders _ st2 hres (Or.inl rfl) hasm
  have hlevel : authLevelOf { s := some s, ws := none, args := args0 } = s.authLevel := rfl
  simp only [hlevel] at hrouted
  obtain ⟨hresp2, htrace2⟩ := assembled_state env request response logHeaders args0 st2 hasm
  constructor
  · intro hle level hmem
    rw [hrouted] at hmem
    have hbody := serveBody_extends env request (some s) s.authLevel st2
    have hrec := recoverPanic_extends env request s.authLevel
      (serveBody env request (some s) none s.authLevel st2)
    have hall := (hbody.mono (Q := fun e => ∀ l, e ≠ .authChecker l) (by
      intro e he l hl
      subst hl
      rcases he with ⟨i, h⟩ | ⟨_, h⟩ | h | ⟨i, h⟩ | ⟨x, h⟩
      · cases h
      · omega
      · cases h
      · cases h
      · cases h)).trans (hrec.mono (Q := fun e => ∀ l, e ≠ .authChecker l) (by
      intro e he l hl
      subst hl
      rcases he with h | ⟨m, h⟩ | ⟨x, h⟩ <;> cases h))
    have := hall.all (fun e he => by
      obtain ⟨msg, hm⟩ := htrace2 e he
      subst hm
      intro l hl
      cases hl) _ hmem level
    exact this rfl
  · intro result st3 hpos hfil hdeny hlog
    exact ServeHTTP_rejected env request response logHeaders
      { s := some s, ws := none, args := args0 } st2 hres (Or.inl rfl) hasm result st3
      hpos hfil hdeny hlog

/-- C8 is false as stated: with `Config.NoLogGets` set, `GET /admin` on a route of
level 1 whose checker returns false is answered 403 without the handler, but no
record tagged REJECT is logged. -/
theorem ServeHTTP_reject_without_record :
    resolve quietDeniedEnv (getRequest (ascii "/admin"))
      = .ok { s := some (routeReturning [] 1 (ascii "secret")), ws := none, args := [] } ∧
    callAuthChecker quietDeniedEnv 1 (getRequest (ascii "/admin")) [] = .ok false ∧
    ServeHTTP quietDeniedEnv (getRequest (ascii "/admin")) response0 []
      = { st := { response := { response0 with status := 403, writerCodes := [403] },
                  args := [], logHeaders := [], trace := [.authChecker 1] },
          crashed := none } ∧
    logEntries (ServeHTTP quietDeniedEnv (getRequest (ascii "/admin")) response0 []).st.trace
      = [] :=
  ⟨rfl, rfl, rfl, rfl⟩

/-- C8 amended, on `deniedEnv` (logging on): `GET /admin` is answered 403, the
handler is not invoked and exactly one record, tagged REJECT, is logged; on the
public route `GET /users/me` of `exactEnv` no checker is consulted. -/
theorem ServeHTTP_auth_gate_witness :
    ((ServeHTTP deniedEnv (getRequest (ascii "/admin")) response0 []).crashed = none ∧
      (ServeHTTP deniedEnv (getRequest (ascii "/admin")) response0 []).st.response.status = 403 ∧
      (ServeHTTP deniedEnv (getRequest (ascii "/admin")) response0 []).st.response.writerBody
        = response0.writerBody ∧
      Event.handler ∉ (ServeHTTP deniedEnv (getRequest (ascii "/admin")) response0 []).st.trace ∧
      (∀ i, Event.outFilter i ∉
        (ServeHTTP deniedEnv (getRequest (ascii "/admin")) response0 []).st.trace) ∧
      (logSuppressed deniedEnv (getRequest (ascii "/admin")) →
        logEntries (ServeHTTP deniedEnv (getRequest (ascii "/admin")) response0 []).st.trace
          = []) ∧
      (¬ logSuppressed deniedEnv (getRequest (ascii "/admin")) →
        ∃ entry,
          logEntries (ServeHTTP deniedEnv (getRequest (ascii "/admin")) response0 []).st.trace
            = [entry] ∧
          entry.logName = ascii "REJECT" ∧ entry.status = 403)) ∧
    ¬ logSuppressed deniedEnv (getRequest (ascii "/admin")) ∧
    (∀ level, Event.authChecker level ∉
      (ServeHTTP exactEnv (getRequest (ascii "/users/me")) response0 []).st.trace) :=
  ⟨(ServeHTTP_auth_gate deniedEnv (getRequest (ascii "/admin")) response0 []
      (routeReturning [] 1 (ascii "secret")) [] (stateWith []) rfl rfl).2
      .invalid (stateWith []) (by decide) rfl rfl rfl,
   by unfold logSuppressed; decide,
   (ServeHTTP_auth_gate exactEnv (getRequest (ascii "/users/me")) response0 []
      (routeReturning (ascii "GET") 0 (ascii "me")) [] (stateWith []) rfl rfl).1 (by decide)⟩

/-- After the pre-filters completed for a service that requires a level, the
trace goes on from the consultation of the checker, on a plain HTTP route with any
filter result and on a WebSocket path with a non-nil one. -/
theorem serveBody_consults_checker (env : Env) (request : Request) (s : Option webServiceType)
    (ws : Option websocketServiceType) (authLevel : Int) (st st1 : St) (result : GoValue)
    (hpos : 0 < authLevel)
    (hfil : runInFilters request env.inFilters 0 st = (.ok result, st1))
    (hcase : ws = none ∨ result.IsValid = true) :
    Extends (fun _ => True) (st1.emit (.authChecker authLevel))
      (serveBody env request s ws authLevel st).2 := by
  have hdispatch : ∀ st0, Extends (fun _ => True) st0
      (dispatch env request s ws authLevel result st0).2 := by
    intro st0
    cases hw : ws with
    | none => exact (dispatch_extends _ _ _ _ _ _).mono (fun _ _ => trivial)
    | some service =>
      have hv : result.IsValid = true := by
        rcases hcase with h | h
        · rw [hw] at h
          cases h
        · exact h
      unfold dispatch
      simp only [hv, Bool.true_eq_false, if_false]
      have h1 := (doWebService_spec s result st0).2.mono (Q := fun _ => True) (fun _ _ => trivial)
      rcases hc : doWebService s result st0 with ⟨r1, st2⟩
      rw [hc] at h1
      cases r1 <;> exact h1
  unfold serveBody
  simp only [hfil, gt_iff_lt, hpos, if_true]
  cases hc : callAuthChecker env authLevel request st1.args with
  | error p => exact Extends.refl _ _
  | ok b =>
    cases b with
    | false =>
      exact Extends.trans ⟨[], by simp, by simp⟩
        ((writeLog_extends _ _ _ _ _ _ _ _).mono (fun _ _ => trivial))
    | true => exact hdispatch _

/-- C9 is false as stated: on `/admin` (level 1) behind a pre-filter that
answers `cached`, the checker is consulted after the filter and, as it returns
false, the request is rejected with 403 and the filter's answer is not written. -/
theorem ServeHTTP_filter_result_then_rejected :
    runInFilters (getRequest (ascii "/admin")) filteredDeniedEnv.inFilters 0 (stateWith [])
      = (.ok (.ofString (ascii "cached")), (stateWith []).emit (.inFilter 0)) ∧
    (ServeHTTP filteredDeniedEnv (getRequest (ascii "/admin")) response0 []).st.trace
      = [.inFilter 0, .authChecker 1,
         .log { logName := ascii "REJECT", clientIp := ascii "127.0.0.1", proto := ascii "1.1",
                authLevel := 1, method := ascii "GET", requestPath := ascii "/admin",
                headers := [], args := [], status := 403, outHeaders := [], outLen := 0,
                result := .ofString (ascii "cached"),
                extraInfo := [(ascii "type", .ofString (ascii "REJECT"))] }] ∧
    (ServeHTTP filteredDeniedEnv (getRequest (ascii "/admin")) response0 []).st.response.status
      = 403 ∧
    (ServeHTTP filteredDeniedEnv (getRequest (ascii "/admin")) response0 []).st.response.writerBody
      = [] :=
  ⟨rfl, rfl, rfl, rfl⟩

/-- C9, amended: the authorization check does not depend on the pre-filters'
result. For every request that resolves to a service with `authLevel > 0` and whose
pre-filters returned a non-nil result, the checker is consulted after the filters;
when it returns false (and emitting the record does not panic) the request is
rejected with 403 and the filter's result is not written. -/
theorem ServeHTTP_auth_after_filter_result (env : Env) (request : Request) (response : Response)
    (logHeaders : List (GoString × GoString)) (r : Resolved) (st2 : St)
    (hres : resolve env request = .ok r) (hsome : r.s.isSome ∨ r.ws.isSome)
    (hasm : assembleArgs env request
      { response := response, args := r.args, logHeaders := logHeaders, trace := [] } = .ok st2)
    (result : GoValue) (st3 : St) (hpos : 0 < authLevelOf r)
    (hfil : runInFilters request env.inFilters 0 st2 = (.ok result, st3))
    (hvalid : result.IsValid = true) :
    Event.authChecker (authLevelOf r) ∈ (ServeHTTP env request response logHeaders).st.trace ∧
    (callAuthChecker env (authLevelOf r) request st3.args = .ok false →
      (writeLog env (ascii "REJECT") result 0 request
        { st3.emit (.authChecker (authLevelOf r)) with response := st3.response.WriteHeader 403 }
        (authLevelOf r) []).1 = none →
      (ServeHTTP env request response logHeaders).st.response.status = 403 ∧
      (ServeHTTP env request response logHeaders).st.response.writerBody
        = response.writerBody) := by
  have hrouted := ServeHTTP_routed env request response logHeaders r st2 hres hsome hasm
  constructor
  · rw [hrouted]
    have h1 := serveBody_consults_checker env request r.s r.ws (authLevelOf r) st2 st3 result
      hpos hfil (Or.inr hvalid)
    have h2 := recoverPanic_extends env request (authLevelOf r)
      (serveBody env request r.s r.ws (authLevelOf r) st2)
    exact h2.mem _ (h1.mem _ (by simp [St.emit]))
  · intro hdeny hlog
    have h := ServeHTTP_rejected env request response logHeaders r st2 hres hsome hasm result st3
      hpos hfil hdeny hlog
    exact ⟨h.2.1, h.2.2.1⟩

/-- C9 amended, on `filteredDeniedEnv`: the filter answered `cached`, the checker
was consulted all the same, and the request was rejected with 403 and an empty
body. -/
theorem ServeHTTP_auth_after_filter_result_witness :
    Event.authChecker 1 ∈
      (ServeHTTP filteredDeniedEnv (getRequest (ascii "/admin")) response0 []).st.trace ∧
    (ServeHTTP filteredDeniedEnv (getRequest (ascii "/admin")) response0 []).st.response.status
      = 403 ∧
    (ServeHTTP filteredDeniedEnv (getRequest (ascii "/admin")) response0 []).st.response.writerBody
      = response0.writerBody :=
  ⟨(ServeHTTP_auth_after_filter_result filteredDeniedEnv (getRequest (ascii "/admin")) response0 []
      { s := some (routeReturning [] 1 (ascii "secret")), ws := none, args := [] }
      (stateWith []) rfl (Or.inl rfl) rfl
      (.ofString (ascii "cached")) ((stateWith []).emit (.inFilter 0)) (by decide) rfl rfl).1,
   (ServeHTTP_auth_after_filter_result filteredDeniedEnv (getRequest (ascii "/admin")) response0 []
      { s := some (routeReturning [] 1 (ascii "secret")), ws := none, args := [] }
      (stateWith []) rfl (Or.inl rfl) rfl
      (.ofString (ascii "cached")) ((stateWith []).emit (.inFilter 0)) (by decide) rfl rfl).2
      rfl rfl⟩

/-! ## Recovered panics -/

theorem dispatch_of_call (env : Env) (request : Request) (s : Option webServiceType)
    (hs : s.isSome = true) (authLevel : Int) (result : GoValue) (st : St) :
    dispatch env request s none authLevel result st
      = match doWebService s result st with
        | (.error p, st1) => (some p, st1)
        | (.ok result1, st1) =>
          match runOutFilters request env.outFilters 0 result1 st1 with
          | (.error p, st2) => (some p, st2)
          | (.ok result2, st2) => writeResult env request authLevel result2 st2 := by
  unfold dispatch
  simp [hs]

theorem serveBody_of_authorized (env : Env) (request : Request) (s : Option webServiceType)
    (ws : Option websocketServiceType) (authLevel : Int) (st st1 st2 : St) (result : GoValue)
    (hfil : runInFilters request env.inFilters 0 st = (.ok result, st1))
    (hauth : Authorized env request authLevel st1 st2) :
    serveBody env request s ws authLevel st
      = dispatch env request s ws authLevel result st2 := by
  unfold serveBody
  simp only [hfil]
  rcases hauth with ⟨hle, rfl⟩ | ⟨hpos, hcheck, rfl⟩
  · have : ¬ authLevel > 0 := by omega
    rw [if_neg this]
  · rw [if_pos hpos, hcheck]

theorem Authorized.keeps {env : Env} {request : Request} {authLevel : Int} {st1 st2 : St}
    (h : Authorized env request authLevel st1 st2) :
    st2.response = st1.response ∧ Extends (fun e => e = .authChecker authLevel) st1 st2 := by
  rcases h with ⟨_, rfl⟩ | ⟨_, _, rfl⟩
  · exact ⟨rfl, Extends.refl _ _⟩
  · exact ⟨rfl, Extends.emit _ _ _ rfl⟩

/-- A panic of one of the five stages ends the body with that payload, before
anything was written and before any record was logged. -/
theorem PanicsIn.ends_body {env : Env} {request : Request} {s : Option webServiceType}
    {ws : Option websocketServiceType} {authLevel : Int}
    {st st1 : St} {p : GoValue} (h : PanicsIn env request s ws authLevel st p st1) :
    serveBody env request s ws authLevel st = (some p, st1) ∧
    st1.response = st.response ∧
    Extends (fun e => ∀ entry, e ≠ .log entry) st st1 := by
  have hfilter : ∀ {r : Except GoValue GoValue} {st0 : St},
      runInFilters request env.inFilters 0 st = (r, st0) →
      st0.response = st.response ∧ Extends (fun e => ∀ entry, e ≠ .log entry) st st0 := by
    intro r st0 hr
    obtain ⟨h1, _, h3⟩ := runInFilters_spec request env.inFilters 0 st
    rw [hr] at h1 h3
    exact ⟨h1, h3.mono (fun e ⟨j, hj⟩ entry hx => by subst hj; cases hx)⟩
  have hauthorized : ∀ {sa sb : St}, Authorized env request authLevel sa sb →
      sb.response = sa.response ∧ Extends (fun e => ∀ entry, e ≠ .log entry) sa sb := by
    intro sa sb ha
    exact ⟨ha.keeps.1, ha.keeps.2.mono (fun e he entry hx => by subst he; cases hx)⟩
  have hcalled : ∀ {result : GoValue} {r : Except GoValue GoValue} {sa sb : St},
      doWebService s result sa = (r, sb) →
      sb.response = sa.response ∧ Extends (fun e => ∀ entry, e ≠ .log entry) sa sb := by
    intro result r sa sb hc
    obtain ⟨h1, h3⟩ := doWebService_spec s result sa
    rw [hc] at h1 h3
    exact ⟨h1, h3.mono (fun e he entry hx => by subst he; cases hx)⟩
  have hfiltered : ∀ {result : GoValue} {r : Except GoValue GoValue} {sa sb : St},
      runOutFilters request env.outFilters 0 result sa = (r, sb) →
      sb.response = sa.response ∧ Extends (fun e => ∀ entry, e ≠ .log entry) sa sb := by
    intro result r sa sb hc
    obtain ⟨h1, h3⟩ := runOutFilters_spec request env.outFilters 0 result sa
    rw [hc] at h1 h3
    exact ⟨h1, h3.mono (fun e ⟨j, hj⟩ entry hx => by subst hj; cases hx)⟩
  cases h with
  | inFilter st1 hfil =>
    refine ⟨?_, (hfilter hfil).1, (hfilter hfil).2⟩
    unfold serveBody
    simp only [hfil]
  | authChecker result st0 hfil hpos hcheck =>
    refine ⟨?_, (hfilter hfil).1, (hfilter hfil).2.trans
      (Extends.emit _ _ _ (fun entry hx => by cases hx))⟩
    unfold serveBody
    simp only [hfil, gt_iff_lt, hpos, if_true, hcheck]
  | handler result sa sb st1 hws hs hfil hauth hcall =>
    subst hws
    refine ⟨?_, ?_, ((hfilter hfil).2.trans (hauthorized hauth).2).trans (hcalled hcall).2⟩
    · rw [serveBody_of_authorized env request s none authLevel st sa sb result hfil hauth,
        dispatch_of_call env request s hs, hcall]
    · rw [(hcalled hcall).1, (hauthorized hauth).1, (hfilter hfil).1]
  | outFilter result result1 sa sb sc st1 hws hs hfil hauth hcall hout =>
    subst hws
    refine ⟨?_, ?_, (((hfilter hfil).2.trans (hauthorized hauth).2).trans
      (hcalled hcall).2).trans (hfiltered hout).2⟩
    · rw [serveBody_of_authorized env request s none authLevel st sa sb result hfil hauth,
        dispatch_of_call env request s hs, hcall]
      simp only [hout]
    · rw [(hfiltered hout).1, (hcalled hcall).1, (hauthorized hauth).1, (hfilter hfil).1]
  | encode result result1 result2 sa sb sc st1 hws hs hfil hauth hcall hout hvalid hbytes =>
    subst hws
    refine ⟨?_, ?_, (((hfilter hfil).2.trans (hauthorized hauth).2).trans
      (hcalled hcall).2).trans (hfiltered hout).2⟩
    · rw [serveBody_of_authorized env request s none authLevel st sa sb result hfil hauth,
        dispatch_of_call env request s hs, hcall]
      simp only [hout]
      unfold writeResult
      simp [hvalid, hbytes]
    · rw [(hfiltered hout).1, (hcalled hcall).1, (hauthorized hauth).1, (hfilter hfil).1]

theorem recoverPanic_default (env : Env) (request : Request) (authLevel : Int) (p : GoValue)
    (st : St) (hnone : env.errorHandle = none) :
    recoverPanic env request authLevel (some p, st)
      = { st := (writeLog env (ascii "PANIC") (.ofString []) (panicLogState env st p).response.outLen
                  request (panicLogState env st p) authLevel [(ascii "error", p)]).2,
          crashed := (writeLog env (ascii "PANIC") (.ofString [])
                  (panicLogState env st p).response.outLen
                  request (panicLogState env st p) authLevel [(ascii "error", p)]).1 } := by
  unfold recoverPanic
  simp only [hnone]
  rfl

/-- C10 is false as stated: with `Config.NoLogGets` set, the panic of the handler
of `GET /boom` is recovered and answered with the panic status and an empty body,
but no record tagged PANIC is logged. -/
theorem ServeHTTP_panic_without_record :
    PanicsIn quietPanicEnv (getRequest (ascii "/boom")) (some (routePanicking (ascii "boom")))
      none 0 (stateWith []) (.ofString (ascii "boom")) ((stateWith []).emit .handler) ∧
    ServeHTTP quietPanicEnv (getRequest (ascii "/boom")) response0 []
      = { st := { response := { response0 with status := 500, writerCodes := [500] },
                  args := [], logHeaders := [],
                  trace := [.handler, .logError (ascii "boom")] },
          crashed := none } ∧
    logEntries (ServeHTTP quietPanicEnv (getRequest (ascii "/boom")) response0 []).st.trace
      = [] :=
  ⟨PanicsIn.handler _ .invalid (stateWith []) (stateWith []) _ rfl rfl rfl
      (Or.inl ⟨by decide, rfl⟩) rfl,
   rfl, rfl⟩

/-- C10, amended: when a pre-filter, the checker, the handler, a post-filter or
the encoding of the result panics with payload `p`, no `errorHandle` is installed
and emitting the record does not panic, `ServeHTTP` returns normally with the
status `ResponseCodePanicError` and without having written a body, and exactly one
record is logged, tagged PANIC and carrying `p` under `error`, unless logging is
suppressed (`Config.NoLogGets` with method `GET`), in which case no record is
logged. -/
theorem ServeHTTP_recovers_panic (env : Env) (request : Request) (response : Response)
    (logHeaders : List (GoString × GoString)) (r : Resolved) (st2 : St)
    (hres : resolve env request = .ok r) (hsome : r.s.isSome ∨ r.ws.isSome)
    (hasm : assembleArgs env request
      { response := response, args := r.args, logHeaders := logHeaders, trace := [] } = .ok st2)
    (p : GoValue) (st3 : St)
    (hpanic : PanicsIn env request r.s r.ws (authLevelOf r) st2 p st3)
    (hnone : env.errorHandle = none)
    (hlog : (writeLog env (ascii "PANIC") (.ofString []) (panicLogState env st3 p).response.outLen
      request (panicLogState env st3 p) (authLevelOf r) [(ascii "error", p)]).1 = none) :
    (ServeHTTP env request response logHeaders).crashed = none ∧
    (ServeHTTP env request response logHeaders).st.response.status
      = env.ResponseCodePanicError ∧
    (ServeHTTP env request response logHeaders).st.response.writerBody = response.writerBody ∧
    (logSuppressed env request →
      logEntries (ServeHTTP env request response logHeaders).st.trace = []) ∧
    (¬ logSuppressed env request →
      ∃ entry, logEntries (ServeHTTP env request response logHeaders).st.trace = [entry] ∧
        entry.logName = ascii "PANIC" ∧ entry.status = env.ResponseCodePanicError ∧
        GoMap.get entry.extraInfo (ascii "error") = some p) := by
  have hrouted := ServeHTTP_routed env request response logHeaders r st2 hres hsome hasm
  obtain ⟨hresp2, htrace2⟩ := assembled_state env request response logHeaders r.args st2 hasm
  obtain ⟨hbody, hresp3, hext3⟩ := hpanic.ends_body
  rw [hbody, recoverPanic_default env request (authLevelOf r) p st3 hnone, hlog] at hrouted
  obtain ⟨wresp, _, wsup, _, wlog⟩ := writeLog_spec env (ascii "PANIC") (.ofString [])
    (panicLogState env st3 p).response.outLen request (panicLogState env st3 p) (authLevelOf r)
    [(ascii "error", p)]
  have hstate : (panicLogState env st3 p).response
      = st3.response.WriteHeader env.ResponseCodePanicError := rfl
  have hnolog3 : logEntries st3.trace = [] :=
    logEntries_eq_nil _ (hext3.all (fun e he entry hx => by
      obtain ⟨msg, hm⟩ := htrace2 e he
      subst hm
      cases hx))
  have hnolog : logEntries (panicLogState env st3 p).trace = [] := by
    show logEntries (st3.trace ++ [.logError (env.uString p)]) = []
    rw [logEntries_append, hnolog3]
    rfl
  rw [hrouted]
  refine ⟨rfl, ?_, ?_, ?_, ?_⟩
  · show (writeLog env (ascii "PANIC") (.ofString []) (panicLogState env st3 p).response.outLen
      request (panicLogState env st3 p) (authLevelOf r) [(ascii "error", p)]).2.response.status
        = _
    rw [wresp, hstate]
    exact (Response.WriteHeader_status _ _).1
  · show (writeLog env (ascii "PANIC") (.ofString []) (panicLogState env st3 p).response.outLen
      request (panicLogState env st3 p) (authLevelOf r)
        [(ascii "error", p)]).2.response.writerBody = _
    rw [wresp, hstate, (Response.WriteHeader_status _ _).2, hresp3, hresp2]
  · intro hs
    show logEntries (writeLog env (ascii "PANIC") (.ofString [])
      (panicLogState env st3 p).response.outLen
      request (panicLogState env st3 p) (authLevelOf r) [(ascii "error", p)]).2.trace = []
    rw [wsup hs]
    exact hnolog
  · intro hs
    obtain ⟨entry, he, hname, hstatus, _, hextra⟩ := wlog hs hlog
    refine ⟨entry, ?_, hname, ?_, ?_⟩
    · show logEntries (writeLog env (ascii "PANIC") (.ofString [])
        (panicLogState env st3 p).response.outLen
        request (panicLogState env st3 p) (authLevelOf r) [(ascii "error", p)]).2.trace
          = [entry]
      rw [he, logEntries_append, hnolog]
      rfl
    · rw [hstatus, hstate]
      exact (Response.WriteHeader_status _ _).1
    · rw [hextra, GoMap.get_set]
      have hne : ¬ ascii "type" = ascii "error" := by decide
      simp only [hne, if_false]
      simp [GoMap.get]

/-- C10 amended, on `panicEnv` (logging on): the handler of `GET /boom` panics
with `boom`; the request ends normally with status 500, an empty body and one
record, tagged PANIC and carrying the payload. -/
theorem ServeHTTP_recovers_panic_witness :
    (ServeHTTP panicEnv (getRequest (ascii "/boom")) response0 []).crashed = none ∧
    (ServeHTTP panicEnv (getRequest (ascii "/boom")) response0 []).st.response.status = 500 ∧
    (ServeHTTP panicEnv (getRequest (ascii "/boom")) response0 []).st.response.writerBody = [] ∧
    ∃ entry,
      logEntries (ServeHTTP panicEnv (getRequest (ascii "/boom")) response0 []).st.trace
        = [entry] ∧
      entry.logName = ascii "PANIC" ∧ entry.status = 500 ∧
      GoMap.get entry.extraInfo (ascii "error") = some (.ofString (ascii "boom")) :=
  have h := ServeHTTP_recovers_panic panicEnv (getRequest (ascii "/boom")) response0 []
    { s := some (routePanicking (ascii "boom")), ws := none, args := [] } (stateWith [])
    rfl (Or.inl rfl) rfl
    (.ofString (ascii "boom")) ((stateWith []).emit .handler)
    (PanicsIn.handler _ .invalid (stateWith []) (stateWith []) _ rfl rfl rfl
      (Or.inl ⟨by decide, rfl⟩) rfl)
    rfl rfl
  ⟨h.1, h.2.1, h.2.2.1, h.2.2.2.2 (by unfold logSuppressed; decide)⟩

/-! ## Names that are masked -/

/-- Removing the first `n` occurrences of a byte removes all of them when there
are at most `n`. -/
theorem removeByte_eq_filter (old : UInt8) (n : Nat) (k : GoString) (h : k.count old ≤ n) :
    removeByte old n k = k.filter (fun b => b ≠ old) := by
  induction k generalizing n with
  | nil => cases n <;> rfl
  | cons b rest ih =>
    by_cases hb : b = old
    · subst hb
      cases n with
      | zero => simp at h
      | succ m =>
        have hm : rest.count b ≤ m := by simpa using h
        simp [removeByte, ih m hm]
    · have hr : rest.count old ≤ n := by
        rw [List.count_cons_of_ne (fun h => hb h.symm)] at h
        exact h
      cases n with
      | zero =>
        have h0 : rest.count old = 0 := Nat.le_zero.mp hr
        have hnot : old ∉ rest := List.count_eq_zero.mp h0
        have hfil : (b :: rest).filter (fun c => c ≠ old) = b :: rest := by
          rw [List.filter_eq_self]
          intro c hc
          rcases List.mem_cons.mp hc with hcb | hcr
          · subst hcb
            simpa using hb
          · have : c ≠ old := fun hco => hnot (hco ▸ hcr)
            simpa using this
        rw [hfil]
        rfl
      | succ m =>
        simp [removeByte, hb, ih (m + 1) hr]

/-- On a name with at most three hyphens the test is the one the log format
describes. -/
theorem requireEncryptField_few_hyphens (enc : GoString → Bool) (k : GoString)
    (h : k.count 45 ≤ 3) : requireEncryptField enc k = specRequireEncryptField enc k := by
  unfold requireEncryptField specRequireEncryptField
  rw [removeByte_eq_filter 45 3 k h]

/-- C15 fails on a name with four hyphens: with `xapisecretkeyid` in the encrypt
set, the name `X-Api-Secret-Key-Id`, whose hyphen-free lower-case form is in the
set, is not masked, because only its first three hyphens are removed. -/
theorem requireEncryptField_four_hyphens :
    specRequireEncryptField (fun k => decide (k = ascii "xapisecretkeyid"))
      (ascii "X-Api-Secret-Key-Id") = true ∧
    removeByte 45 3 (ascii "X-Api-Secret-Key-Id") = ascii "XApiSecretKey-Id" ∧
    requireEncryptField (fun k => decide (k = ascii "xapisecretkeyid"))
      (ascii "X-Api-Secret-Key-Id") = false := by
  refine ⟨?_, ?_, ?_⟩ <;> decide

/-! ## Pending proxy headers -/

/-- C18: with pending proxy headers, `Write` and `WriteHeader` with a status
other than 502, 503 and 504 add them all to the header set of the writer and
clear them, and `WriteHeader` with 502, 503 or 504 records the status only; but
`Flush` flushes the writer and leaves the headers pending, nothing being added to
the header set of the writer. -/
theorem Flush_keeps_pending (response : Response) (h : Values) (bytes : GoString) (code : Int)
    (hp : response.ProxyHeader = some h) :
    ((response.Write bytes).ProxyHeader = none ∧
      (response.Write bytes).writerHeader = addAll h response.writerHeader) ∧
    (¬ (code = 502 ∨ code = 503 ∨ code = 504) →
      (response.WriteHeader code).ProxyHeader = none ∧
      (response.WriteHeader code).writerHeader = addAll h response.writerHeader ∧
      (response.WriteHeader code).writerCodes = response.writerCodes ++ [code]) ∧
    ((code = 502 ∨ code = 503 ∨ code = 504) →
      (response.WriteHeader code).status = code ∧
      (response.WriteHeader code).writerCodes = response.writerCodes ∧
      (response.WriteHeader code).ProxyHeader = some h ∧
      (response.WriteHeader code).writerHeader = response.writerHeader) ∧
    (response.Flush.ProxyHeader = some h ∧
      response.Flush.writerHeader = response.writerHeader ∧
      (response.writerIsFlusher = true →
        response.Flush.writerFlushes = response.writerFlushes + 1)) := by
  refine ⟨?_, ?_, ?_, ?_⟩
  · simp [Response.Write, Response.copyProxyHeader, hp, addAll]
  · intro hc
    simp [Response.WriteHeader, Response.copyProxyHeader, hp, hc, addAll]
  · intro hc
    simp [Response.WriteHeader, hp, hc]
  · refine ⟨?_, ?_, ?_⟩
    · unfold Response.Flush
      split <;> simp [hp]
    · unfold Response.Flush
      split <;> rfl
    · intro hf
      simp [Response.Flush, hf]

/-- C18 on a response with the pending header `X-Upstream: a`: after `Flush` the
header is still pending and the writer, flushed once, has no header; after
`Write` it is in the header set of the writer. -/
theorem Flush_keeps_pending_witness :
    ({ response0 with ProxyHeader := some [(ascii "X-Upstream", [ascii "a"])] } : Response).Flush
      = { response0 with
          ProxyHeader := some [(ascii "X-Upstream", [ascii "a"])], writerFlushes := 1 } ∧
    (({ response0 with ProxyHeader := some [(ascii "X-Upstream", [ascii "a"])] } :
        Response).Write (ascii "x")).writerHeader = [(ascii "X-Upstream", [ascii "a"])] ∧
    (({ response0 with ProxyHeader := some [(ascii "X-Upstream", [ascii "a"])] } :
        Response).Flush.ProxyHeader = some [(ascii "X-Upstream", [ascii "a"])] ∧
      ({ response0 with ProxyHeader := some [(ascii "X-Upstream", [ascii "a"])] } :
        Response).Flush.writerHeader = response0.writerHeader) :=
  ⟨rfl, rfl,
    (Flush_keeps_pending { response0 with ProxyHeader := some [(ascii "X-Upstream", [ascii "a"])] }
      [(ascii "X-Upstream", [ascii "a"])] (ascii "x") 200 rfl).2.2.2.1,
    (Flush_keeps_pending { response0 with ProxyHeader := some [(ascii "X-Upstream", [ascii "a"])] }
      [(ascii "X-Upstream", [ascii "a"])] (ascii "x") 200 rfl).2.2.2.2.1⟩

/-! ## Captures of pattern WebSocket routes -/

/-- The loop over the groups of a WebSocket pattern route never consults
`url.QueryUnescape`: it binds what the HTTP loop binds when every decoding
fails. -/
theorem bindRawPathArgs_eq (env : Env) (groups pathArgs : List GoString) (args : GoMap) :
    bindRawPathArgs groups pathArgs args
      = bindPathArgs { env with QueryUnescape := fun _ => .error [] } groups pathArgs args := by
  induction groups generalizing pathArgs args with
  | nil => cases pathArgs <;> rfl
  | cons g gs ih =>
    cases pathArgs with
    | nil => rfl
    | cons name names =>
      simp only [bindRawPathArgs, bindPathArgs]
      exact ih names _

/-- C16 fails on `/chat/a%20b`: the pattern WebSocket service `/chat/{room}` is
selected with `room` bound to the raw text `a%20b`, whereas the pattern HTTP
route `/chat/{room}` is selected with `room` bound to the decoded text `a b`. -/
theorem resolve_websocket_capture_raw :
    unescapeEnv.QueryUnescape (ascii "a%20b") = .ok (ascii "a b") ∧
    resolve chatSocketEnv (getRequest (ascii "/chat/a%20b"))
      = .ok { s := none, ws := some chatSocket,
              args := [(ascii "room", .ofString (ascii "a%20b"))] } ∧
    resolve chatRouteEnv (getRequest (ascii "/chat/a%20b"))
      = .ok { s := some (patternRoute (ascii "/chat/") (ascii "room") 0 (ascii "chat")),
              ws := none, args := [(ascii "room", .ofString (ascii "a b"))] } :=
  ⟨rfl, rfl, rfl⟩

/-! ## Masked fields of a container -/

/-- C14: in a struct or a map with one field whose name is in the encrypt set,
the value logged under the name is the masked string form of the whole struct or
map, not of the value stored under the name. -/
theorem makeLogableData_masks_container (uString : GoValue → GoString) (enc : GoString → Bool)
    (k t : GoString) (x : GoValue) (allows : Option (GoString → Bool)) (numArrays : Int)
    (level : Nat) (hk : requireEncryptField enc k = true) (ha : allowed allows k = true) :
    makeLogableData uString enc (.struct t [(k, x)]) allows numArrays level
      = .ok (.map .iface
          [(k, .iface (.ofString (encryptField uString (.struct t [(k, x)]))))]) ∧
    makeLogableData uString enc (.map .iface [(k, x)]) allows numArrays level
      = .ok (.map .iface
          [(k, .iface (.ofString (encryptField uString (.map .iface [(k, x)]))))]) := by
  constructor
  · simp [makeLogableData, makeLogableFields, hk, ha, SetMapIndex, GoValue.ofString, GoMap.set]
  · simp [makeLogableData, makeLogableEntries, hk, ha, SetMapIndex, GoValue.ofString, GoMap.set]

/-- C14 on the map `{"password": "secret123456"}` with `password` in the encrypt
set and a string form that is empty for a map: the masked form of the value is
`se***56`, the entry logged is `**`, the masked form of the map. -/
theorem makeLogableData_masks_container_witness :
    encryptField textOf (.ofString (ascii "secret123456")) = ascii "se***56" ∧
    makeLogableData textOf maskEnv.encryptLogFields
        (.map .iface [(ascii "password", .iface (.ofString (ascii "secret123456")))]) none 10 1
      = .ok (.map .iface [(ascii "password", .iface (.ofString (ascii "**")))]) ∧
    makeLogableData textOf maskEnv.encryptLogFields
        (.struct (ascii "Login") [(ascii "password", .ofString (ascii "secret123456"))]) none 10 1
      = .ok (.map .iface [(ascii "password", .iface (.ofString (ascii "**")))]) :=
  ⟨by decide,
    (makeLogableData_masks_container textOf maskEnv.encryptLogFields (ascii "password")
      (ascii "Login") (.iface (.ofString (ascii "secret123456"))) none 10 1 (by decide) rfl).2,
    (makeLogableData_masks_container textOf maskEnv.encryptLogFields (ascii "password")
      (ascii "Login") (.ofString (ascii "secret123456")) none 10 1 (by decide) rfl).1⟩

/-! ## Requests that match no route -/

/-- C19, amended: when resolution selects no service the status is 404 and no
filter, checker or handler runs (the trace holds log records only); for
`/favicon.ico`, and when logging is suppressed (`Config.NoLogGets` with method
`GET`), no record is logged; otherwise, when emitting the record does not panic,
exactly one record is logged, tagged FAIL, with status 404. -/
theorem ServeHTTP_not_found (env : Env) (request : Request) (response : Response)
    (logHeaders : List (GoString × GoString)) (args : GoMap)
    (hres : resolve env request = .ok { s := none, ws := none, args := args }) :
    (ServeHTTP env request response logHeaders).st.response = response.WriteHeader 404 ∧
    (ServeHTTP env request response logHeaders).st.response.status = 404 ∧
    (∀ e ∈ (ServeHTTP env request response logHeaders).st.trace, ∃ entry, e = .log entry) ∧
    (requestPathOf request = ascii "/favicon.ico" ∨ logSuppressed env request →
      (ServeHTTP env request response logHeaders).st.trace = [] ∧
      (ServeHTTP env request response logHeaders).crashed = none) ∧
    (requestPathOf request ≠ ascii "/favicon.ico" → ¬ logSuppressed env request →
      (ServeHTTP env request response logHeaders).crashed = none →
      ∃ entry, (ServeHTTP env request response logHeaders).st.trace = [.log entry] ∧
        entry.logName = ascii "FAIL" ∧ entry.status = 404) := by
  have hstatus : (response.WriteHeader 404).status = 404 :=
    (Response.WriteHeader_status response 404).1
  by_cases hfav : requestPathOf request = ascii "/favicon.ico"
  · have hout : ServeHTTP env request response logHeaders
        = { st := { response := response.WriteHeader 404, args := args, logHeaders := logHeaders,
                    trace := [] }, crashed := none } := by
      simp [ServeHTTP, hres, hfav]
    rw [hout]
    refine ⟨rfl, hstatus, ?_, ?_, ?_⟩
    · intro e he
      cases he
    · intro _
      exact ⟨rfl, rfl⟩
    · intro h
      exact absurd hfav h
  · have hout : ServeHTTP env request response logHeaders
        = { st := (writeLog env (ascii "FAIL") .invalid 0 request
                    { response := response.WriteHeader 404, args := args,
                      logHeaders := logHeaders, trace := [] } 0 []).2,
            crashed := (writeLog env (ascii "FAIL") .invalid 0 request
                    { response := response.WriteHeader 404, args := args,
                      logHeaders := logHeaders, trace := [] } 0 []).1 } := by
      simp [ServeHTTP, hres, hfav]
    obtain ⟨hresp, _, hsup, hpanic, hlog⟩ := writeLog_spec env (ascii "FAIL") .invalid 0 request
      { response := response.WriteHeader 404, args := args, logHeaders := logHeaders,
        trace := [] } 0 []
    rw [hout]
    refine ⟨hresp, ?_, ?_, ?_, ?_⟩
    · show (writeLog env (ascii "FAIL") .invalid 0 request _ 0 []).2.response.status = 404
      rw [hresp]
      exact hstatus
    · intro e he
      by_cases hs : logSuppressed env request
      · rw [hsup hs] at he
        cases he
      · by_cases hc : (writeLog env (ascii "FAIL") .invalid 0 request
            { response := response.WriteHeader 404, args := args, logHeaders := logHeaders,
              trace := [] } 0 []).1 = none
        · obtain ⟨entry, htr, _⟩ := hlog hs hc
          rw [htr] at he
          simp at he
          exact ⟨entry, he⟩
        · rw [hpanic hc] at he
          cases he
    · intro h
      rcases h with h | h
      · exact absurd h hfav
      · rw [hsup h]
        exact ⟨rfl, rfl⟩
    · intro _ hs hc
      obtain ⟨entry, htr, hname, hst, _⟩ := hlog hs hc
      refine ⟨entry, ?_, hname, ?_⟩
      · rw [htr]
        rfl
      · rw [hst]
        exact hstatus

/-- C19 is false as stated: with `Config.NoLogGets` set, `GET /nope` matches no
route and is answered 404, and no record tagged FAIL is logged although the path
is not `/favicon.ico`. -/
theorem ServeHTTP_not_found_without_record :
    resolve quietEnv (getRequest (ascii "/nope")) = .ok { s := none, ws := none, args := [] } ∧
    requestPathOf (getRequest (ascii "/nope")) ≠ ascii "/favicon.ico" ∧
    ServeHTTP quietEnv (getRequest (ascii "/nope")) response0 []
      = { st := { response := { response0 with status := 404, writerCodes := [404] },
                  args := [], logHeaders := [], trace := [] },
          crashed := none } ∧
    logEntries (ServeHTTP quietEnv (getRequest (ascii "/nope")) response0 []).st.trace = [] :=
  ⟨rfl, by decide, rfl, rfl⟩

/-- C19 amended, on `env0` (logging on): `GET /nope` is answered 404 and exactly
one record, tagged FAIL, is logged. -/
theorem ServeHTTP_not_found_witness :
    resolve env0 (getRequest (ascii "/nope")) = .ok { s := none, ws := none, args := [] } ∧
    (ServeHTTP env0 (getRequest (ascii "/nope")) response0 []).st.response.status = 404 ∧
    (ServeHTTP env0 (getRequest (ascii "/nope")) response0 []).crashed = none ∧
    ∃ entry, (ServeHTTP env0 (getRequest (ascii "/nope")) response0 []).st.trace = [.log entry] ∧
      entry.logName = ascii "FAIL" ∧ entry.status = 404 :=
  ⟨rfl,
    (ServeHTTP_not_found env0 (getRequest (ascii "/nope")) response0 [] [] rfl).2.1,
    rfl,
    (ServeHTTP_not_found env0 (getRequest (ascii "/nope")) response0 [] [] rfl).2.2.2.2
      (by decide) (by intro h; exact absurd h.1 (by decide)) rfl⟩

/-! ## The close handler -/

/-- The loop over the parameters of `onClose` never sets the index of the
logger. -/
theorem classifyClose_loggerIndex (sessionType : Option GoType) (types : List GoType) (i : Nat)
    (acc : CloseRoles) : (classifyClose sessionType types i acc).loggerIndex = acc.loggerIndex := by
  induction types generalizing i acc with
  | nil => rfl
  | cons t rest ih =>
    unfold classifyClose
    split
    · rw [ih]
    · split
      · rw [ih]
      · split
        · rw [ih]
        · split
          · rw [ih]
          · rw [ih]

/-- Whatever the parameters of a registered close handler are, no parameter is
bound to the logger: `closeLoggerIndex` is `-1`. -/
theorem RegisterWebsocketWithPriority_closeLoggerIndex (authLevel priority : Int)
    (path : GoString) (pathMatcher : GoString → List (List GoString)) (pathArgs : List GoString)
    (Upgrade : Request → Option GoString) (onOpen : Option FuncValue) (onClose : FuncValue)
    (decoder : Option (GoValue → GoString × Option GoMap × Option GoString))
    (encoder : Option (GoString → GoValue → GoValue)) :
    (RegisterWebsocketWithPriority authLevel priority path pathMatcher pathArgs Upgrade onOpen
      (some onClose) decoder encoder).closeLoggerIndex = -1 := by
  simp only [RegisterWebsocketWithPriority]
  exact classifyClose_loggerIndex _ _ _ _

/-- C17 fails for a close handler `func(*websocket.Conn, *log.Logger)`:
registration records the position of the logger as the position of the
request, so the request is bound to the logger parameter, the call of the handler
panics in `reflect`, and the request ends with a PANIC record instead of the
handler and WSCLOSE. The close handler `func(*websocket.Conn, *http.Request)`
is bound by role and followed by WSCLOSE. -/
theorem closeSession_logger_parameter :
    ((socketClosing closeWithLogger).closeLoggerIndex = -1 ∧
      (socketClosing closeWithLogger).closeRequestIndex = 1) ∧
    bindCloseParms env0 (socketClosing closeWithLogger) .invalid
      = .ok [connHandle, requestHandle] ∧
    closeSession env0 (socketClosing closeWithLogger) (getRequest (ascii "/ws")) 0 .invalid
        (stateWith [])
      = (some (.scalar (ascii "*reflect.ValueError")
          (ascii "reflect: Call using a value that is not assignable to the parameter type")),
         stateWith []) ∧
    (ServeHTTP (sessionEnv env0 [] (socketClosing closeWithLogger)) (getRequest (ascii "/ws"))
        response0 []).st.trace.map Event.label
      = [ascii "upgrade", ascii "log:WSOPEN", ascii "websocketSession", ascii "logError",
         ascii "log:PANIC"] ∧
    bindCloseParms env0 (socketClosing closeWithRequest) .invalid
      = .ok [connHandle, requestHandle] ∧
    (ServeHTTP (sessionEnv env0 [] (socketClosing closeWithRequest)) (getRequest (ascii "/ws"))
        response0 []).st.trace.map Event.label
      = [ascii "upgrade", ascii "log:WSOPEN", ascii "websocketSession", ascii "closeHandler",
         ascii "log:WSCLOSE"] :=
  ⟨⟨rfl, rfl⟩, rfl, rfl, rfl, rfl, rfl⟩

/-! ## The reply of an action -/

theorem afterCall_of_Call (f : Option FuncValue) (parms : List GoValue) (e : Event) (st : St)
    (outs : List GoValue) (hcall : Call f parms = .ok outs) : afterCall f parms e st = st.emit e := by
  cases f with
  | none => cases hcall
  | some fv =>
    by_cases ha : fv.accepts parms = true
    · simp [afterCall, ha]
    · simp [Call, ha, reflectPanic] at hcall

/-- C20, amended: when the handler of a dispatched action returns at least one
value, `outAction` is the string of the first value when there are two or more and
the inbound action name when there is one. Without an encoder hook the value
serialized is the object made of the fields below with `action` set to
`outAction`, and when it serializes to `bytes` the message written is
`FixUpperCase(bytes)`: the fields are the entries of a `map[string]interface{}`
output that is not nil, the fields `u.Convert` makes of a struct output, and the
single field `data` holding the output for any other output, a map with another
element type included, except those on which the call panics after the handler
has run and nothing is written: a nil output, a nil `map[string]interface{}`, a
map with interface elements of a type other than `map[string]interface{}`, and a
struct of which `u.Convert` makes no map. -/
theorem doWebsocketAction_envelope (env : Env) (ws : websocketServiceType)
    (actionName : GoString) (action : websocketActionType) (request : Request)
    (data : Option GoMap) (sess : GoValue) (st : St) (messageParms : List GoValue)
    (out : GoValue) (outs : List GoValue)
    (hbind : bindActionParms env action request data sess = .ok messageParms)
    (hcall : Call action.func messageParms = .ok (out :: outs))
    (henc : ws.encoder = none) :
    (∀ r st1, doWebsocketAction env ws actionName action request data sess st = (.ok r, st1) →
      r.outAction = if outs.isEmpty then actionName else out.String) ∧
    (∀ fields bytes,
      ((∃ entries, (outs.headD out).Interface = .map .iface entries ∧
          fields = entries.map (fun kv => (kv.1, kv.2.Interface))) ∨
        (∃ t fs, (outs.headD out).Interface = .struct t fs ∧
          env.ConvertToMap (.struct t fs) = some fields) ∨
        ((outs.headD out).Interface ≠ .invalid ∧
          (∀ entries, (outs.headD out).Interface ≠ .map .iface entries) ∧
          (∀ t fs, (outs.headD out).Interface ≠ .struct t fs) ∧
          (outs.headD out).Interface ≠ .nilMap .iface ∧
          (∀ n, (outs.headD out).Interface ≠ .otherMap n .iface) ∧
          fields = [(ascii "data", (outs.headD out).Interface)])) →
      env.jsonMarshal (ValueOfMap (GoMap.set fields (ascii "action")
        (.ofString (if outs.isEmpty then actionName else out.String)))) = .ok bytes →
      (doWebsocketAction env ws actionName action request data sess st).2.trace
        = st.trace ++ [.actionHandler actionName messageParms,
            .writeMessage (env.FixUpperCase bytes)] ∧
      ∃ r, (doWebsocketAction env ws actionName action request data sess st).1 = .ok r ∧
        r.outAction = (if outs.isEmpty then actionName else out.String) ∧
        r.outLen = bytes.length ∧ r.err = env.WriteMessage (env.FixUpperCase bytes)) ∧
    ((outs.headD out).Interface = .invalid ∨ (outs.headD out).Interface = .nilMap .iface ∨
        (∃ n, (outs.headD out).Interface = .otherMap n .iface) ∨
        (∃ t fs, (outs.headD out).Interface = .struct t fs ∧
          env.ConvertToMap (.struct t fs) = none) →
      ∃ p, doWebsocketAction env ws actionName action request data sess st
        = (.error p, st.emit (.actionHandler actionName messageParms))) := by
  have hafter := afterCall_of_Call action.func messageParms
    (.actionHandler actionName messageParms) st _ hcall
  have hact : (actionOutput actionName (out :: outs)).1
      = if outs.isEmpty then actionName else out.String := by
    cases outs <;> rfl
  have hdat : (actionOutput actionName (out :: outs)).2 = (outs.headD out).Interface := by
    cases outs <;> rfl
  refine ⟨?_, ?_, ?_⟩
  · intro r st1 hrun
    simp only [doWebsocketAction, hbind, hcall] at hrun
    rw [← hact]
    split at hrun
    · cases hrun
    · split at hrun
      · cases hrun
        rfl
      · cases hrun
        rfl
  · intro fields bytes hshape hbytes
    have hpay : actionPayload env ws (actionOutput actionName (out :: outs)).1
        (actionOutput actionName (out :: outs)).2
        = .ok (ValueOfMap (GoMap.set fields (ascii "action")
            (.ofString (if outs.isEmpty then actionName else out.String)))) := by
      rw [hact, hdat]
      generalize (outs.headD out).Interface = d at hshape
      rcases hshape with ⟨entries, hd, hf⟩ | ⟨t, fs, hd, hf⟩ |
        ⟨hinv, hmap, hstruct, hnil, hother, hf⟩
      · subst hd hf
        simp [actionPayload, henc, actionEnvelope]
      · subst hd
        simp [actionPayload, henc, actionEnvelope, hf]
      · subst hf
        cases d with
        | invalid => exact absurd rfl hinv
        | struct t fs => exact absurd rfl (hstruct t fs)
        | map e entries =>
          have hne : e ≠ .iface := fun h => hmap entries (by rw [h])
          simp [actionPayload, henc, actionEnvelope, hne]
        | scalar t x => simp [actionPayload, henc, actionEnvelope]
        | slice e items => simp [actionPayload, henc, actionEnvelope]
        | iface dyn => simp [actionPayload, henc, actionEnvelope]
        | ptr e target => simp [actionPayload, henc, actionEnvelope]
        | nilMap e =>
          have hne : e ≠ .iface := fun h => hnil (by rw [h])
          simp [actionPayload, henc, actionEnvelope, hne]
        | otherMap k e =>
          have hne : e ≠ .iface := fun h => hother k (by rw [h])
          simp [actionPayload, henc, actionEnvelope, hne]
    simp only [doWebsocketAction, hbind, hcall, hpay, hbytes, hafter]
    refine ⟨?_, _, rfl, hact, rfl, rfl⟩
    simp [St.emit]
  · intro hbad
    have hpay : ∃ p, actionPayload env ws (actionOutput actionName (out :: outs)).1
        (actionOutput actionName (out :: outs)).2 = .error p := by
      rw [hdat]
      rcases hbad with hd | hd | ⟨k, hd⟩ | ⟨t, fs, hd, hconv⟩
      · rw [hd]
        simp [actionPayload, henc, actionEnvelope, runtimePanic]
      · rw [hd]
        simp [actionPayload, henc, actionEnvelope, runtimePanic]
      · rw [hd]
        simp [actionPayload, henc, actionEnvelope]
      · rw [hd]
        simp [actionPayload, henc, actionEnvelope, runtimePanic, hconv]
    obtain ⟨p, hp⟩ := hpay
    refine ⟨p, ?_⟩
    simp only [doWebsocketAction, hbind, hcall, hp, hafter]

/-- C20 is false as stated: the output `{"ok": "yes"}` of type
`map[string]string` is a string-keyed map, and the message written for it is
`{"data":{"ok":"yes"},"action":"ping"}`, whose field `data` is not a field of
the output. -/
theorem doWebsocketAction_wraps_text_map :
    (doWebsocketAction socketEnv (socketWith (ascii "ping") 0 textMapHandler) (ascii "ping")
        (RegisterActionWithPriority none 0 0 (some textMapHandler)) (getRequest (ascii "/ws"))
        (some [(ascii "action", .ofString (ascii "ping"))]) .invalid (stateWith [])).2.trace
      = [.actionHandler (ascii "ping") [],
         .writeMessage (ascii "\x7b\"data\":\x7b\"ok\":\"yes\"\x7d,\"action\":\"ping\"\x7d")] :=
  rfl

/-- C20 amended, on the end-to-end example: the action `ping` whose handler
returns `("pong", {"ok": true})` writes `{"ok":true,"action":"pong"}`, and the
connection that sends `{"action":"ping"}` logs WSACTION for it; with a handler
that returns a nil `map[string]interface{}` the call panics after the handler
has run, nothing is written and the request ends with a PANIC record. -/
theorem doWebsocketAction_envelope_witness :
    ((doWebsocketAction socketEnv (socketWith (ascii "ping") 0 pongHandler) (ascii "ping")
        (RegisterActionWithPriority none 0 0 (some pongHandler)) (getRequest (ascii "/ws"))
        (some [(ascii "action", .ofString (ascii "ping"))]) .invalid (stateWith [])).2.trace
      = [.actionHandler (ascii "ping") [],
         .writeMessage (ascii "\x7b\"ok\":true,\"action\":\"pong\"\x7d")] ∧
      ∃ r, (doWebsocketAction socketEnv (socketWith (ascii "ping") 0 pongHandler) (ascii "ping")
          (RegisterActionWithPriority none 0 0 (some pongHandler)) (getRequest (ascii "/ws"))
          (some [(ascii "action", .ofString (ascii "ping"))]) .invalid (stateWith [])).1 = .ok r ∧
        r.outAction = ascii "pong" ∧ r.outLen = 27 ∧ r.err = none) ∧
    (ServeHTTP (sessionEnv socketEnv [actionMessage (ascii "ping")]
        (socketWith (ascii "ping") 0 pongHandler)) (getRequest (ascii "/ws"))
        response0 []).st.trace.map Event.label
      = [ascii "upgrade", ascii "log:WSOPEN", ascii "websocketSession", ascii "readMessage",
         ascii "actionHandler:ping", ascii "writeMessage", ascii "log:WSACTION",
         ascii "log:WSCLOSE"] ∧
    (∃ p, doWebsocketAction socketEnv (socketWith (ascii "ping") 0 nilMapHandler) (ascii "ping")
        (RegisterActionWithPriority none 0 0 (some nilMapHandler)) (getRequest (ascii "/ws"))
        (some [(ascii "action", .ofString (ascii "ping"))]) .invalid (stateWith [])
      = (.error p, (stateWith []).emit (.actionHandler (ascii "ping") []))) ∧
    (ServeHTTP (sessionEnv socketEnv [actionMessage (ascii "ping")]
        (socketWith (ascii "ping") 0 nilMapHandler)) (getRequest (ascii "/ws"))
        response0 []).st.trace.map Event.label
      = [ascii "upgrade", ascii "log:WSOPEN", ascii "websocketSession", ascii "readMessage",
         ascii "actionHandler:ping", ascii "logError", ascii "log:PANIC"] :=
  ⟨(doWebsocketAction_envelope socketEnv (socketWith (ascii "ping") 0 pongHandler) (ascii "ping")
      (RegisterActionWithPriority none 0 0 (some pongHandler)) (getRequest (ascii "/ws"))
      (some [(ascii "action", .ofString (ascii "ping"))]) .invalid (stateWith []) []
      (.ofString (ascii "pong"))
      [.map .iface [(ascii "ok", .iface (.scalar (ascii "bool") (ascii "true")))]]
      rfl rfl rfl).2.1
      [(ascii "ok", .scalar (ascii "bool") (ascii "true"))]
      (ascii "\x7b\"ok\":true,\"action\":\"pong\"\x7d")
      (Or.inl ⟨_, rfl, rfl⟩) rfl,
    rfl,
    (doWebsocketAction_envelope socketEnv (socketWith (ascii "ping") 0 nilMapHandler)
      (ascii "ping") (RegisterActionWithPriority none 0 0 (some nilMapHandler))
      (getRequest (ascii "/ws")) (some [(ascii "action", .ofString (ascii "ping"))]) .invalid
      (stateWith []) [] (.nilMap .iface) [] rfl rfl rfl).2.2 (Or.inr (Or.inl rfl)),
    rfl⟩

/-! ## The message loop -/

theorem handleMessage_of_decode (env : Env) (ws : websocketServiceType) (request : Request)
    (authLevel : Int) (sess : GoValue) (msg : GoValue) (st st0 : St) (actionName : GoString)
    (messageData : Option GoMap)
    (hdec : decodeMessage env ws request msg st = (.ok (actionName, messageData), st0)) :
    handleMessage env ws request authLevel sess msg st
      = dispatchAction env ws request authLevel sess actionName messageData st0 := by
  simp only [handleMessage, hdec]

theorem messageLoop_cons_of_none (env : Env) (ws : websocketServiceType) (request : Request)
    (authLevel : Int) (sess : GoValue) (msg : GoValue) (rest : List GoValue) (st st1 : St)
    (h : handleMessage env ws request authLevel sess msg (st.emit (.readMessage msg)) = (none, st1)) :
    messageLoop env ws request authLevel sess (msg :: rest) st
      = messageLoop env ws request authLevel sess rest st1 := by
  simp only [messageLoop, h]

theorem dispatchAction_admitted (env : Env) (ws : websocketServiceType) (request : Request)
    (authLevel : Int) (sess : GoValue) (actionName : GoString) (messageData : Option GoMap)
    (action : websocketActionType) (st st1 : St)
    (hact : lookupAction ws actionName = some action)
    (hadm : ActionAdmitted env request sess actionName action messageData st st1) :
    dispatchAction env ws request authLevel sess actionName messageData st
      = runAction env ws request authLevel sess actionName action messageData st1 := by
  unfold dispatchAction
  rw [hact]
  rcases hadm with ⟨hnone, hst⟩ | ⟨hle, hst⟩ | ⟨checker, hsome, hpos, hok, hst⟩
  · subst hst
    simp only [hnone]
  · subst hst
    have hnot : ¬ action.authLevel > 0 := not_lt.mpr hle
    cases hc : env.webSocketActionAuthChecker with
    | none => rfl
    | some checker => simp only [hnot, if_false]
  · subst hst
    simp only [hsome, hpos, gt_iff_lt, if_true, hok]

/-- C11: a message on which the decoder returns an error is, once the error is
logged, not skipped: the turn goes on as for a decoded message, dispatching the
action name and the data that the decoder returned with the error. -/
theorem handleMessage_decode_error (env : Env) (ws : websocketServiceType) (request : Request)
    (authLevel : Int) (sess : GoValue) (msg : GoValue) (st : St)
    (decoder : GoValue → GoString × Option GoMap × Option GoString) (err message ip : GoString)
    (hdec : ws.decoder = some decoder) (herr : (decoder msg).2.2 = some err)
    (hmsg : first1024 (env.uString msg) = .ok message) (hip : getRealIp request = .ok ip) :
    handleMessage env ws request authLevel sess msg st
      = dispatchAction env ws request authLevel sess (decoder msg).1 (decoder msg).2.1
          (st.emit (.loggerError err message)) := by
  apply handleMessage_of_decode
  simp only [decodeMessage, hdec, herr, hmsg, hip]

set_option maxRecDepth 20000 in
/-- C11 on a connection whose decoder fails on every message, with an action
registered under the empty name: the message is logged as an error and then
handled by that action, which writes its reply; when the decoder returns no data
with the error, the turn panics after the handler has run and the next message
is not read. -/
theorem handleMessage_decode_error_witness :
    handleMessage socketEnv (failingDecoderSocket pongHandler (some [])) (getRequest (ascii "/ws"))
        0 .invalid longMessage (stateWith [])
      = dispatchAction socketEnv (failingDecoderSocket pongHandler (some []))
          (getRequest (ascii "/ws")) 0 .invalid [] (some [])
          ((stateWith []).emit (.loggerError (ascii "bad message") (List.replicate 1024 120))) ∧
    (ServeHTTP (sessionEnv socketEnv [longMessage, longMessage]
        (failingDecoderSocket pongHandler (some []))) (getRequest (ascii "/ws"))
        response0 []).st.trace.map Event.label
      = [ascii "upgrade", ascii "log:WSOPEN", ascii "websocketSession",
         ascii "readMessage", ascii "loggerError", ascii "actionHandler:", ascii "writeMessage",
         ascii "log:WSACTION",
         ascii "readMessage", ascii "loggerError", ascii "actionHandler:", ascii "writeMessage",
         ascii "log:WSACTION", ascii "log:WSCLOSE"] ∧
    (ServeHTTP (sessionEnv socketEnv [longMessage, longMessage]
        (failingDecoderSocket pongHandler none)) (getRequest (ascii "/ws"))
        response0 []).st.trace.map Event.label
      = [ascii "upgrade", ascii "log:WSOPEN", ascii "websocketSession",
         ascii "readMessage", ascii "loggerError", ascii "actionHandler:", ascii "writeMessage",
         ascii "logError", ascii "log:PANIC"] :=
  ⟨handleMessage_decode_error socketEnv (failingDecoderSocket pongHandler (some []))
      (getRequest (ascii "/ws")) 0 .invalid longMessage (stateWith []) _
      (ascii "bad message") (List.replicate 1024 120) (ascii "127.0.0.1") rfl rfl
      (by simp [first1024, socketEnv, env0, textOf, longMessage, GoValue.ofString]) rfl,
    rfl, rfl⟩

/-! ## Failed replies -/

/-- C12, amended: when serializing or writing the reply of an action fails
(`doWebsocketAction` returns an error) and the record can be emitted, the turn
logs one record tagged WSACTIONERROR, none when logging is suppressed, and the
loop does not end: it goes on with the next message from the state the record
left. The loop ends when the messages are exhausted; the session then goes on
with the close handler: without one, WSCLOSE is logged; with one whose parameters
are bound and whose call returns, the handler is invoked and WSCLOSE is logged
after it; with one whose binding or call panics, the session ends with that panic
and WSCLOSE is not logged. -/
theorem messageLoop_action_error (env : Env) (ws : websocketServiceType) (request : Request)
    (authLevel : Int) (sess : GoValue) (msg : GoValue) (rest : List GoValue) (st st0 st1 st2 : St)
    (actionName : GoString) (messageData : Option GoMap) (action : websocketActionType)
    (r : ActionResult) (e : GoString) (logInMsg logOutMsg : GoValue)
    (hdec : decodeMessage env ws request msg (st.emit (.readMessage msg))
      = (.ok (actionName, messageData), st0))
    (hact : lookupAction ws actionName = some action)
    (hadm : ActionAdmitted env request sess actionName action messageData st0 st1)
    (hrun : doWebsocketAction env ws actionName action request messageData sess st1 = (.ok r, st2))
    (herr : r.err = some e)
    (hin : logableMessage env (ValueOfData messageData) = .ok logInMsg)
    (hout : logableMessage env r.outData = .ok logOutMsg)
    (hlog : (writeLog env (ascii "WSACTIONERROR") .invalid r.outLen request st2 authLevel
      (actionInfo actionName logInMsg r.outAction logOutMsg ++
        [(ascii "error", .ofString e)])).1 = none) :
    messageLoop env ws request authLevel sess (msg :: rest) st
      = messageLoop env ws request authLevel sess rest
          (writeLog env (ascii "WSACTIONERROR") .invalid r.outLen request st2 authLevel
            (actionInfo actionName logInMsg r.outAction logOutMsg ++
              [(ascii "error", .ofString e)])).2 ∧
    (logSuppressed env request →
      (writeLog env (ascii "WSACTIONERROR") .invalid r.outLen request st2 authLevel
        (actionInfo actionName logInMsg r.outAction logOutMsg ++
          [(ascii "error", .ofString e)])).2 = st2) ∧
    (¬ logSuppressed env request →
      ∃ entry,
        (writeLog env (ascii "WSACTIONERROR") .invalid r.outLen request st2 authLevel
          (actionInfo actionName logInMsg r.outAction logOutMsg ++
            [(ascii "error", .ofString e)])).2.trace = st2.trace ++ [.log entry] ∧
        entry.logName = ascii "WSACTIONERROR") ∧
    (∀ st3, messageLoop env ws request authLevel sess [] st3 = (none, st3)) ∧
    (∀ messages st00 st0 st3, openWebsocket env ws st00 = (.ok sess, st0) →
      messageLoop env ws request authLevel sess messages st0 = (none, st3) →
      websocketSession env messages authLevel ws request st00
        = closeSession env ws request authLevel sess st3) ∧
    (∀ st3, ws.closeFunc = none →
      closeSession env ws request authLevel sess st3
        = writeLog env (ascii "WSCLOSE") .invalid 0 request st3 authLevel []) ∧
    (∀ st3 f closeParms outs, ws.closeFunc = some f →
      bindCloseParms env ws sess = .ok closeParms → Call (some f) closeParms = .ok outs →
      closeSession env ws request authLevel sess st3
        = writeLog env (ascii "WSCLOSE") .invalid 0 request
            (st3.emit (.closeHandler closeParms)) authLevel []) ∧
    (∀ st3 f p, ws.closeFunc = some f →
      (bindCloseParms env ws sess = .error p ∨
        ∃ closeParms, bindCloseParms env ws sess = .ok closeParms ∧
          Call (some f) closeParms = .error p) →
      (closeSession env ws request authLevel sess st3).1 = some p ∧
      logEntries (closeSession env ws request authLevel sess st3).2.trace
        = logEntries st3.trace) := by
  obtain ⟨_, _, hsup, _, hrec⟩ := writeLog_spec env (ascii "WSACTIONERROR") .invalid r.outLen
    request st2 authLevel
    (actionInfo actionName logInMsg r.outAction logOutMsg ++ [(ascii "error", .ofString e)])
  refine ⟨?_, ?_, ?_, ?_, ?_, ?_, ?_, ?_⟩
  · apply messageLoop_cons_of_none
    rw [handleMessage_of_decode env ws request authLevel sess msg _ st0 actionName messageData hdec,
      dispatchAction_admitted env ws request authLevel sess actionName messageData action st0 st1
        hact hadm]
    simp only [runAction, hrun, hin, hout, herr]
    exact Prod.ext hlog rfl
  · intro hs
    rw [hsup hs]
  · intro hs
    obtain ⟨entry, htr, hname, _⟩ := hrec hs hlog
    exact ⟨entry, htr, hname⟩
  · intro st3
    rfl
  · intro messages st00 st0 st3 hopen hloop
    simp only [websocketSession, hopen, hloop]
  · intro st3 hnone
    simp only [closeSession, closeWebsocket, hnone]
  · intro st3 f closeParms outs hsome hbind hcall
    have hafter := afterCall_of_Call (some f) closeParms (.closeHandler closeParms) st3 outs hcall
    simp only [closeSession, closeWebsocket, hsome, hbind, hcall, hafter]
  · intro st3 f p hsome hfail
    rcases hfail with hbind | ⟨closeParms, hbind, hcall⟩
    · have hclose : closeSession env ws request authLevel sess st3 = (some p, st3) := by
        simp only [closeSession, closeWebsocket, hsome, hbind]
      rw [hclose]
      exact ⟨rfl, rfl⟩
    · have hclose : closeSession env ws request authLevel sess st3
          = (some p, afterCall (some f) closeParms (.closeHandler closeParms) st3) := by
        simp only [closeSession, closeWebsocket, hsome, hbind, hcall]
      rw [hclose]
      refine ⟨rfl, ?_⟩
      unfold afterCall
      simp only
      split
      · simp [St.emit, logEntries, List.filterMap_append]
      · rfl

/-- C12 is false as stated: on a connection whose `json.Marshal` fails, the
reply of `ping` cannot be serialized and WSACTIONERROR is logged, and the second
`ping` the client sends is read and handled as well; the connection is closed
when the client stops sending. -/
theorem messageLoop_reads_after_error :
    (ServeHTTP (sessionEnv brokenJsonEnv [actionMessage (ascii "ping"), actionMessage (ascii "ping")]
        (socketWith (ascii "ping") 0 pongHandler)) (getRequest (ascii "/ws"))
        response0 []).st.trace.map Event.label
      = [ascii "upgrade", ascii "log:WSOPEN", ascii "websocketSession",
         ascii "readMessage", ascii "actionHandler:ping", ascii "log:WSACTIONERROR",
         ascii "readMessage", ascii "actionHandler:ping", ascii "log:WSACTIONERROR",
         ascii "log:WSCLOSE"] :=
  rfl

/-- C12 amended, on the connection whose `json.Marshal` fails: after the failed
reply of the first `ping` the loop goes on with the second, from the state that
holds the WSACTIONERROR record. -/
theorem messageLoop_action_error_witness :
    ∃ st2 : St,
      messageLoop brokenJsonEnv (socketWith (ascii "ping") 0 pongHandler) (getRequest (ascii "/ws"))
          0 .invalid [actionMessage (ascii "ping"), actionMessage (ascii "ping")] (stateWith [])
        = messageLoop brokenJsonEnv (socketWith (ascii "ping") 0 pongHandler)
            (getRequest (ascii "/ws")) 0 .invalid [actionMessage (ascii "ping")] st2 ∧
      st2.trace.map Event.label
        = [ascii "readMessage", ascii "actionHandler:ping", ascii "log:WSACTIONERROR"] :=
  ⟨_,
    (messageLoop_action_error brokenJsonEnv (socketWith (ascii "ping") 0 pongHandler)
      (getRequest (ascii "/ws")) 0 .invalid (actionMessage (ascii "ping"))
      [actionMessage (ascii "ping")] (stateWith [])
      ((stateWith []).emit (.readMessage (actionMessage (ascii "ping"))))
      ((stateWith []).emit (.readMessage (actionMessage (ascii "ping"))))
      (((stateWith []).emit (.readMessage (actionMessage (ascii "ping")))).emit
        (.actionHandler (ascii "ping") []))
      (ascii "ping") (some [(ascii "action", .ofString (ascii "ping"))])
      (RegisterActionWithPriority none 0 0 (some pongHandler))
      { outAction := ascii "pong"
        outData := ValueOfMap [(ascii "ok", .scalar (ascii "bool") (ascii "true")),
          (ascii "action", .ofString (ascii "pong"))]
        outLen := 0
        err := some (ascii "json: unsupported type") }
      (ascii "json: unsupported type")
      (.map .iface [(ascii "action", .iface (.ofString (ascii "ping")))])
      (.map .iface [(ascii "ok", .iface (.scalar (ascii "bool") (ascii "true"))),
        (ascii "action", .iface (.ofString (ascii "pong")))])
      rfl rfl (Or.inl ⟨rfl, rfl⟩) rfl rfl rfl rfl rfl).1,
    rfl⟩

/-! ## Authorization of actions -/

/-- With an action checker installed, for a message that selects an action of
level above 0: unless the checker returns true, the turn adds nothing but the
call of the checker and a record tagged WSREJECT, so the handler is not invoked;
when the checker returns false, the message data can be sanitized and the record
can be emitted, the status is set to 403, exactly one record tagged WSREJECT is
logged, none when logging is suppressed, and the loop goes on with the next
message. -/
theorem messageLoop_action_auth (env : Env) (ws : websocketServiceType) (request : Request)
    (authLevel : Int) (sess : GoValue) (msg : GoValue) (rest : List GoValue) (st st0 : St)
    (actionName : GoString) (messageData : Option GoMap) (action : websocketActionType)
    (checker : Int → GoString → GoString → Option GoMap → Request → GoValue → Except GoValue Bool)
    (hdec : decodeMessage env ws request msg (st.emit (.readMessage msg))
      = (.ok (actionName, messageData), st0))
    (hact : lookupAction ws actionName = some action) (hpos : 0 < action.authLevel)
    (hchk : env.webSocketActionAuthChecker = some checker) :
    (checker action.authLevel request.RequestURI actionName messageData request sess ≠ .ok true →
      Extends
        (fun e => e = .actionAuthChecker action.authLevel actionName ∨
          ∃ entry, e = .log entry ∧ entry.logName = ascii "WSREJECT")
        st0 (handleMessage env ws request authLevel sess msg (st.emit (.readMessage msg))).2) ∧
    (checker action.authLevel request.RequestURI actionName messageData request sess = .ok false →
      ∀ logInMsg, logableMessage env (ValueOfData messageData) = .ok logInMsg →
      (writeLog env (ascii "WSREJECT") .invalid 0 request
        (st0.emit (.actionAuthChecker action.authLevel actionName)) authLevel
        [(ascii "inAction", .ofString actionName), (ascii "inMessage", logInMsg)]).1 = none →
      ∃ st1,
        messageLoop env ws request authLevel sess (msg :: rest) st
          = messageLoop env ws request authLevel sess rest st1 ∧
        st1.response = st0.response.WriteHeader 403 ∧
        (logSuppressed env request →
          st1.trace = st0.trace ++ [.actionAuthChecker action.authLevel actionName]) ∧
        (¬ logSuppressed env request →
          ∃ entry,
            st1.trace = st0.trace ++ [.actionAuthChecker action.authLevel actionName, .log entry] ∧
            entry.logName = ascii "WSREJECT" ∧ entry.status = st0.response.status)) := by
  have hhandle := handleMessage_of_decode env ws request authLevel sess msg _ st0 actionName
    messageData hdec
  have hdisp : dispatchAction env ws request authLevel sess actionName messageData st0
      = match checker action.authLevel request.RequestURI actionName messageData request sess with
        | .error p => (some p, st0.emit (.actionAuthChecker action.authLevel actionName))
        | .ok false =>
          rejectAction env request authLevel actionName messageData
            (st0.emit (.actionAuthChecker action.authLevel actionName))
        | .ok true =>
          runAction env ws request authLevel sess actionName action messageData
            (st0.emit (.actionAuthChecker action.authLevel actionName)) := by
    simp only [dispatchAction, hact, hchk, hpos, gt_iff_lt, if_true]
  constructor
  · intro hne
    rw [hhandle, hdisp]
    cases hc : checker action.authLevel request.RequestURI actionName messageData request sess with
    | error p => exact Extends.emit _ _ _ (Or.inl rfl)
    | ok b =>
      cases b with
      | true => exact absurd hc hne
      | false =>
        have hemit : Extends
            (fun e => e = .actionAuthChecker action.authLevel actionName ∨
              ∃ entry, e = .log entry ∧ entry.logName = ascii "WSREJECT")
            st0 (st0.emit (.actionAuthChecker action.authLevel actionName)) :=
          Extends.emit _ _ _ (Or.inl rfl)
        show Extends _ st0 (rejectAction env request authLevel actionName messageData
          (st0.emit (.actionAuthChecker action.authLevel actionName))).2
        unfold rejectAction
        cases hin : logableMessage env (ValueOfData messageData) with
        | error p => exact hemit
        | ok logInMsg =>
          have hw := writeLog_extends_named env (ascii "WSREJECT") .invalid 0 request
            (st0.emit (.actionAuthChecker action.authLevel actionName)) authLevel
            [(ascii "inAction", .ofString actionName), (ascii "inMessage", logInMsg)]
          have hw2 := Extends.trans hemit (hw.mono (fun e he => Or.inr he))
          simp only
          split
          · next p st1 heq =>
            rw [heq] at hw2
            exact hw2
          · next st1 heq =>
            rw [heq] at hw2
            exact hw2.of_trace_eq rfl
  · intro hfalse logInMsg hin hlog
    obtain ⟨hresp, _, hsup, _, hrec⟩ := writeLog_spec env (ascii "WSREJECT") .invalid 0 request
      (st0.emit (.actionAuthChecker action.authLevel actionName)) authLevel
      [(ascii "inAction", .ofString actionName), (ascii "inMessage", logInMsg)]
    refine ⟨{ (writeLog env (ascii "WSREJECT") .invalid 0 request
        (st0.emit (.actionAuthChecker action.authLevel actionName)) authLevel
        [(ascii "inAction", .ofString actionName), (ascii "inMessage", logInMsg)]).2 with
        response := (writeLog env (ascii "WSREJECT") .invalid 0 request
          (st0.emit (.actionAuthChecker action.authLevel actionName)) authLevel
          [(ascii "inAction", .ofString actionName),
            (ascii "inMessage", logInMsg)]).2.response.WriteHeader 403 }, ?_, ?_, ?_, ?_⟩
    · apply messageLoop_cons_of_none
      rw [hhandle, hdisp, hfalse]
      simp only [rejectAction, hin]
      split
      · next p st1 heq =>
        rw [heq] at hlog
        cases hlog
      · next st1 heq =>
        rw [heq]
    · show ((writeLog env (ascii "WSREJECT") .invalid 0 request _ authLevel _).2.response).WriteHeader
        403 = _
      rw [hresp]
      rfl
    · intro hs
      show (writeLog env (ascii "WSREJECT") .invalid 0 request _ authLevel _).2.trace = _
      rw [hsup hs]
      rfl
    · intro hs
      obtain ⟨entry, htr, hname, hstatus, _⟩ := hrec hs hlog
      refine ⟨entry, ?_, hname, ?_⟩
      · show (writeLog env (ascii "WSREJECT") .invalid 0 request _ authLevel _).2.trace = _
        rw [htr]
        simp [St.emit]
      · rw [hstatus]
        rfl

/-- C13: when no action checker was installed, the guard of line 344 skips the
check: a message that selects an action is handed to the handler of the action
whatever the level of the action is. -/
theorem dispatchAction_without_checker (env : Env) (ws : websocketServiceType)
    (request : Request) (authLevel : Int) (sess : GoValue) (actionName : GoString)
    (messageData : Option GoMap) (st : St) (action : websocketActionType)
    (hact : lookupAction ws actionName = some action)
    (hnone : env.webSocketActionAuthChecker = none) :
    dispatchAction env ws request authLevel sess actionName messageData st
      = runAction env ws request authLevel sess actionName action messageData st := by
  simp only [dispatchAction, hact, hnone]

/-- C13 on a connection for which no action checker was installed: the action
`ping`, registered at level 1, is run on the message `{"action":"ping"}` without
any check; its reply is written and WSACTION is logged. -/
theorem dispatchAction_without_checker_witness :
    socketEnv.webSocketActionAuthChecker.isNone = true ∧
    (lookupAction (socketWith (ascii "ping") 1 pongHandler) (ascii "ping")).map
      (fun a => a.authLevel) = some 1 ∧
    dispatchAction socketEnv (socketWith (ascii "ping") 1 pongHandler) (getRequest (ascii "/ws"))
        0 .invalid (ascii "ping") (some [(ascii "action", .ofString (ascii "ping"))])
        (stateWith [])
      = runAction socketEnv (socketWith (ascii "ping") 1 pongHandler) (getRequest (ascii "/ws"))
          0 .invalid (ascii "ping") (RegisterActionWithPriority none 1 0 (some pongHandler))
          (some [(ascii "action", .ofString (ascii "ping"))]) (stateWith []) ∧
    (ServeHTTP (sessionEnv socketEnv [actionMessage (ascii "ping")]
        (socketWith (ascii "ping") 1 pongHandler)) (getRequest (ascii "/ws"))
        response0 []).st.trace.map Event.label
      = [ascii "upgrade", ascii "log:WSOPEN", ascii "websocketSession", ascii "readMessage",
         ascii "actionHandler:ping", ascii "writeMessage", ascii "log:WSACTION",
         ascii "log:WSCLOSE"] :=
  ⟨rfl, rfl,
    dispatchAction_without_checker socketEnv (socketWith (ascii "ping") 1 pongHandler)
      (getRequest (ascii "/ws")) 0 .invalid (ascii "ping")
      (some [(ascii "action", .ofString (ascii "ping"))]) (stateWith [])
      (RegisterActionWithPriority none 1 0 (some pongHandler)) rfl rfl,
    rfl⟩

/-- On a connection whose checker rejects every message, the `ping` of level 1
is rejected with status 403 and a WSREJECT record, its handler does not run, and
the second message is read. -/
theorem messageLoop_action_auth_witness :
    (∃ st1,
      messageLoop guardedEnv (socketWith (ascii "ping") 1 pongHandler) (getRequest (ascii "/ws"))
          0 .invalid [actionMessage (ascii "ping"), actionMessage (ascii "ping")] (stateWith [])
        = messageLoop guardedEnv (socketWith (ascii "ping") 1 pongHandler)
            (getRequest (ascii "/ws")) 0 .invalid [actionMessage (ascii "ping")] st1 ∧
      st1.response = ((stateWith []).emit
        (.readMessage (actionMessage (ascii "ping")))).response.WriteHeader 403 ∧
      (logSuppressed guardedEnv (getRequest (ascii "/ws")) →
        st1.trace = ((stateWith []).emit (.readMessage (actionMessage (ascii "ping")))).trace ++
          [.actionAuthChecker 1 (ascii "ping")]) ∧
      (¬ logSuppressed guardedEnv (getRequest (ascii "/ws")) →
        ∃ entry,
          st1.trace = ((stateWith []).emit (.readMessage (actionMessage (ascii "ping")))).trace ++
            [.actionAuthChecker 1 (ascii "ping"), .log entry] ∧
          entry.logName = ascii "WSREJECT" ∧
          entry.status = ((stateWith []).emit
            (.readMessage (actionMessage (ascii "ping")))).response.status)) ∧
    (ServeHTTP (sessionEnv guardedEnv [actionMessage (ascii "ping"), actionMessage (ascii "ping")]
        (socketWith (ascii "ping") 1 pongHandler)) (getRequest (ascii "/ws"))
        response0 []).st.trace.map Event.label
      = [ascii "upgrade", ascii "log:WSOPEN", ascii "websocketSession",
         ascii "readMessage", ascii "actionAuthChecker", ascii "log:WSREJECT",
         ascii "readMessage", ascii "actionAuthChecker", ascii "log:WSREJECT",
         ascii "log:WSCLOSE"] :=
  ⟨(messageLoop_action_auth guardedEnv (socketWith (ascii "ping") 1 pongHandler)
      (getRequest (ascii "/ws")) 0 .invalid (actionMessage (ascii "ping"))
      [actionMessage (ascii "ping")] (stateWith [])
      ((stateWith []).emit (.readMessage (actionMessage (ascii "ping"))))
      (ascii "ping") (some [(ascii "action", .ofString (ascii "ping"))])
      (RegisterActionWithPriority none 1 0 (some pongHandler))
      (fun _ _ _ _ _ _ => .ok false) rfl rfl (by decide) rfl).2 rfl
      (.map .iface [(ascii "action", .iface (.ofString (ascii "ping")))]) rfl rfl,
    rfl⟩

/-! ## Length brackets of the mask -/

/-- The length of a masked value depends on the bracket of the length of the
string form only: 9, 7, 5 or 2. -/
theorem encryptField_length (uString : GoValue → GoString) (value : GoValue) :
    (encryptField uString value).length
      = if (uString value).length > 12 then 9
        else if (uString value).length > 8 then 7
        else if (uString value).length > 4 then 5 else 2 := by
  unfold encryptField
  simp only
  split
  · simp only [List.length_append, List.length_take, List.length_drop, List.length_cons,
      List.length_nil]
    omega
  · split
    · simp only [List.length_append, List.length_take, List.length_drop, List.length_cons,
        List.length_nil]
      omega
    · split
      · simp only [List.length_append, List.length_take, List.length_drop, List.length_cons,
          List.length_nil]
        omega
      · split
        · simp only [List.length_append, List.length_take, List.length_cons, List.length_nil]
          omega
        · rfl

theorem mask_length (v : GoString) :
    (mask v).length
      = if v.length > 12 then 9 else if v.length > 8 then 7 else if v.length > 4 then 5 else 2 :=
  encryptField_length textOf (.ofString v)

/-- C22, amended: for a string of at most 12 bytes the mask of the mask is in
the length bracket of the mask; for a longer string the mask has 9 bytes and the
mask of the mask has 7, which are different brackets; from the second mask on the
bracket no longer changes. -/
theorem mask_bracket (v : GoString) :
    (v.length ≤ 12 → lengthBracket (mask (mask v)).length = lengthBracket (mask v).length) ∧
    (12 < v.length →
      (mask v).length = 9 ∧ (mask (mask v)).length = 7 ∧
      lengthBracket (mask (mask v)).length ≠ lengthBracket (mask v).length) ∧
    lengthBracket (mask (mask (mask v))).length = lengthBracket (mask (mask v)).length := by
  have h1 := mask_length v
  have h2 := mask_length (mask v)
  have h3 := mask_length (mask (mask v))
  have hshort : v.length ≤ 12 →
      (mask v).length = 7 ∨ (mask v).length = 5 ∨ (mask v).length = 2 := by
    intro hle
    rw [h1, if_neg (by omega)]
    by_cases h8 : v.length > 8
    · exact Or.inl (by rw [if_pos h8])
    · rw [if_neg h8]
      by_cases h4 : v.length > 4
      · exact Or.inr (Or.inl (by rw [if_pos h4]))
      · exact Or.inr (Or.inr (by rw [if_neg h4]))
  have hlong : 12 < v.length → (mask v).length = 9 := by
    intro hgt
    rw [h1, if_pos hgt]
  have hall : (mask v).length = 9 ∨ (mask v).length = 7 ∨ (mask v).length = 5 ∨
      (mask v).length = 2 := by
    by_cases hgt : 12 < v.length
    · exact Or.inl (hlong hgt)
    · exact Or.inr (hshort (by omega))
  refine ⟨?_, ?_, ?_⟩
  · intro hle
    rcases hshort hle with e | e | e <;>
    · rw [h2, e]
      decide
  · intro hgt
    have e1 := hlong hgt
    have e2 : (mask (mask v)).length = 7 := by
      rw [h2, e1]
      rfl
    refine ⟨e1, e2, ?_⟩
    rw [e1, e2]
    decide
  · rcases hall with e | e | e | e <;>
    · rw [h3, h2, e]
      decide

/-- C22 is false as stated: the mask of `abcdefghijklmno` is `abc***mno`, in
the bracket `8 < L ≤ 12`, and the mask of that is `ab***no`, in the bracket
`4 < L ≤ 8`. -/
theorem mask_leaves_bracket :
    mask (ascii "abcdefghijklmno") = ascii "abc***mno" ∧
    mask (mask (ascii "abcdefghijklmno")) = ascii "ab***no" ∧
    lengthBracket (mask (ascii "abcdefghijklmno")).length = 3 ∧
    lengthBracket (mask (mask (ascii "abcdefghijklmno"))).length = 2 := by
  refine ⟨?_, ?_, ?_, ?_⟩ <;> decide

/-- C22 amended, on `abcdefghijkl` (12 bytes, masked to `ab***kl` and then to
`a***l`, both in the bracket `4 < L ≤ 8`) and on `abcdefghijklmno` (15 bytes). -/
theorem mask_bracket_witness :
    (mask (ascii "abcdefghijkl") = ascii "ab***kl" ∧
      mask (mask (ascii "abcdefghijkl")) = ascii "a***l") ∧
    lengthBracket (mask (mask (ascii "abcdefghijkl"))).length
      = lengthBracket (mask (ascii "abcdefghijkl")).length ∧
    ((mask (ascii "abcdefghijklmno")).length = 9 ∧
      (mask (mask (ascii "abcdefghijklmno"))).length = 7 ∧
      lengthBracket (mask (mask (ascii "abcdefghijklmno"))).length
        ≠ lengthBracket (mask (ascii "abcdefghijklmno")).length) :=
  ⟨⟨by decide, by decide⟩,
    (mask_bracket (ascii "abcdefghijkl")).1 (by decide),
    (mask_bracket (ascii "abcdefghijklmno")).2.1 (by decide)⟩

/-! ## The client address -/

/-- C25: `getRealIp` panics on every request whose `RemoteAddr` has no `:`,
whatever the client-ip header holds, because the slice of `RemoteAddr` is taken
before the header is looked at; when `RemoteAddr` has a `:` it returns the
client-ip header when that is not empty and otherwise the part of `RemoteAddr`
before the first `:`. -/
theorem getRealIp_eager_slice (request : Request) :
    (IndexByte request.RemoteAddr 58 = none →
      getRealIp request = runtimePanic "slice bounds out of range [:-1]") ∧
    (∀ i, IndexByte request.RemoteAddr 58 = some i →
      getRealIp request
        = .ok (if Values.Get request.Header DiscoverHeaderClientIp ≠ [] then
            Values.Get request.Header DiscoverHeaderClientIp
          else request.RemoteAddr.take i)) := by
  constructor
  · intro h
    simp only [getRealIp, h]
  · intro i h
    simp only [getRealIp, h]
    split <;> rfl

/-- C25 on a request that carries the client-ip header `10.0.0.7` and whose
`RemoteAddr` is `@`: the call panics instead of returning the header. -/
theorem getRealIp_eager_slice_witness :
    Values.Get socketPeerRequest.Header DiscoverHeaderClientIp = ascii "10.0.0.7" ∧
    getRealIp socketPeerRequest = runtimePanic "slice bounds out of range [:-1]" :=
  ⟨by decide, (getRealIp_eager_slice socketPeerRequest).1 (by decide)⟩

/-! ## Short messages on the decode-error path -/

/-- C26: when the decoder returns an error on a message whose string form has
fewer than 1024 bytes, the turn panics on the slice `[0:1024]`: the error is not
logged and nothing is dispatched. -/
theorem decodeMessage_short_message (env : Env) (ws : websocketServiceType) (request : Request)
    (authLevel : Int) (sess : GoValue) (msg : GoValue) (st : St)
    (decoder : GoValue → GoString × Option GoMap × Option GoString) (err : GoString)
    (hdec : ws.decoder = some decoder) (herr : (decoder msg).2.2 = some err)
    (hshort : (env.uString msg).length < 1024) :
    decodeMessage env ws request msg st
      = (runtimePanic "slice bounds out of range [:1024]", st) ∧
    handleMessage env ws request authLevel sess msg st
      = (some (.scalar (ascii "runtime.Error") (ascii "slice bounds out of range [:1024]")), st) := by
  have hnot : ¬ 1024 ≤ (env.uString msg).length := by omega
  have h1 : decodeMessage env ws request msg st
      = (runtimePanic "slice bounds out of range [:1024]", st) := by
    simp only [decodeMessage, hdec, herr, first1024, hnot, if_false, runtimePanic]
  refine ⟨h1, ?_⟩
  simp only [handleMessage, h1, runtimePanic]

/-- C26 on a connection whose decoder fails on every message: the message
`hello` makes the turn panic, and the request ends with a PANIC record, without
the error record, a dispatch, the close handler or WSCLOSE. -/
theorem decodeMessage_short_message_witness :
    handleMessage socketEnv (failingDecoderSocket pongHandler (some [])) (getRequest (ascii "/ws"))
        0 .invalid (.ofString (ascii "hello")) (stateWith [])
      = (some (.scalar (ascii "runtime.Error") (ascii "slice bounds out of range [:1024]")),
         stateWith []) ∧
    (ServeHTTP (sessionEnv socketEnv [.ofString (ascii "hello"), .ofString (ascii "hello")]
        (failingDecoderSocket pongHandler (some []))) (getRequest (ascii "/ws"))
        response0 []).st.trace.map Event.label
      = [ascii "upgrade", ascii "log:WSOPEN", ascii "websocketSession", ascii "readMessage",
         ascii "logError", ascii "log:PANIC"] :=
  ⟨(decodeMessage_short_message socketEnv (failingDecoderSocket pongHandler (some []))
      (getRequest (ascii "/ws")) 0 .invalid (.ofString (ascii "hello")) (stateWith []) _
      (ascii "bad message") rfl rfl (by decide)).2,
    rfl⟩

/-! ## The client-ip header without a request id -/

theorem Values.Get_Set_self (h : Values) (k v : GoString) :
    Values.Get (Values.Set h k v) k = v := by
  induction h with
  | nil => simp [Values.Set, Values.Get]
  | cons kv rest ih =>
    obtain ⟨k1, vv⟩ := kv
    by_cases hk : k1 = k
    · simp [Values.Set, Values.Get, hk]
    · simp [Values.Set, Values.Get, hk, ih]

theorem Values.Get_Set_ne (h : Values) (k k1 v : GoString) (hne : k1 ≠ k) :
    Values.Get (Values.Set h k v) k1 = Values.Get h k1 := by
  induction h with
  | nil => simp [Values.Set, Values.Get, hne.symm]
  | cons kv rest ih =>
    obtain ⟨k2, vv⟩ := kv
    by_cases hk : k2 = k
    · subst hk
      simp [Values.Set, Values.Get, hne.symm]
    · by_cases hk1 : k2 = k1
      · subst hk1
        simp [Values.Set, Values.Get, hk]
      · simp [Values.Set, Values.Get, hk, hk1, ih]

theorem Values.Get_Del_self (h : Values) (k : GoString) :
    Values.Get (Values.Del h k) k = [] := by
  induction h with
  | nil => rfl
  | cons kv rest ih =>
    obtain ⟨k1, vv⟩ := kv
    by_cases hk : k1 = k
    · simpa [Values.Del, List.filter_cons, hk] using ih
    · have hstep : Values.Del ((k1, vv) :: rest) k = (k1, vv) :: Values.Del rest k := by
        simp [Values.Del, List.filter_cons, hk]
      rw [hstep]
      simp only [Values.Get, hk, if_false]
      exact ih

/-- A request without request id, normalized without
`AcceptXRealIpWithoutRequestId`: the client-ip header becomes the part of
`RemoteAddr` before its first `:`. -/
theorem normalizeIdentity_of_no_id (Config : ConfigType) (uniqueId : GoString)
    (request : Request) (i : Nat)
    (hid : Values.Get request.Header DiscoverHeaderRequestId = [])
    (hcfg : Config.AcceptXRealIpWithoutRequestId = false)
    (haddr : IndexByte request.RemoteAddr 58 = some i) :
    ∃ r, normalizeIdentity Config uniqueId request = .ok r ∧
      Values.Get r.Header DiscoverHeaderClientIp = request.RemoteAddr.take i := by
  have hempty : ∀ h : Values,
      Values.Get (if Values.Get h DiscoverHeaderClientIp ≠ [] then
        Values.Del h DiscoverHeaderClientIp else h) DiscoverHeaderClientIp = [] := by
    intro h
    by_cases hc : Values.Get h DiscoverHeaderClientIp ≠ []
    · rw [if_pos hc]
      exact Values.Get_Del_self h _
    · rw [if_neg hc]
      exact not_not.mp hc
  have hip := hempty (Values.Set request.Header DiscoverHeaderRequestId uniqueId)
  simp only [normalizeIdentity, hid, hcfg, if_true, getRealIp, haddr, hip, ne_eq,
    not_true_eq_false, if_false]
  exact ⟨_, rfl, Values.Get_Set_self _ _ _⟩

/-- C21, amended: when `Config.AcceptXRealIpWithoutRequestId` is not set, every
two incoming requests without request id and with the same `RemoteAddr` (one
that has a `:`) leave identity normalization with the same client-ip header,
the part of `RemoteAddr` before its first `:`, whatever client-ip header each of
them carried. -/
theorem normalizeIdentity_ignores_client_ip (Config : ConfigType) (uniqueId1 uniqueId2 : GoString)
    (request1 request2 : Request) (i : Nat)
    (hid1 : Values.Get request1.Header DiscoverHeaderRequestId = [])
    (hid2 : Values.Get request2.Header DiscoverHeaderRequestId = [])
    (hcfg : Config.AcceptXRealIpWithoutRequestId = false)
    (hsame : request2.RemoteAddr = request1.RemoteAddr)
    (haddr : IndexByte request1.RemoteAddr 58 = some i) :
    ∃ r1 r2, normalizeIdentity Config uniqueId1 request1 = .ok r1 ∧
      normalizeIdentity Config uniqueId2 request2 = .ok r2 ∧
      Values.Get r1.Header DiscoverHeaderClientIp = request1.RemoteAddr.take i ∧
      Values.Get r2.Header DiscoverHeaderClientIp = request1.RemoteAddr.take i := by
  obtain ⟨r1, h1, e1⟩ := normalizeIdentity_of_no_id Config uniqueId1 request1 i hid1 hcfg haddr
  obtain ⟨r2, h2, e2⟩ := normalizeIdentity_of_no_id Config uniqueId2 request2 i hid2 hcfg
    (by rw [hsame]; exact haddr)
  exact ⟨r1, r2, h1, h2, e1, by rw [e2, hsame]⟩

/-- C21 is false as stated: with `Config.AcceptXRealIpWithoutRequestId` set, two
requests from `127.0.0.1:50000` without request id keep the client-ip headers
they came with, `10.0.0.7` and `10.0.0.8`. -/
theorem normalizeIdentity_keeps_client_ip :
    Values.Get (forwardedRequest (ascii "10.0.0.7")).Header DiscoverHeaderRequestId = [] ∧
    (normalizeIdentity acceptingConfig (ascii "id1") (forwardedRequest (ascii "10.0.0.7"))).map
        (fun r => Values.Get r.Header DiscoverHeaderClientIp)
      = .ok (ascii "10.0.0.7") ∧
    (normalizeIdentity acceptingConfig (ascii "id2") (forwardedRequest (ascii "10.0.0.8"))).map
        (fun r => Values.Get r.Header DiscoverHeaderClientIp)
      = .ok (ascii "10.0.0.8") :=
  ⟨by decide, rfl, rfl⟩

/-- C21 amended, on the same two requests with the default configuration: both
leave normalization with the client-ip header `127.0.0.1`. -/
theorem normalizeIdentity_ignores_client_ip_witness :
    ∃ r1 r2,
      normalizeIdentity env0.Config (ascii "id1") (forwardedRequest (ascii "10.0.0.7")) = .ok r1 ∧
      normalizeIdentity env0.Config (ascii "id2") (forwardedRequest (ascii "10.0.0.8")) = .ok r2 ∧
      Values.Get r1.Header DiscoverHeaderClientIp = ascii "127.0.0.1" ∧
      Values.Get r2.Header DiscoverHeaderClientIp = ascii "127.0.0.1" :=
  normalizeIdentity_ignores_client_ip env0.Config (ascii "id1") (ascii "id2")
    (forwardedRequest (ascii "10.0.0.7")) (forwardedRequest (ascii "10.0.0.8")) 9
    (by decide) (by decide) rfl rfl (by decide)

/-! ## The header snapshot of the log -/

theorem writeLog_logHeaders (env : Env) (logName : GoString) (result : GoValue) (outLen : Int)
    (request : Request) (st : St) (authLevel : Int) (extraInfo : GoMap)
    (hs : ¬ logSuppressed env request) :
    (writeLog env logName result outLen request st authLevel extraInfo).2.logHeaders
      = maskHeaders env st.logHeaders := by
  have hs1 : ¬ (env.Config.NoLogGets = true ∧ request.Method = ascii "GET") := hs
  unfold writeLog
  rw [if_neg hs1]
  simp only
  repeat' split
  all_goals rfl

theorem maskHeaders_iterate (env : Env) (n : Nat) (headers : List (GoString × GoString)) :
    (maskHeaders env)^[n] headers
      = headers.map (fun kv =>
          if requireEncryptField env.encryptLogFields kv.1 then (kv.1, maskedTimes env n kv.2)
          else kv) := by
  induction n generalizing headers with
  | zero => simp [maskedTimes]
  | succ n ih =>
    rw [Function.iterate_succ_apply, ih]
    simp only [maskHeaders, List.map_map]
    apply List.map_congr_left
    intro kv _
    by_cases hk : requireEncryptField env.encryptLogFields kv.1 = true
    · simp [hk, maskedTimes, Function.iterate_succ_apply]
    · simp [hk]

theorem logCalls_logHeaders (env : Env) (request : Request) (authLevel : Int)
    (calls : List (GoString × GoValue × Int × GoMap)) (st : St)
    (hs : ¬ logSuppressed env request) :
    (logCalls env request authLevel calls st).logHeaders
      = (maskHeaders env)^[calls.length] st.logHeaders := by
  induction calls generalizing st with
  | nil => rfl
  | cons c rest ih =>
    show (logCalls env request authLevel rest
      (writeLog env c.1 c.2.1 c.2.2.1 request st authLevel c.2.2.2).2).logHeaders = _
    rw [ih, writeLog_logHeaders env _ _ _ _ _ _ _ hs, List.length_cons,
      Function.iterate_succ_apply]

theorem bindOpenParms_registered (env : Env) (authLevel priority : Int) (path : GoString)
    (pathMatcher : GoString → List (List GoString)) (pathArgs : List GoString)
    (Upgrade : Request → Option GoString) (onOpen : FuncValue) (onClose : Option FuncValue)
    (decoder : Option (GoValue → GoString × Option GoMap × Option GoString))
    (encoder : Option (GoString → GoValue → GoValue)) (a h : GoString) (st : St)
    (hin : onOpen.In = [.struct a, .struct h])
    (hv1 : (env.Convert (ValueOfMap st.args) (.struct a)).IsValid = true)
    (hv2 : (env.Convert (ValueOfHeaders st.logHeaders) (.struct h)).IsValid = true) :
    bindOpenParms env
        (RegisterWebsocketWithPriority authLevel priority path pathMatcher pathArgs Upgrade
          (some onOpen) onClose decoder encoder) onOpen st
      = .ok [env.Convert (ValueOfMap st.args) (.struct a),
             env.Convert (ValueOfHeaders st.logHeaders) (.struct h)] := by
  cases onClose <;>
    simp [RegisterWebsocketWithPriority, hin, classifyOpen, GoType.isStruct, bindOpenParms,
      assignParm, assignRole, fillParms, fillParm, hv1, hv2, List.replicate]

/-- C27: a log call that is not suppressed replaces, in the header snapshot of
the caller, the value of every entry whose name is in the encrypt set by its
mask and keeps every other entry; so after `n` log calls on the same snapshot
such an entry holds the mask applied `n` times; and on a WebSocket connection the
session starts, after the WSOPEN record, with the masked snapshot, from which the
header parameter of an open handler `func(in A, headers H)` is converted. -/
theorem writeLog_masks_snapshot (env : Env) (request : Request) (authLevel : Int) (st : St)
    (hs : ¬ logSuppressed env request) :
    (∀ logName result outLen extraInfo,
      (writeLog env logName result outLen request st authLevel extraInfo).2.logHeaders
        = st.logHeaders.map (fun kv =>
            if requireEncryptField env.encryptLogFields kv.1 then
              (kv.1, encryptField env.uString (.ofString kv.2))
            else kv)) ∧
    (∀ calls : List (GoString × GoValue × Int × GoMap),
      (logCalls env request authLevel calls st).logHeaders
        = st.logHeaders.map (fun kv =>
            if requireEncryptField env.encryptLogFields kv.1 then
              (kv.1, maskedTimes env calls.length kv.2)
            else kv)) ∧
    (∀ ws st1, ws.Upgrade request = none →
      writeLog env (ascii "WSOPEN") .invalid 0 request (st.emit .upgrade) authLevel
        [(ascii "message", .ofString (ascii "OK"))] = (none, st1) →
      doWebsocketService env ws request authLevel st
        = env.websocketSession ws request (st1.emit .websocketSession) ∧
      (st1.emit .websocketSession).logHeaders = maskHeaders env st.logHeaders) ∧
    (∀ level priority path pathMatcher pathArgs Upgrade onOpen onClose decoder encoder a h
      (st1 : St),
      onOpen.In = [.struct a, .struct h] →
      (env.Convert (ValueOfMap st1.args) (.struct a)).IsValid = true →
      (env.Convert (ValueOfHeaders st1.logHeaders) (.struct h)).IsValid = true →
      bindOpenParms env
          (RegisterWebsocketWithPriority level priority path pathMatcher pathArgs Upgrade
            (some onOpen) onClose decoder encoder) onOpen st1
        = .ok [env.Convert (ValueOfMap st1.args) (.struct a),
               env.Convert (ValueOfHeaders st1.logHeaders) (.struct h)]) := by
  refine ⟨?_, ?_, ?_, ?_⟩
  · intro logName result outLen extraInfo
    rw [writeLog_logHeaders env _ _ _ _ _ _ _ hs]
    rfl
  · intro calls
    rw [logCalls_logHeaders env request authLevel calls st hs, maskHeaders_iterate]
  · intro ws st1 hup hlog
    constructor
    · simp only [doWebsocketService, hup, hlog]
    · have h := writeLog_logHeaders env (ascii "WSOPEN") .invalid 0 request (st.emit .upgrade)
        authLevel [(ascii "message", .ofString (ascii "OK"))] hs
      rw [hlog] at h
      exact h
  · intro level priority path pathMatcher pathArgs Upgrade onOpen onClose decoder encoder a h st1
      hin hv1 hv2
    exact bindOpenParms_registered env level priority path pathMatcher pathArgs Upgrade onOpen
      onClose decoder encoder a h st1 hin hv1 hv2

/-- C27 on a request with the header `Authorization: secret123456`, with
`authorization` in the encrypt set: one log call leaves `se***56` in the
snapshot, two leave `s***6`, and the open handler of a WebSocket service is
called, after WSOPEN, with the headers `Authorization: se***56`. -/
theorem writeLog_masks_snapshot_witness :
    (writeLog headerEnv (ascii "ACCESS") .invalid 0 (getRequest (ascii "/ws"))
        { stateWith [] with logHeaders := [(ascii "Authorization", ascii "secret123456"),
          (ascii "Accept", ascii "text/html")] } 0 []).2.logHeaders
      = [(ascii "Authorization", ascii "se***56"), (ascii "Accept", ascii "text/html")] ∧
    (logCalls headerEnv (getRequest (ascii "/ws")) 0
        [(ascii "WSOPEN", .invalid, 0, []), (ascii "WSCLOSE", .invalid, 0, [])]
        { stateWith [] with logHeaders := [(ascii "Authorization", ascii "secret123456"),
          (ascii "Accept", ascii "text/html")] }).logHeaders
      = [(ascii "Authorization", ascii "s***6"), (ascii "Accept", ascii "text/html")] ∧
    openCalls (ServeHTTP (sessionEnv headerEnv [] headerSocket) (getRequest (ascii "/ws"))
        response0 [(ascii "Authorization", ascii "secret123456"),
          (ascii "Accept", ascii "text/html")]).st.trace
      = [[.struct (ascii "Args") [],
          .struct (ascii "Headers")
            [(ascii "Authorization", .ofString (ascii "se***56")),
             (ascii "Accept", .ofString (ascii "text/html"))]]] :=
  ⟨(writeLog_masks_snapshot headerEnv (getRequest (ascii "/ws")) 0
      { stateWith [] with logHeaders := [(ascii "Authorization", ascii "secret123456"),
        (ascii "Accept", ascii "text/html")] }
      (by intro h; exact absurd h.1 (by decide))).1 (ascii "ACCESS") .invalid 0 [],
    rfl, rfl⟩

/-! ## The post-filter chain -/

theorem foldl_foldStep_done (request : Request) (filters : List OutFilter) (acc : FilterFold)
    (h : acc.stopped = true ∨ acc.panicked.isSome = true) :
    filters.foldl (foldStep request) acc = acc := by
  induction filters with
  | nil => rfl
  | cons filter rest ih =>
    rw [List.foldl_cons]
    have : foldStep request acc filter = acc := by
      unfold foldStep
      rw [if_pos h]
    rw [this, ih]

theorem outFilterEvents_succ (i n : Nat) :
    outFilterEvents i (n + 1) = Event.outFilter i :: outFilterEvents (i + 1) n := by
  unfold outFilterEvents
  rw [List.range_succ_eq_map]
  simp only [List.map_cons, List.map_map, Nat.add_zero, List.cons.injEq, true_and]
  apply List.map_congr_left
  intro j _
  simp only [Function.comp_apply]
  congr 1
  omega

theorem foldStep_invoked_le (request : Request) (acc : FilterFold) (filter : OutFilter) :
    acc.invoked ≤ (foldStep request acc filter).invoked := by
  unfold foldStep
  split
  · exact Nat.le_refl _
  · split
    · exact Nat.le_succ _
    · exact Nat.le_succ _

theorem foldl_foldStep_invoked_le (request : Request) (filters : List OutFilter)
    (acc : FilterFold) : acc.invoked ≤ (filters.foldl (foldStep request) acc).invoked := by
  induction filters generalizing acc with
  | nil => exact Nat.le_refl _
  | cons filter rest ih =>
    rw [List.foldl_cons]
    exact Nat.le_trans (foldStep_invoked_le request acc filter) (ih _)

theorem outFilterEvents_one (i : Nat) : outFilterEvents i 1 = [Event.outFilter i] := rfl

/-- The loop of lines 418-426 computes the fold: from a running state of the
fold, the loop over the remaining filters ends with the result, the argument map
and the invocations of the fold over them. -/
theorem runOutFilters_foldl (request : Request) (filters : List OutFilter) (i : Nat)
    (result : GoValue) (st : St) (n : Nat) :
    runOutFilters request filters i result st
      = ((match (filters.foldl (foldStep request)
            { result := result, args := st.args, stopped := false, invoked := n,
              panicked := none }).panicked with
          | some p => .error p
          | none => .ok (filters.foldl (foldStep request)
              { result := result, args := st.args, stopped := false, invoked := n,
                panicked := none }).result),
         { st with
           args := (filters.foldl (foldStep request)
              { result := result, args := st.args, stopped := false, invoked := n,
                panicked := none }).args
           trace := st.trace ++ outFilterEvents i
             ((filters.foldl (foldStep request)
              { result := result, args := st.args, stopped := false, invoked := n,
                panicked := none }).invoked - n) }) := by
  induction filters generalizing i result st n with
  | nil => simp [runOutFilters, outFilterEvents]
  | cons filter rest ih =>
    rw [List.foldl_cons]
    unfold runOutFilters
    cases hf : filter st.args request result with
    | error p =>
      have hstep : foldStep request
          { result := result, args := st.args, stopped := false, invoked := n, panicked := none }
          filter
          = { result := result, args := st.args, stopped := false, invoked := n + 1,
              panicked := some p } := by
        simp [foldStep, hf]
      rw [hstep, foldl_foldStep_done request rest
        { result := result, args := st.args, stopped := false, invoked := n + 1,
          panicked := some p } (Or.inr rfl)]
      simp [St.emit, outFilterEvents_one]
    | ok out =>
      obtain ⟨args1, newResult, done⟩ := out
      have hstep : foldStep request
          { result := result, args := st.args, stopped := false, invoked := n, panicked := none }
          filter
          = { result := if newResult.IsValid then newResult else result, args := args1,
              stopped := done, invoked := n + 1, panicked := none } := by
        simp [foldStep, hf]
      rw [hstep]
      cases done with
      | true =>
        rw [foldl_foldStep_done request rest
          { result := if newResult.IsValid then newResult else result, args := args1,
            stopped := true, invoked := n + 1, panicked := none } (Or.inl rfl)]
        simp [St.emit, outFilterEvents_one]
      | false =>
        simp only [Bool.false_eq_true, if_false]
        rw [ih (i + 1) _ { st.emit (.outFilter i) with args := args1 } (n + 1)]
        have hle := foldl_foldStep_invoked_le request rest
          { result := if newResult.IsValid then newResult else result, args := args1,
            stopped := false, invoked := n + 1, panicked := none }
        simp only at hle
        have hsub : (rest.foldl (foldStep request)
            { result := if newResult.IsValid then newResult else result, args := args1,
              stopped := false, invoked := n + 1, panicked := none }).invoked - n
            = ((rest.foldl (foldStep request)
            { result := if newResult.IsValid then newResult else result, args := args1,
              stopped := false, invoked := n + 1, panicked := none }).invoked - (n + 1)) + 1 := by
          omega
        rw [hsub, outFilterEvents_succ]
        simp [St.emit]

theorem logOutHeaders_outFilters (env : Env) (fs : List OutFilter) (hs : Values) (outLen : Int)
    (outHeaders : List (GoString × GoString)) :
    logOutHeaders { env with outFilters := fs } hs outLen outHeaders
      = logOutHeaders env hs outLen outHeaders := by
  induction hs generalizing outLen outHeaders with
  | nil => rfl
  | cons kv rest ih =>
    obtain ⟨k, v⟩ := kv
    cases v with
    | nil =>
      simp only [logOutHeaders]
      split
      · rfl
      · exact ih _ _
    | cons v0 vs =>
      simp only [logOutHeaders]
      split
      · exact ih _ _
      · exact ih _ _

theorem writeLog_outFilters (env : Env) (fs : List OutFilter) (logName : GoString)
    (result : GoValue) (outLen : Int) (request : Request) (st : St) (authLevel : Int)
    (extraInfo : GoMap) :
    writeLog { env with outFilters := fs } logName result outLen request st authLevel extraInfo
      = writeLog env logName result outLen request st authLevel extraInfo := by
  unfold writeLog
  simp only [logOutHeaders_outFilters]
  rfl

/-- C24: on an HTTP route the post-filter loop ends with the fold of the filters, in
order, over the result of the handler: a valid `newResult` replaces the current
result, a nil one leaves it, and no filter is invoked after the first one that
asks to stop; that result is the one written. For a request that resolved to a
WebSocket service the outcome does not depend on the post-filters: none is
run. -/
theorem dispatch_folds_outFilters (env : Env) (request : Request) (s : Option webServiceType)
    (authLevel : Int) (result result1 : GoValue) (st st1 : St)
    (hs : s.isSome = true)
    (hcall : doWebService s result st = (.ok result1, st1)) :
    runOutFilters request env.outFilters 0 result1 st1
      = ((match (foldOutFilters request env.outFilters result1 st1.args).panicked with
          | some p => .error p
          | none => .ok (foldOutFilters request env.outFilters result1 st1.args).result),
         { st1 with
           args := (foldOutFilters request env.outFilters result1 st1.args).args
           trace := st1.trace ++ outFilterEvents 0
             (foldOutFilters request env.outFilters result1 st1.args).invoked }) ∧
    ((foldOutFilters request env.outFilters result1 st1.args).panicked = none →
      dispatch env request s none authLevel result st
        = writeResult env request authLevel
            (foldOutFilters request env.outFilters result1 st1.args).result
            { st1 with
              args := (foldOutFilters request env.outFilters result1 st1.args).args
              trace := st1.trace ++ outFilterEvents 0
                (foldOutFilters request env.outFilters result1 st1.args).invoked }) ∧
    (∀ (ws : websocketServiceType) (fs : List OutFilter),
      dispatch { env with outFilters := fs } request s (some ws) authLevel result st
        = dispatch env request s (some ws) authLevel result st) := by
  have hrun := runOutFilters_foldl request env.outFilters 0 result1 st1 0
  refine ⟨hrun, ?_, ?_⟩
  · intro hok
    rw [dispatch_of_call env request s hs authLevel result st, hcall]
    simp only
    rw [hrun]
    unfold foldOutFilters at hok
    simp only [hok]
    rfl
  · intro ws fs
    unfold dispatch
    simp only
    split
    · unfold doWebsocketService
      simp only [writeLog_outFilters]
    · rfl

/-- C24 on `GET /api` behind three post-filters, of which the first returns
nil, the second returns `second` and asks to stop, the third would return `third`:
the fold invokes two filters and ends with `second`, which is the body
written. -/
theorem dispatch_folds_outFilters_witness :
    ((foldOutFilters (getRequest (ascii "/api")) outFilterEnv.outFilters
        (.ofString (ascii "handled")) []).invoked = 2 ∧
      runOutFilters (getRequest (ascii "/api")) outFilterEnv.outFilters 0
          (.ofString (ascii "handled")) ((stateWith []).emit .handler)
        = (.ok (.ofString (ascii "second")),
           { stateWith [] with trace := [.handler, .outFilter 0, .outFilter 1] })) ∧
    (ServeHTTP outFilterEnv (getRequest (ascii "/api")) response0 []).st.response.writerBody
      = ascii "second" ∧
    (ServeHTTP outFilterEnv (getRequest (ascii "/api")) response0 []).st.trace.map Event.label
      = [ascii "handler", ascii "outFilter", ascii "outFilter", ascii "log:ACCESS"] :=
  ⟨⟨rfl,
    (dispatch_folds_outFilters outFilterEnv (getRequest (ascii "/api"))
      (some (routeReturning [] 0 (ascii "handled"))) 0 .invalid (.ofString (ascii "handled"))
      (stateWith []) ((stateWith []).emit .handler) rfl rfl).1⟩,
    rfl, rfl⟩

/-! ## Requests without a result -/

/-- C28: on an HTTP route, when the pre-filters, the authorization, the handler
and the post-filters complete with the final result `result2`: if `result2` is nil,
`ServeHTTP` returns without touching the response (no body is written) and without
logging any record; and a record tagged ACCESS is in the log only if `result2`
is not nil and the path is not `/__CHECK__`. -/
theorem ServeHTTP_nil_result (env : Env) (request : Request) (response : Response)
    (logHeaders : List (GoString × GoString)) (s : webServiceType) (args0 : GoMap)
    (st2 st3 st4 st5 st6 : St) (result result1 result2 : GoValue)
    (hres : resolve env request = .ok { s := some s, ws := none, args := args0 })
    (hasm : assembleArgs env request
      { response := response, args := args0, logHeaders := logHeaders, trace := [] } = .ok st2)
    (hfil : runInFilters request env.inFilters 0 st2 = (.ok result, st3))
    (hauth : Authorized env request s.authLevel st3 st4)
    (hcall : doWebService (some s) result st4 = (.ok result1, st5))
    (hout : runOutFilters request env.outFilters 0 result1 st5 = (.ok result2, st6)) :
    (result2.IsValid = false →
      ServeHTTP env request response logHeaders = { st := st6, crashed := none } ∧
      st6.response = response ∧ logEntries st6.trace = []) ∧
    (∀ entry, Event.log entry ∈ (ServeHTTP env request response logHeaders).st.trace →
      entry.logName = ascii "ACCESS" →
      result2.IsValid = true ∧ requestPathOf request ≠ ascii "/__CHECK__") := by
  have hrouted := ServeHTTP_routed env request response logHeaders _ st2 hres (Or.inl rfl) hasm
  have hlevel : authLevelOf { s := some s, ws := none, args := args0 } = s.authLevel := rfl
  simp only [hlevel] at hrouted
  obtain ⟨hresp2, htrace2⟩ := assembled_state env request response logHeaders args0 st2 hasm
  have hbody : serveBody env request (some s) none s.authLevel st2
      = writeResult env request s.authLevel result2 st6 := by
    rw [serveBody_of_authorized env request (some s) none s.authLevel st2 st3 st4 result hfil
      hauth, dispatch_of_call env request (some s) rfl s.authLevel result st4, hcall]
    simp only [hout]
  rw [hbody] at hrouted
  have s3 := runInFilters_spec request env.inFilters 0 st2
  rw [hfil] at s3
  have s4 := hauth.keeps
  have s5 := doWebService_spec (some s) result st4
  rw [hcall] at s5
  have s6 := runOutFilters_spec request env.outFilters 0 result1 st5
  rw [hout] at s6
  have hresp6 : st6.response = response := by
    rw [s6.1, s5.1, s4.1, s3.1, hresp2]
  have hext : Extends (fun e => ∀ entry, e ≠ .log entry) st2 st6 :=
    (((s3.2.2.mono (fun e he entry hx => by
        obtain ⟨j, hj⟩ := he
        subst hj
        cases hx)).trans
      (s4.2.mono (fun e he entry hx => by
        subst he
        cases hx))).trans
      (s5.2.mono (fun e he entry hx => by
        subst he
        cases hx))).trans
      (s6.2.mono (fun e he entry hx => by
        obtain ⟨j, hj⟩ := he
        subst hj
        cases hx))
  have hnon : ∀ e ∈ st6.trace, ∀ entry, e ≠ .log entry :=
    hext.all (fun e he entry hx => by
      obtain ⟨msg, hm⟩ := htrace2 e he
      subst hm
      cases hx)
  have hnil : result2.IsValid = false →
      ServeHTTP env request response logHeaders = { st := st6, crashed := none } := by
    intro hv
    rw [hrouted]
    simp only [writeResult, hv, if_true, recoverPanic]
  constructor
  · intro hv
    exact ⟨hnil hv, hresp6, logEntries_eq_nil _ hnon⟩
  · intro entry hmem hname
    by_cases hv : result2.IsValid = true
    · refine ⟨hv, ?_⟩
      intro hpath
      have htr : (writeResult env request s.authLevel result2 st6).2.trace = st6.trace := by
        unfold writeResult
        have hv1 : ¬ result2.IsValid = false := by simp [hv]
        rw [if_neg hv1]
        cases resultBytes env result2 with
        | error p => rfl
        | ok outBytes =>
          simp only [hpath, ne_eq, not_true_eq_false, if_false]
      have hrec := (recoverPanic_keeps_body env request s.authLevel
        (writeResult env request s.authLevel result2 st6)).2
      rw [← hrouted] at hrec
      obtain ⟨added, hadd, hP⟩ := hrec
      rw [hadd, htr] at hmem
      rcases List.mem_append.mp hmem with h | h
      · exact hnon _ h entry rfl
      · rcases hP _ h with h1 | ⟨msg, h1⟩ | ⟨entry1, h1, hn1⟩
        · cases h1
        · cases h1
        · cases h1
          rw [hname] at hn1
          exact absurd hn1 (by decide)
    · have hv0 : result2.IsValid = false := by simpa using hv
      rw [hnil hv0] at hmem
      exact absurd rfl (hnon _ hmem entry)

/-- C28 on `GET /silent`, whose handler returns nothing: the response is
untouched and nothing is logged; on `GET /__CHECK__`, whose handler returns
`ok`, the body is written and nothing is logged. -/
theorem ServeHTTP_nil_result_witness :
    (ServeHTTP silentEnv (getRequest (ascii "/silent")) response0 []
        = { st := { stateWith [] with trace := [.handler] }, crashed := none } ∧
      ({ stateWith [] with trace := [.handler] } : St).response = response0 ∧
      logEntries ({ stateWith [] with trace := [.handler] } : St).trace = []) ∧
    ((ServeHTTP silentEnv (getRequest (ascii "/__CHECK__")) response0 []).st.response.writerBody
        = ascii "ok" ∧
      (ServeHTTP silentEnv (getRequest (ascii "/__CHECK__")) response0 []).st.trace.map Event.label
        = [ascii "handler"]) :=
  ⟨(ServeHTTP_nil_result silentEnv (getRequest (ascii "/silent")) response0 []
      routeReturningNothing [] (stateWith []) (stateWith []) (stateWith [])
      { stateWith [] with trace := [.handler] } { stateWith [] with trace := [.handler] }
      .invalid .invalid .invalid rfl rfl rfl (Or.inl ⟨by decide, rfl⟩) rfl rfl).1 rfl,
    rfl, rfl⟩

/-! ## The allow set -/

theorem GoMap.set_of_not_mem (m : GoMap) (k : GoString) (v : GoValue)
    (h : k ∉ m.map Prod.fst) : GoMap.set m k v = m ++ [(k, v)] := by
  induction m with
  | nil => rfl
  | cons kv rest ih =>
    obtain ⟨k1, v1⟩ := kv
    have hne : k1 ≠ k := fun hk => h (by simp [hk])
    have hrest : k ∉ rest.map Prod.fst := fun hk => h (by simp [hk])
    simp [GoMap.set, hne, ih hrest]

theorem GoMap.delete_of_not_mem (m : GoMap) (k : GoString) (h : k ∉ m.map Prod.fst) :
    GoMap.delete m k = m := by
  unfold GoMap.delete
  rw [List.filter_eq_self]
  intro kv hkv
  have hne : kv.1 ≠ k := fun hk => h (by rw [← hk]; exact List.mem_map_of_mem _ hkv)
  simpa using hne

theorem SetMapIndex_ok (e : GoType) (m : GoMap) (k : GoString) (x : GoValue) (m1 : GoMap)
    (h : SetMapIndex e m k x = .ok m1) :
    m1 = if x.IsValid then GoMap.set m k (storeAs e x) else GoMap.delete m k := by
  by_cases he : e = .iface
  · subst he
    cases x <;> simp [SetMapIndex, storeAs, GoValue.IsValid] at h ⊢ <;> exact h.symm
  · cases x <;> simp only [SetMapIndex, storeAs, GoValue.IsValid, he, if_false] at h ⊢
    · simp at h ⊢
      exact h.symm
    all_goals
      split at h
      · simp at h ⊢
        exact h.symm
      · simp [reflectPanic] at h

theorem not_mem_keys_append (v2 : GoMap) (k0 : GoString) (x : GoValue)
    (rest : List (GoString × GoValue)) (hk0 : k0 ∉ rest.map Prod.fst)
    (hdisj : ∀ kf ∈ rest, kf.1 ∉ v2.map Prod.fst) :
    ∀ kf ∈ rest, kf.1 ∉ (v2 ++ [(k0, x)]).map Prod.fst := by
  intro kf hkf hmem
  rw [List.map_append, List.mem_append] at hmem
  rcases hmem with h | h
  · exact hdisj kf hkf h
  · simp only [List.map_cons, List.map_nil, List.mem_singleton] at h
    exact hk0 (by rw [← h]; exact List.mem_map_of_mem _ hkf)

/-- The loop over the fields of a struct at depth 1 under an allow set appends,
in order, what `loggedField` gives for each field. -/
theorem makeLogableFields_allow (uString : GoValue → GoString) (enc : GoString → Bool)
    (whole : GoValue) (allow : GoString → Bool) (numArrays : Int)
    (fields : List (GoString × GoValue)) (v2 out : GoMap)
    (hnodup : (fields.map Prod.fst).Nodup)
    (hdisj : ∀ kf ∈ fields, kf.1 ∉ v2.map Prod.fst)
    (hrun : makeLogableFields uString enc whole fields (some allow) numArrays 1 v2 = .ok out) :
    out = v2 ++ fields.filterMap (loggedField uString enc whole .iface allow numArrays) := by
  induction fields generalizing v2 with
  | nil =>
    simp only [makeLogableFields] at hrun
    cases hrun
    simp
  | cons kf rest ih =>
    obtain ⟨k0, f0⟩ := kf
    have hk0 : k0 ∉ rest.map Prod.fst := (List.nodup_cons.mp hnodup).1
    have hrest : (rest.map Prod.fst).Nodup := (List.nodup_cons.mp hnodup).2
    have hv2 : k0 ∉ v2.map Prod.fst := hdisj (k0, f0) (List.mem_cons_self _ _)
    have hdrest : ∀ kf ∈ rest, kf.1 ∉ v2.map Prod.fst :=
      fun kf h => hdisj kf (List.mem_cons_of_mem _ h)
    rw [makeLogableFields] at hrun
    simp only [allowed, true_and] at hrun
    by_cases ha : allow (ToLower k0) = false
    · rw [if_pos ha] at hrun
      rw [ih v2 hrest hdrest hrun]
      simp [List.filterMap_cons, loggedField, ha]
    · rw [if_neg ha] at hrun
      by_cases henc : requireEncryptField enc k0 = true
      · rw [if_pos henc] at hrun
        cases hset : SetMapIndex .iface v2 k0 (.ofString (encryptField uString whole)) with
        | error p => simp [hset] at hrun
        | ok v3 =>
          simp only [hset] at hrun
          have h3 := SetMapIndex_ok _ _ _ _ _ hset
          simp only [GoValue.ofString, GoValue.IsValid, if_true] at h3
          rw [GoMap.set_of_not_mem _ _ _ hv2] at h3
          subst h3
          rw [ih _ hrest (not_mem_keys_append v2 k0 _ rest hk0 hdrest) hrun]
          simp [List.filterMap_cons, loggedField, ha, henc, GoValue.ofString]
      · rw [if_neg henc] at hrun
        cases hx : makeLogableData uString enc f0 none numArrays (1 + 1) with
        | error p => simp [hx] at hrun
        | ok x =>
          have hx2 : makeLogableData uString enc f0 none numArrays 2 = .ok x := hx
          simp only [hx] at hrun
          cases hset : SetMapIndex .iface v2 k0 x with
          | error p => simp [hset] at hrun
          | ok v3 =>
            simp only [hset] at hrun
            have h3 := SetMapIndex_ok _ _ _ _ _ hset
            by_cases hv : x.IsValid = true
            · rw [if_pos hv, GoMap.set_of_not_mem _ _ _ hv2] at h3
              subst h3
              rw [ih _ hrest (not_mem_keys_append v2 k0 _ rest hk0 hdrest) hrun]
              simp [List.filterMap_cons, loggedField, ha, henc, hx2, hv]
            · rw [if_neg hv, GoMap.delete_of_not_mem _ _ hv2] at h3
              subst h3
              rw [ih _ hrest hdrest hrun]
              simp [List.filterMap_cons, loggedField, ha, henc, hx2, hv]

/-- The loop over the keys of a map at depth 1 under an allow set appends, in
order, what `loggedField` gives for each key. -/
theorem makeLogableEntries_allow (uString : GoValue → GoString) (enc : GoString → Bool)
    (whole : GoValue) (e : GoType) (allow : GoString → Bool) (numArrays : Int)
    (entries : List (GoString × GoValue)) (v2 out : GoMap)
    (hnodup : (entries.map Prod.fst).Nodup)
    (hdisj : ∀ kf ∈ entries, kf.1 ∉ v2.map Prod.fst)
    (hrun : makeLogableEntries uString enc whole e entries (some allow) numArrays 1 v2 = .ok out) :
    out = v2 ++ entries.filterMap (loggedField uString enc whole e allow numArrays) := by
  induction entries generalizing v2 with
  | nil =>
    simp only [makeLogableEntries] at hrun
    cases hrun
    simp
  | cons kf rest ih =>
    obtain ⟨k0, f0⟩ := kf
    have hk0 : k0 ∉ rest.map Prod.fst := (List.nodup_cons.mp hnodup).1
    have hrest : (rest.map Prod.fst).Nodup := (List.nodup_cons.mp hnodup).2
    have hv2 : k0 ∉ v2.map Prod.fst := hdisj (k0, f0) (List.mem_cons_self _ _)
    have hdrest : ∀ kf ∈ rest, kf.1 ∉ v2.map Prod.fst :=
      fun kf h => hdisj kf (List.mem_cons_of_mem _ h)
    rw [makeLogableEntries] at hrun
    simp only [allowed] at hrun
    by_cases ha : allow (ToLower k0) = false
    · rw [if_pos ha] at hrun
      rw [ih v2 hrest hdrest hrun]
      simp [List.filterMap_cons, loggedField, ha]
    · rw [if_neg ha] at hrun
      by_cases henc : requireEncryptField enc k0 = true
      · rw [if_pos henc] at hrun
        cases hset : SetMapIndex e v2 k0 (.ofString (encryptField uString whole)) with
        | error p => simp [hset] at hrun
        | ok v3 =>
          simp only [hset] at hrun
          have h3 := SetMapIndex_ok _ _ _ _ _ hset
          simp only [GoValue.ofString, GoValue.IsValid, if_true] at h3
          rw [GoMap.set_of_not_mem _ _ _ hv2] at h3
          subst h3
          rw [ih _ hrest (not_mem_keys_append v2 k0 _ rest hk0 hdrest) hrun]
          simp [List.filterMap_cons, loggedField, ha, henc, GoValue.ofString]
      · rw [if_neg henc] at hrun
        cases hx : makeLogableData uString enc f0 none numArrays (1 + 1) with
        | error p => simp [hx] at hrun
        | ok x =>
          have hx2 : makeLogableData uString enc f0 none numArrays 2 = .ok x := hx
          simp only [hx] at hrun
          cases hset : SetMapIndex e v2 k0 x with
          | error p => simp [hset] at hrun
          | ok v3 =>
            simp only [hset] at hrun
            have h3 := SetMapIndex_ok _ _ _ _ _ hset
            by_cases hv : x.IsValid = true
            · rw [if_pos hv, GoMap.set_of_not_mem _ _ _ hv2] at h3
              subst h3
              rw [ih _ hrest (not_mem_keys_append v2 k0 _ rest hk0 hdrest) hrun]
              simp [List.filterMap_cons, loggedField, ha, henc, hx2, hv]
            · rw [if_neg hv, GoMap.delete_of_not_mem _ _ hv2] at h3
              subst h3
              rw [ih _ hrest hdrest hrun]
              simp [List.filterMap_cons, loggedField, ha, henc, hx2, hv]

/-- C23, amended: a depth-1 call with an allow set on a struct, or on a map, whose
names are distinct, when it returns, yields the map of what `loggedField` gives for
each field or key, in order: the names not in the allow set are dropped, a name
in the encrypt set is masked, every other value is sanitized at depth 2 without
allow set, and a value that sanitizes to nil is dropped as well; a struct and a
map are filtered by the same rule. -/
theorem makeLogableData_allow_set (uString : GoValue → GoString) (enc : GoString → Bool)
    (allow : GoString → Bool) (numArrays : Int) (t : GoString) (e : GoType)
    (fields : List (GoString × GoValue)) (hnodup : (fields.map Prod.fst).Nodup) :
    (∀ out, makeLogableData uString enc (.struct t fields) (some allow) numArrays 1 = .ok out →
      out = .map .iface
        (fields.filterMap (loggedField uString enc (.struct t fields) .iface allow numArrays))) ∧
    (∀ out, makeLogableData uString enc (.map e fields) (some allow) numArrays 1 = .ok out →
      out = .map e
        (fields.filterMap (loggedField uString enc (.map e fields) e allow numArrays))) := by
  constructor
  · intro out hrun
    rw [makeLogableData] at hrun
    cases hf : makeLogableFields uString enc (.struct t fields) fields (some allow) numArrays 1 []
      with
    | error p => simp [hf] at hrun
    | ok v2 =>
      simp only [hf] at hrun
      cases hrun
      have h := makeLogableFields_allow uString enc (.struct t fields) allow numArrays fields []
        v2 hnodup (by simp) hf
      rw [h]
      rfl
  · intro out hrun
    rw [makeLogableData] at hrun
    cases hf : makeLogableEntries uString enc (.map e fields) e fields (some allow) numArrays 1 []
      with
    | error p => simp [hf] at hrun
    | ok v2 =>
      simp only [hf] at hrun
      cases hrun
      have h := makeLogableEntries_allow uString enc (.map e fields) e allow numArrays fields []
        v2 hnodup (by simp) hf
      rw [h]
      rfl

/-- C23 is false as stated: in the struct `{Name: "bob", Note: nil}` both names
are in the allow set, and the output holds `Name` only, because the nil value
of `Note` is dropped. -/
theorem makeLogableData_drops_nil_field :
    allowSome (ToLower (ascii "Note")) = true ∧
    makeLogableData textOf (fun _ => false)
        (.struct (ascii "User")
          [(ascii "Name", .iface (.ofString (ascii "bob"))), (ascii "Note", .iface .invalid)])
        (some allowSome) 10 1
      = .ok (.map .iface [(ascii "Name", .iface (.ofString (ascii "bob")))]) ∧
    makeLogableData textOf (fun _ => false)
        (.map .iface
          [(ascii "Name", .iface (.ofString (ascii "bob"))), (ascii "Note", .iface .invalid)])
        (some allowSome) 10 1
      = .ok (.map .iface [(ascii "Name", .iface (.ofString (ascii "bob")))]) :=
  ⟨by decide, rfl, rfl⟩

/-- C23 amended, on the fields `Name`, `Password`, `Age` and `Profile` under the
allow set `name`, `password`, `note`, `profile`, with `password` in the encrypt
set: as a struct and as a map, the output holds `Name`, the masked `Password`
and `Profile` with its key `age`, which the allow set does not hold; `Age` is
dropped. -/
theorem makeLogableData_allow_set_witness :
    (makeLogableData textOf maskEnv.encryptLogFields (.struct (ascii "User") userFields)
        (some allowSome) 10 1
      = .ok (.map .iface
          [(ascii "Name", .iface (.ofString (ascii "bob"))),
           (ascii "Password", .iface (.ofString (ascii "**"))),
           (ascii "Profile", .iface (.map .iface
             [(ascii "age", .iface (.scalar (ascii "int") (ascii "42")))]))]) ∧
      GoValue.map .iface
          [(ascii "Name", .iface (.ofString (ascii "bob"))),
           (ascii "Password", .iface (.ofString (ascii "**"))),
           (ascii "Profile", .iface (.map .iface
             [(ascii "age", .iface (.scalar (ascii "int") (ascii "42")))]))]
        = .map .iface (userFields.filterMap
            (loggedField textOf maskEnv.encryptLogFields (.struct (ascii "User") userFields)
              .iface allowSome 10))) ∧
    (makeLogableData textOf maskEnv.encryptLogFields (.map .iface userFields)
        (some allowSome) 10 1
      = .ok (.map .iface
          [(ascii "Name", .iface (.ofString (ascii "bob"))),
           (ascii "Password", .iface (.ofString (ascii "**"))),
           (ascii "Profile", .iface (.map .iface
             [(ascii "age", .iface (.scalar (ascii "int") (ascii "42")))]))]) ∧
      GoValue.map .iface
          [(ascii "Name", .iface (.ofString (ascii "bob"))),
           (ascii "Password", .iface (.ofString (ascii "**"))),
           (ascii "Profile", .iface (.map .iface
             [(ascii "age", .iface (.scalar (ascii "int") (ascii "42")))]))]
        = .map .iface (userFields.filterMap
            (loggedField textOf maskEnv.encryptLogFields (.map .iface userFields)
              .iface allowSome 10))) :=
  ⟨⟨rfl,
      (makeLogableData_allow_set textOf maskEnv.encryptLogFields allowSome 10 (ascii "User")
        .iface userFields (by decide)).1 _ rfl⟩,
    ⟨rfl,
      (makeLogableData_allow_set textOf maskEnv.encryptLogFields allowSome 10 (ascii "User")
        .iface userFields (by decide)).2 _ rfl⟩⟩

end S
